import Mathlib

/-!
# Equelle compiler front end: entity-set registry and function types

A shallow embedding of `compiler/SymbolTable.cpp`.

* C++ `int` is embedded as `Int`.  The only arithmetic on it is the increment of
  `next_entityset_index_`; signed overflow is undefined behaviour in C++ and would take
  more than two thousand million declarations, so the counter is not wrapped.
* `std::vector` is embedded as `List`, `emplace_back` / `push_back` as appending at the end.
* A loop or recursion that the C++ code does not bound (`isSubsetImpl`, the `while` of
  `entitySetType`) takes a fuel argument; `none` means that the fuel ran out.
* A thrown exception, a failed `assert` and undefined behaviour (dereferencing `end()`,
  indexing a vector out of range) are values of `Fault`.
* `yyerror` is embedded as the emission of a diagnostic: the messages an operation emits
  are returned next to its value.
* The scopes are the elements of the list `functions_`; the pointer `parent_scope_` is the
  position of the parent in that list, and a method of `Function` takes the list and the
  position of the scope it is called on.  `std::set<Variable>` is the list of its elements in
  name order.
* The singleton behind `SymbolTable::instance()` is passed explicitly: an operation takes the
  table and returns the table afterwards, the diagnostics and its result.  The iterators
  `main_function_` and `current_function_` are positions in `functions_`.
* A `const Function&` argument is embedded as a `FunctionRef`: an object of its own or the
  element of `functions_` at a position; what it designates is read at the point where the
  code reads it.
* "Every state reachable by" a set of operations is an inductive predicate with one
  constructor per operation (`ReachableDeclared`, `ReachableScopes`,
  `ReachableInstantiations`); an operation that throws contributes the table it threw in.
-/

namespace Equelle

/-! ## Declarations of `EquelleType.hpp` and `SymbolTable.hpp` -/

/-- Modelled from the spec: enum `BasicType` of `EquelleType.hpp`, which is not among the
sources.  The enumerators are the ones `SymbolTable.cpp` uses. -/
inductive BasicType where
  | Bool | Scalar | Vector | Cell | Face | Edge | Vertex | String | Void
  | StencilI | StencilJ | StencilK | Invalid
deriving DecidableEq, Repr

/-- Modelled from the spec: enum `CompositeType` of `EquelleType.hpp`, with the enumerators
`SymbolTable.cpp` uses. -/
inductive CompositeType where
  | None | Collection | Sequence
deriving DecidableEq, Repr

/-- Modelled from the spec: the canonical entity-set enumerators of `EquelleType.hpp`,
numbered in the order in which the constructor of `SymbolTable` declares the built-in sets. -/
def InteriorCells : Int := 0
/-- Modelled from the spec: canonical entity-set enumerator. -/
def BoundaryCells : Int := 1
/-- Modelled from the spec: canonical entity-set enumerator. -/
def AllCells : Int := 2
/-- Modelled from the spec: canonical entity-set enumerator. -/
def InteriorFaces : Int := 3
/-- Modelled from the spec: canonical entity-set enumerator. -/
def BoundaryFaces : Int := 4
/-- Modelled from the spec: canonical entity-set enumerator. -/
def AllFaces : Int := 5
/-- Modelled from the spec: canonical entity-set enumerator. -/
def InteriorEdges : Int := 6
/-- Modelled from the spec: canonical entity-set enumerator. -/
def BoundaryEdges : Int := 7
/-- Modelled from the spec: canonical entity-set enumerator. -/
def AllEdges : Int := 8
/-- Modelled from the spec: canonical entity-set enumerator. -/
def InteriorVertices : Int := 9
/-- Modelled from the spec: canonical entity-set enumerator. -/
def BoundaryVertices : Int := 10
/-- Modelled from the spec: canonical entity-set enumerator. -/
def AllVertices : Int := 11
/-- Modelled from the spec: the grid mapping / subset-of value of a type that has none. -/
def NotApplicable : Int := 12
/-- Modelled from the spec: the grid mapping of a type whose domain is defined later. -/
def PostponedDefinition : Int := 13
/-- Modelled from the spec: the first index handed out by `declareNewEntitySet`; it lies
above every canonical enumerator. -/
def FirstRuntimeEntitySet : Int := 14

/-- Modelled from the spec: the marker of `SymbolTable.hpp` for "no argument drives this
property". -/
def InvalidIndex : Int := -1
/-- Modelled from the spec: the array size of a type that is not an array. -/
def NotAnArray : Int := -1
/-- Modelled from the spec: the array size of an array whose size is not known. -/
def SomeArray : Int := -2

/-- Modelled from the spec: `canonicalGridMappingEntity` of `EquelleType.hpp`, which is not
among the sources.  The twelve canonical entity sets have the entity kind in their name;
every other index (runtime entity sets included) has no canonical kind. -/
def canonicalGridMappingEntity (gridmapping : Int) : BasicType :=
  if gridmapping = InteriorCells ∨ gridmapping = BoundaryCells ∨ gridmapping = AllCells then
    BasicType.Cell
  else if gridmapping = InteriorFaces ∨ gridmapping = BoundaryFaces ∨ gridmapping = AllFaces then
    BasicType.Face
  else if gridmapping = InteriorEdges ∨ gridmapping = BoundaryEdges ∨ gridmapping = AllEdges then
    BasicType.Edge
  else if gridmapping = InteriorVertices ∨ gridmapping = BoundaryVertices
      ∨ gridmapping = AllVertices then
    BasicType.Vertex
  else
    BasicType.Invalid

/-- Modelled from the spec: `isEntityType` of `EquelleType.hpp`: the entity types are Cell,
Face, Edge and Vertex. -/
def isEntityType (bt : BasicType) : Bool :=
  match bt with
  | BasicType.Cell | BasicType.Face | BasicType.Edge | BasicType.Vertex => true
  | _ => false

/-- Modelled from the spec: class `Dimension` (`Dimension.hpp` is not among the sources): the
rational exponents of the base quantities.  The functions embedded here only copy it. -/
structure Dimension where
  exponents : List Rat
deriving DecidableEq

/-- Modelled from the spec: the default-constructed `Dimension()`, dimensionless. -/
def Dimension.dimensionless : Dimension := ⟨[]⟩

/-- Modelled from the spec: class `EquelleType` of `EquelleType.hpp`.  The fields are in the
order of the arguments of the eight-argument constructor called in
`FunctionType::returnType`; the accessors `basicType()`, `compositeType()`, `gridMapping()`,
`subsetOf()`, `isMutable()`, `isDomain()`, `arraySize()`, `isStencil()` are the projections. -/
structure EquelleType where
  basicType : BasicType := BasicType.Invalid
  compositeType : CompositeType := CompositeType.None
  gridMapping : Int := NotApplicable
  subsetOf : Int := NotApplicable
  isMutable : Bool := false
  isDomain : Bool := false
  arraySize : Int := NotAnArray
  isStencil : Bool := false
deriving DecidableEq

/-- Modelled from the spec: `EquelleType::isCollection()`. -/
def EquelleType.isCollection (t : EquelleType) : Bool :=
  t.compositeType = CompositeType.Collection

/-- Modelled from the spec: struct `DynamicReturnSpecification` of `SymbolTable.hpp`: for each
property the index of the argument that determines it, or `InvalidIndex`.  The field names are
the ones `SymbolTable.cpp` reads; the default value has every marker invalid. -/
structure DynamicReturnSpecification where
  arg_index_for_basic_type : Int := InvalidIndex
  arg_index_for_gridmapping : Int := InvalidIndex
  arg_index_for_subset : Int := InvalidIndex
  arg_index_for_array_size : Int := InvalidIndex
  arg_index_for_dimension : Int := InvalidIndex
deriving DecidableEq

/-- Modelled from the spec: `DynamicReturnSpecification::activeType()`: some property of the
return type (basic type, grid mapping, subset, array size) is taken from an argument. -/
def DynamicReturnSpecification.activeType (d : DynamicReturnSpecification) : Bool :=
  decide (d.arg_index_for_basic_type ≠ InvalidIndex)
    || decide (d.arg_index_for_gridmapping ≠ InvalidIndex)
    || decide (d.arg_index_for_subset ≠ InvalidIndex)
    || decide (d.arg_index_for_array_size ≠ InvalidIndex)

/-- Modelled from the spec: `DynamicReturnSpecification::activeDimension()`: the return
dimension is taken from an argument. -/
def DynamicReturnSpecification.activeDimension (d : DynamicReturnSpecification) : Bool :=
  decide (d.arg_index_for_dimension ≠ InvalidIndex)

/-! ## Faults -/

/-- The ways in which an operation of `SymbolTable.cpp` fails to return a value. -/
inductive Fault where
  /-- A thrown `std::logic_error` with its message. -/
  | logic_error (what : String)
  /-- A thrown `std::runtime_error` with its message. -/
  | runtime_error (what : String)
  /-- A failed `assert`, with the asserted expression. -/
  | assertion_failed (expr : String)
  /-- Dereferencing the `end()` iterator that `findSet` returns for an undeclared index. -/
  | end_iterator_dereferenced
  /-- Reading `v[i]` with `i` outside the vector. -/
  | index_out_of_range
  /-- Following a `Function*` that points at no element of `functions_`. -/
  | invalid_pointer
deriving DecidableEq, Repr

deriving instance DecidableEq for Except

/-- Reading `v[i]` of a `std::vector` with an `int` index. -/
def vectorAt {α : Type} (v : List α) (i : Int) : Except Fault α :=
  if i < 0 then Except.error Fault.index_out_of_range
  else
    match v[i.toNat]? with
    | some x => Except.ok x
    | none => Except.error Fault.index_out_of_range

/-! ## EntitySet -/

/-- Class `EntitySet`: name, index and the index of the set this one is a subset of. -/
structure EntitySet where
  name : String
  index : Int
  subset_index : Int
deriving DecidableEq, Repr

/-- The accessor `EntitySet::subsetIndex()`. -/
def EntitySet.subsetIndex (e : EntitySet) : Int := e.subset_index

/-! ## Variable and FunctionType -/

/-- Class `Variable`. -/
structure Variable where
  name : String
  type : EquelleType
  dimension : List Dimension
  assigned : Bool
deriving DecidableEq

/-- The constructor `Variable::Variable(name, type, assigned)`; it does not mention
`dimension_`, which starts as the empty vector. -/
def Variable.new (name : String) (type : EquelleType := {}) (assigned : Bool := false) :
    Variable :=
  { name := name, type := type, dimension := [], assigned := assigned }

/-- Class `FunctionType`. -/
structure FunctionType where
  arguments : List Variable
  return_type : EquelleType
  return_dimension : List Dimension
  dynamic : DynamicReturnSpecification
deriving DecidableEq

/-- The default constructor `FunctionType::FunctionType()`. -/
def FunctionType.default : FunctionType :=
  { arguments := [], return_type := {}, return_dimension := [], dynamic := {} }

/-- The constructor `FunctionType::FunctionType(return_type)`. -/
def FunctionType.ofReturnType (return_type : EquelleType) : FunctionType :=
  { arguments := [], return_type := return_type,
    return_dimension := [Dimension.dimensionless], dynamic := {} }

/-- The constructor `FunctionType::FunctionType(args, return_type)`. -/
def FunctionType.ofArgs (args : List Variable) (return_type : EquelleType) : FunctionType :=
  { arguments := args, return_type := return_type,
    return_dimension := [Dimension.dimensionless], dynamic := {} }

/-- The constructor `FunctionType::FunctionType(args, return_type, return_dimension, dynamic)`. -/
def FunctionType.ofDynamic (args : List Variable) (return_type : EquelleType)
    (return_dimension : Dimension) (dynamic : DynamicReturnSpecification) : FunctionType :=
  { arguments := args, return_type := return_type,
    return_dimension := [return_dimension], dynamic := dynamic }

/-- The message of the exception thrown by the zero-argument `returnType()`. -/
def returnTypeMessage : String :=
  "Should not call FunctionType::returnType() with no arguments " ++
    "when the function has dynamic return type."

/-- The zero-argument `FunctionType::returnType()`. -/
def FunctionType.returnType0 (ft : FunctionType) : Except Fault EquelleType :=
  if ft.dynamic.activeType then
    Except.error (Fault.logic_error returnTypeMessage)
  else
    Except.ok ft.return_type

/-- The method `FunctionType::dynamicSubsetReturn(argtypes)`. -/
def FunctionType.dynamicSubsetReturn (ft : FunctionType) (argtypes : List EquelleType) :
    Except Fault Int :=
  if ft.dynamic.activeType then do
    let bt ←
      if ft.dynamic.arg_index_for_basic_type = InvalidIndex then
        Except.ok ft.return_type.basicType
      else
        (vectorAt argtypes ft.dynamic.arg_index_for_basic_type).map EquelleType.basicType
    let coll := ft.return_type.isCollection
    if isEntityType bt && coll then
      if ft.dynamic.arg_index_for_subset = InvalidIndex then
        Except.ok ft.return_type.subsetOf
      else
        (vectorAt argtypes ft.dynamic.arg_index_for_subset).map EquelleType.gridMapping
    else
      Except.ok NotApplicable
  else
    Except.ok NotApplicable

/-- The method `FunctionType::returnType(argtypes)`. -/
def FunctionType.returnType (ft : FunctionType) (argtypes : List EquelleType) :
    Except Fault EquelleType :=
  if argtypes.length ≠ ft.arguments.length then
    Except.error (Fault.assertion_failed "argtypes.size() == arguments_.size()")
  else if ft.dynamic.activeType then do
    let bt ←
      if ft.dynamic.arg_index_for_basic_type = InvalidIndex then
        Except.ok ft.return_type.basicType
      else
        (vectorAt argtypes ft.dynamic.arg_index_for_basic_type).map EquelleType.basicType
    let gridmapping ←
      if ft.dynamic.arg_index_for_gridmapping = InvalidIndex then
        Except.ok ft.return_type.gridMapping
      else
        (vectorAt argtypes ft.dynamic.arg_index_for_gridmapping).map EquelleType.gridMapping
    let subset ← ft.dynamicSubsetReturn argtypes
    let array_size ←
      if ft.dynamic.arg_index_for_array_size = InvalidIndex then
        Except.ok ft.return_type.arraySize
      else
        (vectorAt argtypes ft.dynamic.arg_index_for_array_size).map EquelleType.arraySize
    Except.ok
      { basicType := bt, compositeType := ft.return_type.compositeType,
        gridMapping := gridmapping, subsetOf := subset, isMutable := false,
        isDomain := ft.return_type.isDomain, arraySize := array_size,
        isStencil := ft.return_type.isStencil }
  else
    Except.ok ft.return_type

/-- The method `FunctionType::returnDimension(argdims)`. -/
def FunctionType.returnDimension (ft : FunctionType) (argdims : List Dimension) :
    Except Fault Dimension :=
  if argdims.length ≠ ft.arguments.length then
    Except.error (Fault.assertion_failed "argdims.size() == arguments_.size()")
  else if ft.dynamic.activeDimension then
    vectorAt argdims ft.dynamic.arg_index_for_dimension
  else
    vectorAt ft.return_dimension 0

/-- The method `FunctionType::returnArrayDimension(argdims)`. -/
def FunctionType.returnArrayDimension (ft : FunctionType) (argdims : List (List Dimension)) :
    Except Fault (List Dimension) :=
  if argdims.length ≠ ft.arguments.length then
    Except.error (Fault.assertion_failed "argdims.size() == arguments_.size()")
  else if ft.dynamic.activeDimension then
    vectorAt argdims ft.dynamic.arg_index_for_dimension
  else
    Except.ok ft.return_dimension

/-- The method `FunctionType::setReturnDimension(dim)`: resize to one element, store `dim`. -/
def FunctionType.setReturnDimension (ft : FunctionType) (dim : Dimension) : FunctionType :=
  { ft with return_dimension := [dim] }

/-- The method `FunctionType::setReturnArrayDimension(dims)`. -/
def FunctionType.setReturnArrayDimension (ft : FunctionType) (dims : List Dimension) :
    FunctionType :=
  { ft with return_dimension := dims }

/-- Modelled from the spec: the constructor of `DynamicReturnSpecification` that the brace
lists of the `SymbolTable` constructor call, as in `{ InvalidIndex, 0, InvalidIndex }`: the
markers for basic type, grid mapping and subset, then the optional ones for array size and
dimension. -/
def DynamicReturnSpecification.new (bt_ix gm_ix subset_ix : Int)
    (array_ix : Int := InvalidIndex) (dim_ix : Int := InvalidIndex) :
    DynamicReturnSpecification :=
  { arg_index_for_basic_type := bt_ix, arg_index_for_gridmapping := gm_ix,
    arg_index_for_subset := subset_ix, arg_index_for_array_size := array_ix,
    arg_index_for_dimension := dim_ix }

/-- The local `bt` of `FunctionType::returnType(argtypes)` and of
`FunctionType::dynamicSubsetReturn`: the resolved basic type. -/
def FunctionType.resolvedBasicType (ft : FunctionType) (argtypes : List EquelleType) :
    Except Fault BasicType :=
  if ft.dynamic.arg_index_for_basic_type = InvalidIndex then
    Except.ok ft.return_type.basicType
  else
    (vectorAt argtypes ft.dynamic.arg_index_for_basic_type).map EquelleType.basicType

/-- The local `gridmapping` of `FunctionType::returnType(argtypes)`. -/
def FunctionType.resolvedGridMapping (ft : FunctionType) (argtypes : List EquelleType) :
    Except Fault Int :=
  if ft.dynamic.arg_index_for_gridmapping = InvalidIndex then
    Except.ok ft.return_type.gridMapping
  else
    (vectorAt argtypes ft.dynamic.arg_index_for_gridmapping).map EquelleType.gridMapping

/-- The local `array_size` of `FunctionType::returnType(argtypes)`. -/
def FunctionType.resolvedArraySize (ft : FunctionType) (argtypes : List EquelleType) :
    Except Fault Int :=
  if ft.dynamic.arg_index_for_array_size = InvalidIndex then
    Except.ok ft.return_type.arraySize
  else
    (vectorAt argtypes ft.dynamic.arg_index_for_array_size).map EquelleType.arraySize

/-- A marker of a dynamic return specification for a call with `n` actuals: `InvalidIndex` or
the index of an actual. -/
def MarkerInRange (marker : Int) (n : Nat) : Prop :=
  marker = InvalidIndex ∨ (0 ≤ marker ∧ marker < n)

instance (marker : Int) (n : Nat) : Decidable (MarkerInRange marker n) :=
  inferInstanceAs (Decidable (marker = InvalidIndex ∨ (0 ≤ marker ∧ marker < n)))

/-- The function type of the built-in `FirstCell`, as the constructor of `SymbolTable`
declares it. -/
def builtin_FirstCell : FunctionType :=
  FunctionType.ofDynamic
    [Variable.new "faces" { basicType := BasicType.Face, compositeType := CompositeType.Collection }]
    { basicType := BasicType.Cell, compositeType := CompositeType.Collection,
      gridMapping := NotApplicable, subsetOf := AllCells }
    Dimension.dimensionless
    (DynamicReturnSpecification.new InvalidIndex 0 InvalidIndex)

/-- The function type of the built-in `SecondCell`, as the constructor of `SymbolTable`
declares it. -/
def builtin_SecondCell : FunctionType :=
  FunctionType.ofDynamic
    [Variable.new "faces" { basicType := BasicType.Face, compositeType := CompositeType.Collection }]
    { basicType := BasicType.Cell, compositeType := CompositeType.Collection,
      gridMapping := NotApplicable, subsetOf := AllCells }
    Dimension.dimensionless
    (DynamicReturnSpecification.new InvalidIndex 0 InvalidIndex)

/-- The function type of the built-in `InputDomainSubsetOf`, as the constructor of
`SymbolTable` declares it. -/
def builtin_InputDomainSubsetOf : FunctionType :=
  FunctionType.ofDynamic
    [Variable.new "name" { basicType := BasicType.String },
     Variable.new "entities"
      { basicType := BasicType.Invalid, compositeType := CompositeType.Collection,
        gridMapping := NotApplicable, subsetOf := NotApplicable, isMutable := false,
        isDomain := true }]
    { basicType := BasicType.Invalid, compositeType := CompositeType.Collection,
      gridMapping := NotApplicable, subsetOf := NotApplicable, isMutable := false,
      isDomain := true }
    Dimension.dimensionless
    (DynamicReturnSpecification.new 1 InvalidIndex 1)

/-! ## Function: scopes -/

/-- `Variable::operator<`: variables are ordered by name; `std::string` compares
lexicographically, here on the lists of characters. -/
def Variable.lt (a b : Variable) : Prop := a.name.data < b.name.data

instance : DecidableRel Variable.lt :=
  fun a b => inferInstanceAs (Decidable (a.name.data < b.name.data))

/-- The method `Variable::setType`. -/
def Variable.setType (v : Variable) (type : EquelleType) : Variable := { v with type := type }

/-- The method `Variable::dimension()`: it throws unless the variable carries exactly one
dimension. -/
def Variable.getDimension (v : Variable) : Except Fault Dimension :=
  match v.dimension with
  | [d] => Except.ok d
  | _ => Except.error (Fault.logic_error "Internal compiler error in Variable::dimension()")

/-- The method `Variable::setDimension(const Dimension&)`: resize to one element, store it. -/
def Variable.setDimension (v : Variable) (dimension : Dimension) : Variable :=
  { v with dimension := [dimension] }

/-- The method `Variable::setAssigned`. -/
def Variable.setAssigned (v : Variable) (assigned : Bool) : Variable :=
  { v with assigned := assigned }

/-- The call `local_variables_.find(Variable(name))` on the `std::set<Variable>`: the element
equivalent to the probe under `operator<`, that is, the one with this name; `none` stands for
`end()`.  The set is embedded as the list of its elements. -/
def findLocal (local_variables : List Variable) (name : String) : Option Variable :=
  local_variables.find? (fun v => decide (v.name = name))

/-- The call `local_variables_.insert(v)`: nothing happens when an element with the name of
`v` is present, otherwise `v` takes its place in the order of the names. -/
def insertLocal (local_variables : List Variable) (v : Variable) : List Variable :=
  if (findLocal local_variables v.name).isSome then local_variables
  else local_variables.orderedInsert Variable.lt v

/-- The call `local_variables_.erase(lit)` for the iterator `lit` that `find` returned for
this name. -/
def eraseLocal (local_variables : List Variable) (name : String) : List Variable :=
  local_variables.eraseP (fun v => decide (v.name = name))

/-- Class `Function`, a scope.  The pointer `parent_scope_` is embedded as the position of
the parent in the list `functions_` that holds the scopes (`none` for the null pointer). -/
structure Function where
  name : String
  type : FunctionType
  local_variables : List Variable
  parent_scope : Option Nat
  is_template : Bool
  instantiation_indices : List Int
deriving DecidableEq

/-- The constructors `Function::Function(name)` and `Function::Function(name, type)`: no
locals, no parent scope, no instantiations.  They do not mention `is_template_`, whose
declaration in `SymbolTable.hpp` is not among the sources; it is taken to start false. -/
def Function.new (name : String) (type : FunctionType := FunctionType.default) : Function :=
  { name := name, type := type, local_variables := [], parent_scope := none,
    is_template := false, instantiation_indices := [] }

/-- The private `Function::declared(name)`: found or not, and the type found. -/
def Function.declared (f : Function) (name : String) : Bool × EquelleType :=
  match findLocal f.local_variables name with
  | some lit => (true, lit.type)
  | none =>
    match f.type.arguments.find? (fun a => decide (a.name = name)) with
    | some ait => (true, ait.type)
    | none => (false, {})

/-- The method `Function::declareVariable(name, type)`: the scope afterwards and the
diagnostics passed to `yyerror`. -/
def Function.declareVariable (f : Function) (name : String) (type : EquelleType) :
    Function × List String :=
  if !(f.declared name).1 then
    ({ f with local_variables := insertLocal f.local_variables (Variable.new name type false) },
      [])
  else
    (f, ["redeclared variable: " ++ name])

/-- The outcome of a call on a scope: `none` when the fuel ran out, else a fault or the
returned value with the diagnostics passed to `yyerror`. -/
abbrev Outcome (α : Type) : Type := Option (Except Fault (α × List String))

/-- The call `declareVariable(name, type)` on the scope `functions[self]`: the scopes
afterwards and the diagnostics. -/
def declareVariable (functions : List Function) (self : Nat) (name : String)
    (type : EquelleType) : Except Fault (List Function × List String) :=
  match functions[self]? with
  | none => Except.error Fault.invalid_pointer
  | some f =>
    Except.ok (functions.set self (f.declareVariable name type).1, (f.declareVariable name type).2)

/-- The method `Function::variableType(name)` called on the scope `functions[self]`; the fuel
bounds the number of delegations to a parent scope. -/
def variableType (functions : List Function) : Nat → Nat → String → Outcome EquelleType
  | fuel, self, name =>
    match functions[self]? with
    | none => some (Except.error Fault.invalid_pointer)
    | some f =>
      if !(f.declared name).1 then
        match f.parent_scope with
        | some parent =>
          match fuel with
          | 0 => none
          | fuel + 1 => variableType functions fuel parent name
        | none => some (Except.ok ({}, ["could not find variable " ++ name]))
      else
        some (Except.ok ((f.declared name).2, []))

/-- The method `Function::variableDimension(name)` called on the scope `functions[self]`. -/
def variableDimension (functions : List Function) : Nat → Nat → String → Outcome Dimension
  | fuel, self, name =>
    match functions[self]? with
    | none => some (Except.error Fault.invalid_pointer)
    | some f =>
      match findLocal f.local_variables name with
      | some lit => some (lit.getDimension.map (fun d => (d, [])))
      | none =>
        match f.type.arguments.find? (fun a => decide (a.name = name)) with
        | some ait => some (ait.getDimension.map (fun d => (d, [])))
        | none =>
          match f.parent_scope with
          | some parent =>
            match fuel with
            | 0 => none
            | fuel + 1 => variableDimension functions fuel parent name
          | none =>
            some (Except.ok (Dimension.dimensionless,
              ["internal compiler error in Function::variableDimension()"]))

/-- The method `Function::isVariableDeclared(name)` called on the scope `functions[self]`. -/
def isVariableDeclared (functions : List Function) : Nat → Nat → String → Outcome Bool
  | fuel, self, name =>
    match functions[self]? with
    | none => some (Except.error Fault.invalid_pointer)
    | some f =>
      if (f.declared name).1 then
        some (Except.ok (true, []))
      else
        match f.parent_scope with
        | some parent =>
          match fuel with
          | 0 => none
          | fuel + 1 => isVariableDeclared functions fuel parent name
        | none => some (Except.ok (false, []))

/-- The method `Function::isVariableAssigned(name)` called on the scope `functions[self]`. -/
def isVariableAssigned (functions : List Function) : Nat → Nat → String → Outcome Bool
  | fuel, self, name =>
    match functions[self]? with
    | none => some (Except.error Fault.invalid_pointer)
    | some f =>
      match findLocal f.local_variables name with
      | some lit => some (Except.ok (lit.assigned, []))
      | none =>
        match f.type.arguments.find? (fun a => decide (a.name = name)) with
        | some ait => some (Except.ok (ait.assigned, []))
        | none =>
          match f.parent_scope with
          | some parent =>
            match fuel with
            | 0 => none
            | fuel + 1 => isVariableAssigned functions fuel parent name
          | none =>
            some (Except.ok (false,
              ["internal compiler error in Function::isVariableAssigned()"]))

/-- The method `Function::setVariableDimension(name, const Dimension&)` called on the scope
`functions[self]`: the scopes afterwards and the diagnostics. -/
def setVariableDimension (functions : List Function) :
    Nat → Nat → String → Dimension → Outcome (List Function)
  | fuel, self, name, dimension =>
    match functions[self]? with
    | none => some (Except.error Fault.invalid_pointer)
    | some f =>
      match findLocal f.local_variables name with
      | some lit =>
        let copy := lit.setDimension dimension
        some (Except.ok
          (functions.set self
            { f with local_variables := insertLocal (eraseLocal f.local_variables name) copy },
            []))
      | none =>
        match f.parent_scope with
        | some parent =>
          match fuel with
          | 0 => none
          | fuel + 1 => setVariableDimension functions fuel parent name dimension
        | none =>
          some (Except.ok (functions,
            ["internal compiler error in Function::setVariableDimension()"]))

/-- The name is a local variable or an argument of this scope. -/
def Function.hasName (f : Function) (name : String) : Prop :=
  name ∈ f.local_variables.map Variable.name ∨ name ∈ f.type.arguments.map Variable.name

instance (f : Function) (name : String) : Decidable (f.hasName name) :=
  inferInstanceAs (Decidable (_ ∨ _))

/-- The `k`-th scope on the parent chain of the scope `functions[self]`, the scope itself for
`k = 0`; `none` when the chain ends before or leaves the list. -/
def ancestor (functions : List Function) : Nat → Nat → Option Nat
  | 0, self => some self
  | k + 1, self =>
    match functions[self]? with
    | none => none
    | some f =>
      match f.parent_scope with
      | none => none
      | some parent => ancestor functions k parent

/-- No scope among the first `k` on the parent chain of `functions[self]` (the scope itself
first) has a local variable or an argument of this name. -/
def UndeclaredBelow (functions : List Function) (k self : Nat) (name : String) : Prop :=
  ∀ j, j < k → ∀ s, ancestor functions j self = some s →
    ∃ f, functions[s]? = some f ∧ ¬ f.hasName name

/-- The parent chain of `functions[self]` reaches after `k` steps a scope without parent, and
no scope on it, that root included, has a local variable or an argument of this name. -/
def UndeclaredOnChain (functions : List Function) (k self : Nat) (name : String) : Prop :=
  UndeclaredBelow functions (k + 1) self name
    ∧ ∃ root f, ancestor functions k self = some root ∧ functions[root]? = some f
        ∧ f.parent_scope = none

/-- A sample of nested scopes: `Main`, the function `f(x : Scalar)` declared in `Main`, and
the function `g` declared in `f`. -/
def sampleScopes : List Function :=
  [Function.new "Main" (FunctionType.ofReturnType { basicType := BasicType.Void }),
   { Function.new "f" (FunctionType.ofArgs [Variable.new "x" { basicType := BasicType.Scalar }]
      { basicType := BasicType.Scalar }) with parent_scope := some 0 },
   { Function.new "g" with parent_scope := some 1 }]

/-! ## The setters of Function -/

/-- The method `Variable::setDimension(const std::vector<Dimension>&)`. -/
def Variable.setDimensions (v : Variable) (dimensions : List Dimension) : Variable :=
  { v with dimension := dimensions }

/-- The method `Function::setVariableAssigned(name, assigned)` called on the scope
`functions[self]`: the scopes afterwards and the diagnostics. -/
def setVariableAssigned (functions : List Function) :
    Nat → Nat → String → Bool → Outcome (List Function)
  | fuel, self, name, assigned =>
    match functions[self]? with
    | none => some (Except.error Fault.invalid_pointer)
    | some f =>
      match findLocal f.local_variables name with
      | some lit =>
        let copy := lit.setAssigned assigned
        some (Except.ok
          (functions.set self
            { f with local_variables := insertLocal (eraseLocal f.local_variables name) copy },
            []))
      | none =>
        match f.parent_scope with
        | some parent =>
          match fuel with
          | 0 => none
          | fuel + 1 => setVariableAssigned functions fuel parent name assigned
        | none =>
          some (Except.ok (functions,
            ["internal compiler error in Function::setVariableAssigned()"]))

/-- The method `Function::setVariableType(name, type)` called on the scope
`functions[self]`. -/
def setVariableType (functions : List Function) :
    Nat → Nat → String → EquelleType → Outcome (List Function)
  | fuel, self, name, type =>
    match functions[self]? with
    | none => some (Except.error Fault.invalid_pointer)
    | some f =>
      match findLocal f.local_variables name with
      | some lit =>
        let copy := lit.setType type
        some (Except.ok
          (functions.set self
            { f with local_variables := insertLocal (eraseLocal f.local_variables name) copy },
            []))
      | none =>
        match f.parent_scope with
        | some parent =>
          match fuel with
          | 0 => none
          | fuel + 1 => setVariableType functions fuel parent name type
        | none =>
          some (Except.ok (functions,
            ["internal compiler error in Function::setVariableType()"]))

/-- The method `Function::setVariableDimension(name, const std::vector<Dimension>&)` called
on the scope `functions[self]`. -/
def setVariableDimensions (functions : List Function) :
    Nat → Nat → String → List Dimension → Outcome (List Function)
  | fuel, self, name, dimensions =>
    match functions[self]? with
    | none => some (Except.error Fault.invalid_pointer)
    | some f =>
      match findLocal f.local_variables name with
      | some lit =>
        let copy := lit.setDimensions dimensions
        some (Except.ok
          (functions.set self
            { f with local_variables := insertLocal (eraseLocal f.local_variables name) copy },
            []))
      | none =>
        match f.parent_scope with
        | some parent =>
          match fuel with
          | 0 => none
          | fuel + 1 => setVariableDimensions functions fuel parent name dimensions
        | none =>
          some (Except.ok (functions,
            ["internal compiler error in Function::setVariableDimension()"]))

/-- The common shape of the four setters: find the local called `name` in the scope or, when it
has none, in its parent scope; replace it by `update` of it; report `message` when the chain
ends without such a local. -/
def setVariableWith (update : Variable → Variable) (message : String)
    (functions : List Function) : Nat → Nat → String → Outcome (List Function)
  | fuel, self, name =>
    match functions[self]? with
    | none => some (Except.error Fault.invalid_pointer)
    | some f =>
      match findLocal f.local_variables name with
      | some lit =>
        some (Except.ok
          (functions.set self
            { f with
              local_variables := insertLocal (eraseLocal f.local_variables name) (update lit) },
            []))
      | none =>
        match f.parent_scope with
        | some parent =>
          match fuel with
          | 0 => none
          | fuel + 1 => setVariableWith update message functions fuel parent name
        | none => some (Except.ok (functions, [message]))

/-- The method `Function::clearLocalVariables()`. -/
def Function.clearLocalVariables (f : Function) : Function := { f with local_variables := [] }

/-- The method `Function::addInstantiation(index)`: `push_back` on the instantiation
indices. -/
def Function.addInstantiation (f : Function) (index : Int) : Function :=
  { f with instantiation_indices := f.instantiation_indices ++ [index] }

/-- The method `Function::instantiations()`. -/
def Function.instantiations (f : Function) : List Int := f.instantiation_indices

/-- No scope among the first `k` on the parent chain of `functions[self]` has a local variable
of this name. -/
def NoLocalBelow (functions : List Function) (k self : Nat) (name : String) : Prop :=
  ∀ j, j < k → ∀ s, ancestor functions j self = some s →
    ∃ f, functions[s]? = some f ∧ findLocal f.local_variables name = none

/-- The parent chain of `functions[self]` reaches after `k` steps a scope without parent, and
no scope on it, that root included, has a local variable of this name. -/
def NoLocalOnChain (functions : List Function) (k self : Nat) (name : String) : Prop :=
  NoLocalBelow functions (k + 1) self name
    ∧ ∃ root f, ancestor functions k self = some root ∧ functions[root]? = some f
        ∧ f.parent_scope = none

/-- The scopes `fs2` differ from the scopes `fs` in at most one variable: the local called
`name` of the scope at position `s`, which is `v` in `fs` and `w` in `fs2`.  Every other scope
is the same, the scope `s` keeps its name, its type (so its argument list), its parent, its
template flag and its instantiations, its other locals are the same, and so are its local
names. -/
def ReplacesLocal (fs fs2 : List Function) (s : Nat) (name : String) (v w : Variable) : Prop :=
  fs2.length = fs.length
    ∧ (∀ i, i ≠ s → fs2[i]? = fs[i]?)
    ∧ ∃ S S2, fs[s]? = some S ∧ fs2[s]? = some S2
        ∧ S2.name = S.name ∧ S2.type = S.type ∧ S2.parent_scope = S.parent_scope
        ∧ S2.is_template = S.is_template
        ∧ S2.instantiation_indices = S.instantiation_indices
        ∧ findLocal S.local_variables name = some v
        ∧ findLocal S2.local_variables name = some w
        ∧ (∃ others, S.local_variables.Perm (v :: others)
            ∧ S2.local_variables.Perm (w :: others))
        ∧ (S2.local_variables.map Variable.name).Perm (S.local_variables.map Variable.name)

/-- The sample of nested scopes with a local variable `u : Scalar` in the scope `f`. -/
def sampleLocals : List Function :=
  [Function.new "Main" (FunctionType.ofReturnType { basicType := BasicType.Void }),
   { Function.new "f" (FunctionType.ofArgs [Variable.new "x" { basicType := BasicType.Scalar }]
      { basicType := BasicType.Scalar }) with
      parent_scope := some 0
      local_variables := [Variable.new "u" { basicType := BasicType.Scalar }] },
   { Function.new "g" with parent_scope := some 1 }]

/-! ## The entity-set registry of SymbolTable -/

/-- Modelled from the spec: `DimensionConstant::length` of `Dimension.hpp`: exponent one of
the first base quantity, length. -/
def Dimension.length : Dimension := ⟨[1]⟩

/-- The built-in functions that the constructor `SymbolTable::SymbolTable()` places in
`functions_`, in this order.  `emplace_back(name, type)` calls `Function::Function(name, type)`. -/
def builtinFunctions : List Function :=
  [ -- 1. Grid functions.
    Function.new "Main" (FunctionType.ofReturnType { basicType := BasicType.Void }),
    Function.new "InteriorCells" (FunctionType.ofReturnType
      { basicType := BasicType.Cell, compositeType := CompositeType.Collection,
        gridMapping := InteriorCells, subsetOf := AllCells, isMutable := false,
        isDomain := true }),
    Function.new "BoundaryCells" (FunctionType.ofReturnType
      { basicType := BasicType.Cell, compositeType := CompositeType.Collection,
        gridMapping := BoundaryCells, subsetOf := AllCells, isMutable := false,
        isDomain := true }),
    Function.new "AllCells" (FunctionType.ofReturnType
      { basicType := BasicType.Cell, compositeType := CompositeType.Collection,
        gridMapping := AllCells, subsetOf := AllCells, isMutable := false,
        isDomain := true }),
    Function.new "InteriorFaces" (FunctionType.ofReturnType
      { basicType := BasicType.Face, compositeType := CompositeType.Collection,
        gridMapping := InteriorFaces, subsetOf := AllFaces, isMutable := false,
        isDomain := true }),
    Function.new "BoundaryFaces" (FunctionType.ofReturnType
      { basicType := BasicType.Face, compositeType := CompositeType.Collection,
        gridMapping := BoundaryFaces, subsetOf := AllFaces, isMutable := false,
        isDomain := true }),
    Function.new "AllFaces" (FunctionType.ofReturnType
      { basicType := BasicType.Face, compositeType := CompositeType.Collection,
        gridMapping := AllFaces, subsetOf := AllFaces, isMutable := false,
        isDomain := true }),
    Function.new "InteriorEdges" (FunctionType.ofReturnType
      { basicType := BasicType.Edge, compositeType := CompositeType.Collection,
        gridMapping := InteriorEdges, subsetOf := AllEdges, isMutable := false,
        isDomain := true }),
    Function.new "BoundaryEdges" (FunctionType.ofReturnType
      { basicType := BasicType.Edge, compositeType := CompositeType.Collection,
        gridMapping := BoundaryEdges, subsetOf := AllEdges, isMutable := false,
        isDomain := true }),
    Function.new "AllEdges" (FunctionType.ofReturnType
      { basicType := BasicType.Edge, compositeType := CompositeType.Collection,
        gridMapping := AllEdges, subsetOf := AllEdges, isMutable := false,
        isDomain := true }),
    Function.new "InteriorVertices" (FunctionType.ofReturnType
      { basicType := BasicType.Vertex, compositeType := CompositeType.Collection,
        gridMapping := InteriorVertices, subsetOf := AllVertices, isMutable := false,
        isDomain := true }),
    Function.new "BoundaryVertices" (FunctionType.ofReturnType
      { basicType := BasicType.Vertex, compositeType := CompositeType.Collection,
        gridMapping := BoundaryVertices, subsetOf := AllVertices, isMutable := false,
        isDomain := true }),
    Function.new "AllVertices" (FunctionType.ofReturnType
      { basicType := BasicType.Vertex, compositeType := CompositeType.Collection,
        gridMapping := AllVertices, subsetOf := AllVertices, isMutable := false,
        isDomain := true }),
    Function.new "FirstCell" builtin_FirstCell,
    Function.new "SecondCell" builtin_SecondCell,
    Function.new "IsEmpty" (FunctionType.ofDynamic
      [Variable.new "entities"
        { basicType := BasicType.Invalid, compositeType := CompositeType.Collection }]
      { basicType := BasicType.Bool, compositeType := CompositeType.Collection }
      Dimension.dimensionless
      (DynamicReturnSpecification.new InvalidIndex 0 InvalidIndex)),
    Function.new "Centroid" (FunctionType.ofDynamic
      [Variable.new "entities"
        { basicType := BasicType.Invalid, compositeType := CompositeType.Collection }]
      { basicType := BasicType.Vector, compositeType := CompositeType.Collection }
      Dimension.length
      (DynamicReturnSpecification.new InvalidIndex 0 InvalidIndex)),
    Function.new "Normal" (FunctionType.ofDynamic
      [Variable.new "faces"
        { basicType := BasicType.Face, compositeType := CompositeType.Collection }]
      { basicType := BasicType.Vector, compositeType := CompositeType.Collection }
      Dimension.dimensionless
      (DynamicReturnSpecification.new InvalidIndex 0 InvalidIndex)),
    -- 2. User input functions.
    Function.new "InputScalarWithDefault" (FunctionType.ofArgs
      [Variable.new "name" { basicType := BasicType.String },
       Variable.new "default" { basicType := BasicType.Scalar }]
      { basicType := BasicType.Scalar }),
    Function.new "InputCollectionOfScalar" (FunctionType.ofDynamic
      [Variable.new "name" { basicType := BasicType.String },
       Variable.new "entities"
        { basicType := BasicType.Invalid, compositeType := CompositeType.Collection,
          gridMapping := NotApplicable, subsetOf := NotApplicable, isMutable := false,
          isDomain := true }]
      { basicType := BasicType.Scalar, compositeType := CompositeType.Collection }
      Dimension.dimensionless
      (DynamicReturnSpecification.new InvalidIndex 1 InvalidIndex)),
    Function.new "InputStencilCollectionOfScalar" (FunctionType.ofDynamic
      [Variable.new "name" { basicType := BasicType.String },
       Variable.new "entities"
        { basicType := BasicType.Invalid, compositeType := CompositeType.None,
          gridMapping := NotApplicable, subsetOf := NotApplicable, isMutable := false,
          isDomain := false, arraySize := NotAnArray, isStencil := true }]
      { basicType := BasicType.Scalar, compositeType := CompositeType.Collection,
        gridMapping := NotApplicable, subsetOf := NotApplicable, isMutable := false,
        isDomain := false, arraySize := NotAnArray, isStencil := true }
      Dimension.dimensionless
      (DynamicReturnSpecification.new InvalidIndex 1 InvalidIndex)),
    Function.new "InputDomainSubsetOf" builtin_InputDomainSubsetOf,
    Function.new "InputSequenceOfScalar" (FunctionType.ofArgs
      [Variable.new "name" { basicType := BasicType.String }]
      { basicType := BasicType.Scalar, compositeType := CompositeType.Sequence }),
    -- 3. Discrete operators.
    Function.new "Gradient" (FunctionType.ofDynamic
      [Variable.new "values"
        { basicType := BasicType.Scalar, compositeType := CompositeType.Collection,
          gridMapping := AllCells }]
      { basicType := BasicType.Scalar, compositeType := CompositeType.Collection,
        gridMapping := InteriorFaces }
      Dimension.dimensionless
      (DynamicReturnSpecification.new InvalidIndex InvalidIndex InvalidIndex InvalidIndex 0)),
    Function.new "Divergence" (FunctionType.ofDynamic
      [Variable.new "values"
        { basicType := BasicType.Scalar, compositeType := CompositeType.Collection }]
      { basicType := BasicType.Scalar, compositeType := CompositeType.Collection,
        gridMapping := AllCells }
      Dimension.dimensionless
      (DynamicReturnSpecification.new InvalidIndex InvalidIndex InvalidIndex InvalidIndex 0)),
    -- 4. Other functions
    Function.new "Dot" (FunctionType.ofDynamic
      [Variable.new "v1"
        { basicType := BasicType.Vector, compositeType := CompositeType.Collection },
       Variable.new "v2"
        { basicType := BasicType.Vector, compositeType := CompositeType.Collection }]
      { basicType := BasicType.Scalar, compositeType := CompositeType.Collection }
      Dimension.dimensionless
      (DynamicReturnSpecification.new InvalidIndex 0 InvalidIndex)),
    Function.new "NewtonSolve" (FunctionType.ofDynamic
      [Variable.new "residual_function" {},
       Variable.new "u_guess"
        { basicType := BasicType.Scalar, compositeType := CompositeType.Collection }]
      { basicType := BasicType.Scalar, compositeType := CompositeType.Collection }
      Dimension.dimensionless
      (DynamicReturnSpecification.new InvalidIndex 1 InvalidIndex InvalidIndex 1)),
    Function.new "NewtonSolveSystem" (FunctionType.ofDynamic
      [Variable.new "residual_function_array" {},
       Variable.new "u_guess_array"
        { basicType := BasicType.Scalar, compositeType := CompositeType.Collection,
          gridMapping := NotApplicable, subsetOf := NotApplicable, isMutable := false,
          isDomain := false, arraySize := SomeArray }]
      { basicType := BasicType.Scalar, compositeType := CompositeType.Collection }
      Dimension.dimensionless
      (DynamicReturnSpecification.new InvalidIndex 1 InvalidIndex 1 1)),
    Function.new "Output" (FunctionType.ofArgs
      [Variable.new "tag" { basicType := BasicType.String },
       Variable.new "data" {}]
      { basicType := BasicType.Void }),
    Function.new "Sqrt" (FunctionType.ofDynamic
      [Variable.new "s"
        { basicType := BasicType.Scalar, compositeType := CompositeType.Collection }]
      { basicType := BasicType.Scalar, compositeType := CompositeType.Collection }
      Dimension.dimensionless
      (DynamicReturnSpecification.new InvalidIndex 0 InvalidIndex)),
    Function.new "MaxReduce" (FunctionType.ofDynamic
      [Variable.new "x"
        { basicType := BasicType.Scalar, compositeType := CompositeType.Collection }]
      { basicType := BasicType.Scalar }
      Dimension.dimensionless
      (DynamicReturnSpecification.new InvalidIndex InvalidIndex InvalidIndex InvalidIndex 0)),
    Function.new "MinReduce" (FunctionType.ofDynamic
      [Variable.new "x"
        { basicType := BasicType.Scalar, compositeType := CompositeType.Collection }]
      { basicType := BasicType.Scalar }
      Dimension.dimensionless
      (DynamicReturnSpecification.new InvalidIndex InvalidIndex InvalidIndex InvalidIndex 0)),
    Function.new "SumReduce" (FunctionType.ofDynamic
      [Variable.new "x"
        { basicType := BasicType.Scalar, compositeType := CompositeType.Collection }]
      { basicType := BasicType.Scalar }
      Dimension.dimensionless
      (DynamicReturnSpecification.new InvalidIndex InvalidIndex InvalidIndex InvalidIndex 0)),
    Function.new "ProdReduce" (FunctionType.ofArgs
      [Variable.new "x"
        { basicType := BasicType.Scalar, compositeType := CompositeType.Collection }]
      { basicType := BasicType.Scalar }),
    Function.new "StencilI" (FunctionType.ofReturnType { basicType := BasicType.StencilI }),
    Function.new "StencilJ" (FunctionType.ofReturnType { basicType := BasicType.StencilJ }),
    Function.new "StencilK" (FunctionType.ofReturnType { basicType := BasicType.StencilK }) ]

/-- The members of class `SymbolTable`: the global function list `functions_`, the iterators
`main_function_` and `current_function_` into it (embedded as positions), the entity sets
`entitysets_` with the counter `next_entityset_index_`, and the instantiation store
`function_instantiations_`.  The owned AST root `ast_root_` is not embedded. -/
structure SymbolTable where
  functions : List Function
  main_function : Nat
  current_function : Nat
  entitysets : List EntitySet
  next_entityset_index : Int
  function_instantiations : List Function
deriving DecidableEq

/-- The private `SymbolTable::findSet(index)`: `std::find_if` over `entitysets_`, the first set
with that index; `none` stands for `entitysets_.end()`. -/
def findSet (entitysets : List EntitySet) (index : Int) : Option EntitySet :=
  entitysets.find? (fun es => decide (es.index = index))

/-- The private `SymbolTable::declareEntitySet`: `entitysets_.emplace_back(...)`. -/
def declareEntitySet (st : SymbolTable) (name : String) (entity_index subset_entity_index : Int) :
    SymbolTable :=
  { st with entitysets := st.entitysets ++ [⟨name, entity_index, subset_entity_index⟩] }

/-- The constructor `SymbolTable::SymbolTable()`: the counter starts at
`FirstRuntimeEntitySet`, the built-in functions are added to the function table, main and
current function are its first element, and the twelve built-in sets are declared in this
order. -/
def SymbolTable.initial : SymbolTable :=
  let st0 : SymbolTable :=
    { functions := builtinFunctions, main_function := 0, current_function := 0,
      entitysets := [], next_entityset_index := FirstRuntimeEntitySet,
      function_instantiations := [] }
  let st1 := declareEntitySet st0 "InteriorCells()" InteriorCells AllCells
  let st2 := declareEntitySet st1 "BoundaryCells()" BoundaryCells AllCells
  let st3 := declareEntitySet st2 "AllCells()" AllCells AllCells
  let st4 := declareEntitySet st3 "InteriorFaces()" InteriorFaces AllFaces
  let st5 := declareEntitySet st4 "BoundaryFaces()" BoundaryFaces AllFaces
  let st6 := declareEntitySet st5 "AllFaces()" AllFaces AllFaces
  let st7 := declareEntitySet st6 "InteriorEdges()" InteriorEdges AllEdges
  let st8 := declareEntitySet st7 "BoundaryEdges()" BoundaryEdges AllEdges
  let st9 := declareEntitySet st8 "AllEdges()" AllEdges AllEdges
  let st10 := declareEntitySet st9 "InteriorVertices()" InteriorVertices AllVertices
  let st11 := declareEntitySet st10 "BoundaryVertices()" BoundaryVertices AllVertices
  declareEntitySet st11 "AllVertices()" AllVertices AllVertices

/-- The static `SymbolTable::declareNewEntitySet(name, subset_entity_index)`: the returned index
and the table afterwards. -/
def declareNewEntitySet (st : SymbolTable) (name : String) (subset_entity_index : Int) :
    Int × SymbolTable :=
  let new_entityset_index := st.next_entityset_index
  let st1 := { st with next_entityset_index := st.next_entityset_index + 1 }
  (new_entityset_index, declareEntitySet st1 name new_entityset_index subset_entity_index)

/-- The diagnostic `isSubsetImpl` emits for an undeclared first argument. -/
def isSubsetMessage : String := "internal compiler error in Function::isSubset()"

/-- The private `SymbolTable::isSubsetImpl(set1, set2)`.  The fuel bounds the depth of the
recursion; the second component lists the diagnostics passed to `yyerror`. -/
def isSubsetImpl (entitysets : List EntitySet) :
    Nat → Int → Int → Option (Bool × List String)
  | fuel, set1, set2 =>
    if set1 = set2 then
      some (true, [])
    else
      match findSet entitysets set1 with
      | none => some (false, [isSubsetMessage])
      | some it =>
        if it.subsetIndex = set2 then
          some (true, [])
        else if it.subsetIndex = set1 then
          some (false, [])
        else
          match fuel with
          | 0 => none
          | fuel + 1 => isSubsetImpl entitysets fuel it.subsetIndex set2

/-- The static `SymbolTable::isSubset(set1, set2)`. -/
def isSubset (fuel : Nat) (st : SymbolTable) (set1 set2 : Int) : Option (Bool × List String) :=
  isSubsetImpl st.entitysets fuel set1 set2

/-- The `while (canonical == Invalid)` loop of `SymbolTable::entitySetType` on the loop state
`(es, canonical)`; the fuel bounds the number of iterations. -/
def entitySetTypeLoop (entitysets : List EntitySet) :
    Nat → Int → BasicType → Option (Except Fault BasicType)
  | fuel, es, canonical =>
    if canonical = BasicType.Invalid then
      match fuel with
      | 0 => none
      | fuel + 1 =>
        match findSet entitysets es with
        | none => some (Except.error Fault.end_iterator_dereferenced)
        | some it =>
          entitySetTypeLoop entitysets fuel it.subsetIndex
            (canonicalGridMappingEntity it.subsetIndex)
    else
      some (Except.ok canonical)

/-- The static `SymbolTable::entitySetType(entity_set_index)`. -/
def entitySetType (fuel : Nat) (st : SymbolTable) (entity_set_index : Int) :
    Option (Except Fault BasicType) :=
  entitySetTypeLoop st.entitysets fuel entity_set_index
    (canonicalGridMappingEntity entity_set_index)

/-- The static `SymbolTable::entitySetName(entity_set_index)`: `findSet(...)->name()`. -/
def entitySetName (st : SymbolTable) (entity_set_index : Int) : Except Fault String :=
  match findSet st.entitysets entity_set_index with
  | none => Except.error Fault.end_iterator_dereferenced
  | some it => Except.ok it.name

/-! ## The function table of SymbolTable -/

/-- The outcome of an operation on the symbol table: the table afterwards, the diagnostics
passed to `yyerror`, and the returned value or the fault.  When the operation throws, the
table is the one at the throw. -/
structure Effect (α : Type) where
  table : SymbolTable
  diagnostics : List String
  result : Except Fault α

/-- The private `SymbolTable::findFunction(name)`: `std::find_if` over `functions_`, the
position of the first function with this name; `none` stands for `functions_.end()`. -/
def findFunction (functions : List Function) (name : String) : Option Nat :=
  functions.findIdx? (fun f => decide (f.name = name))

/-- The function that `declareFunctionImpl` appends: `Function(name, ftype)`, then
`setParentScope(&*current_function_)` and `setTemplate(is_template)`. -/
def declaredFunction (st : SymbolTable) (name : String) (ftype : FunctionType)
    (is_template : Bool) : Function :=
  { Function.new name ftype with
    parent_scope := some st.current_function, is_template := is_template }

/-- The private `SymbolTable::declareFunctionImpl(name, ftype, is_template)`. -/
def declareFunctionImpl (st : SymbolTable) (name : String) (ftype : FunctionType)
    (is_template : Bool) : Effect Unit :=
  match findFunction st.functions name with
  | none =>
    { table := { st with functions := st.functions ++ [declaredFunction st name ftype is_template] },
      diagnostics := [], result := Except.ok () }
  | some _ =>
    { table := st, diagnostics := ["function already declared: " ++ name],
      result := Except.error (Fault.logic_error "Function already declared.") }

/-- The static `SymbolTable::declareFunction(name, ftype, is_template)`. -/
def declareFunction (st : SymbolTable) (name : String) (ftype : FunctionType)
    (is_template : Bool) : Effect Unit :=
  declareFunctionImpl st name ftype is_template

/-- The static `SymbolTable::declareFunction(name)`. -/
def declareFunction1 (st : SymbolTable) (name : String) : Effect Unit :=
  declareFunctionImpl st name FunctionType.default false

/-- The static `SymbolTable::isFunctionDeclared(name)`. -/
def isFunctionDeclared (st : SymbolTable) (name : String) : Bool :=
  (findFunction st.functions name).isSome

/-- The static `SymbolTable::getFunction(name)` with `getFunctionImpl`: the diagnostics and
the function found or the fault thrown. -/
def getFunction (st : SymbolTable) (name : String) : List String × Except Fault Function :=
  match findFunction st.functions name with
  | none =>
    (["could not find function " ++ name], Except.error (Fault.logic_error "Function not found."))
  | some it =>
    match st.functions[it]? with
    | some f => ([], Except.ok f)
    | none => ([], Except.error Fault.invalid_pointer)

/-- The static `SymbolTable::getCurrentFunction()`: `*current_function_`. -/
def getCurrentFunction (st : SymbolTable) : Except Fault Function :=
  match st.functions[st.current_function]? with
  | some f => Except.ok f
  | none => Except.error Fault.invalid_pointer

/-- The static `SymbolTable::setCurrentFunction(name)` with `setCurrentFunctionImpl`. -/
def setCurrentFunction (st : SymbolTable) (name : String) : Effect Unit :=
  match findFunction st.functions name with
  | none =>
    { table := st,
      diagnostics := ["internal compiler error: could not find function " ++ name],
      result := Except.ok () }
  | some func =>
    { table := { st with current_function := func }, diagnostics := [],
      result := Except.ok () }

/-- The object that a `const Function&` argument designates.  It is either a Function object
that is no element of `functions_` (a local object of the caller, a temporary, or an element
of `function_instantiations_`: objects that `addFunctionInstantiation` does not change before
it copies its argument), or the element of `functions_` at a position, which is what
`getFunction`, `getCurrentFunction` and `getMutableFunction` return a reference to. -/
inductive FunctionRef where
  | object (f : Function)
  | element (position : Nat)
deriving DecidableEq

/-- The Function read through a reference when `functions_` holds these functions. -/
def FunctionRef.read (functions : List Function) : FunctionRef → Except Fault Function
  | FunctionRef.object f => Except.ok f
  | FunctionRef.element position =>
    match functions[position]? with
    | some f => Except.ok f
    | none => Except.error Fault.invalid_pointer

/-- The static `SymbolTable::addFunctionInstantiation(const Function& func)`.  The name is read
through the reference first; `getMutableFunction` reports and throws when no function has that
name; otherwise the function found gets the index appended; only then `push_back(func)` copies
what the reference designates, so an argument that is the function found itself is stored with
the new index. -/
def addFunctionInstantiation (st : SymbolTable) (func : FunctionRef) : Effect Int :=
  let index : Int := st.function_instantiations.length
  match func.read st.functions with
  | Except.error fault => { table := st, diagnostics := [], result := Except.error fault }
  | Except.ok named =>
    match findFunction st.functions named.name with
    | none =>
      { table := st, diagnostics := ["could not find function " ++ named.name],
        result := Except.error (Fault.logic_error "Function not found.") }
    | some it =>
      match st.functions[it]? with
      | none => { table := st, diagnostics := [], result := Except.error Fault.invalid_pointer }
      | some f =>
        let functions := st.functions.set it (f.addInstantiation index)
        match func.read functions with
        | Except.error fault =>
          { table := { st with functions := functions }, diagnostics := [],
            result := Except.error fault }
        | Except.ok copied =>
          { table :=
              { st with
                functions := functions,
                function_instantiations := st.function_instantiations ++ [copied] },
            diagnostics := [], result := Except.ok index }

/-- The static `SymbolTable::getFunctionInstantiation(index)`. -/
def getFunctionInstantiation (st : SymbolTable) (index : Int) : Except Fault Function :=
  vectorAt st.function_instantiations index

/-- The static `SymbolTable::clearLocalVariablesOfCurrentFunction()`. -/
def clearLocalVariablesOfCurrentFunction (st : SymbolTable) : Except Fault SymbolTable :=
  match st.functions[st.current_function]? with
  | some f =>
    Except.ok { st with functions := st.functions.set st.current_function f.clearLocalVariables }
  | none => Except.error Fault.invalid_pointer

/-- A call of one of the operations that change scopes, the function table or the
instantiation store. -/
inductive Call where
  | addFunctionInstantiation (func : FunctionRef)
  | declareFunction (name : String) (ftype : FunctionType) (is_template : Bool)
  | declareVariable (name : String) (type : EquelleType)
  | setVariableAssigned (name : String) (assigned : Bool)
  | setVariableType (name : String) (type : EquelleType)
  | setVariableDimension (name : String) (dimension : Dimension)
  | setVariableDimensions (name : String) (dimensions : List Dimension)
  | clearLocalVariablesOfCurrentFunction

/-- The table after a scope operation on the current function, `none` when it did not end
with a defined table (fuel ran out, or undefined behaviour). -/
def withScopes (st : SymbolTable) (r : Outcome (List Function)) : Option SymbolTable :=
  match r with
  | some (Except.ok (functions, _)) => some { st with functions := functions }
  | _ => none

/-- The table after a call, for the static operations of `SymbolTable` that route to the
current function; a call that throws `std::logic_error` leaves the table of the throw; `none`
when the call did not end with a defined table. -/
def Call.run (fuel : Nat) (st : SymbolTable) : Call → Option SymbolTable
  | Call.addFunctionInstantiation func =>
    match (Equelle.addFunctionInstantiation st func).result with
    | Except.error Fault.invalid_pointer => none
    | _ => some (Equelle.addFunctionInstantiation st func).table
  | Call.declareFunction name ftype is_template =>
    some (Equelle.declareFunction st name ftype is_template).table
  | Call.declareVariable name type =>
    withScopes st (some (Equelle.declareVariable st.functions st.current_function name type))
  | Call.setVariableAssigned name assigned =>
    withScopes st
      (Equelle.setVariableAssigned st.functions fuel st.current_function name assigned)
  | Call.setVariableType name type =>
    withScopes st (Equelle.setVariableType st.functions fuel st.current_function name type)
  | Call.setVariableDimension name dimension =>
    withScopes st
      (Equelle.setVariableDimension st.functions fuel st.current_function name dimension)
  | Call.setVariableDimensions name dimensions =>
    withScopes st
      (Equelle.setVariableDimensions st.functions fuel st.current_function name dimensions)
  | Call.clearLocalVariablesOfCurrentFunction =>
    match Equelle.clearLocalVariablesOfCurrentFunction st with
    | Except.ok st' => some st'
    | Except.error _ => none

/-- The table after a sequence of calls. -/
def runCalls (fuel : Nat) : SymbolTable → List Call → Option SymbolTable
  | st, [] => some st
  | st, call :: calls =>
    match call.run fuel st with
    | none => none
    | some st' => runCalls fuel st' calls

/-! ## equelleString -/

/-- Modelled from the spec: `basicTypeString` of `EquelleType.hpp`, the name of the basic
type. -/
def basicTypeString (bt : BasicType) : String :=
  match bt with
  | BasicType.Bool => "Bool"
  | BasicType.Scalar => "Scalar"
  | BasicType.Vector => "Vector"
  | BasicType.Cell => "Cell"
  | BasicType.Face => "Face"
  | BasicType.Edge => "Edge"
  | BasicType.Vertex => "Vertex"
  | BasicType.String => "String"
  | BasicType.Void => "Void"
  | BasicType.StencilI => "StencilI"
  | BasicType.StencilJ => "StencilJ"
  | BasicType.StencilK => "StencilK"
  | BasicType.Invalid => "Invalid"

/-- Modelled from the spec: `EquelleType::isArray()`: the array size is not `NotAnArray`. -/
def EquelleType.isArray (t : EquelleType) : Bool := decide (t.arraySize ≠ NotAnArray)

/-- Modelled from the spec: `EquelleType::isSequence()`. -/
def EquelleType.isSequence (t : EquelleType) : Bool :=
  t.compositeType = CompositeType.Sequence

/-- The call `std::to_string` on an `int`: the decimal numeral. -/
def to_string (n : Int) : String := toString n

/-- The expression `findSet(index)->name()` of `equelleString`. -/
def setNameOf (st : SymbolTable) (index : Int) : Except Fault String :=
  match findSet st.entitysets index with
  | none => Except.error Fault.end_iterator_dereferenced
  | some it => Except.ok it.name

/-- The static `SymbolTable::equelleString(type)`. -/
def equelleString (st : SymbolTable) (type : EquelleType) : Except Fault String := do
  let retval := ""
  let retval := if type.isMutable then retval ++ "Mutable " else retval
  let retval :=
    if type.isArray then retval ++ ("Array Of " ++ to_string type.arraySize ++ " ") else retval
  let retval :=
    if type.isCollection then retval ++ "Collection Of "
    else if type.isSequence then retval ++ "Sequence Of "
    else retval
  let retval := retval ++ basicTypeString type.basicType
  let retval ←
    if type.gridMapping ≠ NotApplicable ∧ type.gridMapping ≠ PostponedDefinition then
      (setNameOf st type.gridMapping).map (fun name => retval ++ " On " ++ name)
    else Except.ok retval
  let retval ←
    if type.subsetOf ≠ NotApplicable then
      (setNameOf st type.subsetOf).map (fun name => retval ++ " Subset Of " ++ name)
    else Except.ok retval
  Except.ok retval

/-! ## The superset chain of an entity set -/

/-- The set with this index is declared. -/
def isDeclared (entitysets : List EntitySet) (index : Int) : Prop :=
  ∃ e ∈ entitysets, e.index = index

instance (entitysets : List EntitySet) (index : Int) : Decidable (isDeclared entitysets index) :=
  inferInstanceAs (Decidable (∃ e ∈ entitysets, e.index = index))

/-- The immediate superset of the set with this index: `findSet(index)->subsetIndex()`,
`none` when the index is not declared. -/
def supersetOf (entitysets : List EntitySet) (index : Int) : Option Int :=
  (findSet entitysets index).map EntitySet.subsetIndex

/-- The `k`-fold superset of the set with this index, `none` when an undeclared index is met
on the way. -/
def supersetIter (entitysets : List EntitySet) : Nat → Int → Option Int
  | 0, index => some index
  | k + 1, index => (supersetOf entitysets index).bind (supersetIter entitysets k)

/-- The chain `a, superset(a), superset(superset(a)), ...` up to and including the first set
that is its own superset.  It also stops at an undeclared index and after `fuel` steps. -/
def supersetChain (entitysets : List EntitySet) : Nat → Int → List Int
  | fuel, a =>
    match findSet entitysets a with
    | none => [a]
    | some it =>
      if it.subsetIndex = a then [a]
      else
        match fuel with
        | 0 => [a]
        | fuel + 1 => a :: supersetChain entitysets fuel it.subsetIndex

/-- Following the superset links from `a` meets a set that is its own superset after at most
`fuel` steps, all the indices on the way being declared. -/
def reachesRoot (entitysets : List EntitySet) : Nat → Int → Bool
  | fuel, a =>
    match findSet entitysets a with
    | none => false
    | some it =>
      if it.subsetIndex = a then true
      else
        match fuel with
        | 0 => false
        | fuel + 1 => reachesRoot entitysets fuel it.subsetIndex

/-- A registry whose superset links are well-founded: the indices are pairwise distinct, every
superset index is declared, and the only cycles are roots pointing at themselves. -/
structure WellFormed (entitysets : List EntitySet) : Prop where
  distinct : (entitysets.map EntitySet.index).Nodup
  closed : ∀ e ∈ entitysets, isDeclared entitysets e.subset_index
  acyclic : ∀ e ∈ entitysets, ∀ k, 0 < k →
    supersetIter entitysets k e.index = some e.index → e.subset_index = e.index

/-- The canonical root sets. -/
def canonicalRoots : List Int := [AllCells, AllFaces, AllEdges, AllVertices]

/-- The superset chain of the set with this index reaches a canonical root set. -/
def ReachesCanonicalRoot (entitysets : List EntitySet) (index : Int) : Prop :=
  ∃ k r, supersetIter entitysets k index = some r ∧ r ∈ canonicalRoots

/-- The tables reachable from the initial table by `declareNewEntitySet` calls with arbitrary
arguments. -/
inductive Reachable : SymbolTable → Prop where
  | initial : Reachable SymbolTable.initial
  | declare (st : SymbolTable) (name : String) (subset_entity_index : Int) :
      Reachable st → Reachable (declareNewEntitySet st name subset_entity_index).2

/-- The tables reachable from the initial table by `declareNewEntitySet` calls whose
`subset_entity_index` is an already declared set. -/
inductive ReachableDeclared : SymbolTable → Prop where
  | initial : ReachableDeclared SymbolTable.initial
  | declare (st : SymbolTable) (name : String) (subset_entity_index : Int) :
      ReachableDeclared st → isDeclared st.entitysets subset_entity_index →
      ReachableDeclared (declareNewEntitySet st name subset_entity_index).2

/-- Successive `declareNewEntitySet` calls, one per `(name, subset_entity_index)` pair: the
returned indices in call order and the table afterwards. -/
def declareNewEntitySets (st : SymbolTable) : List (String × Int) → List Int × SymbolTable
  | [] => ([], st)
  | call :: calls =>
    let r := declareNewEntitySet st call.1 call.2
    let rs := declareNewEntitySets r.2 calls
    (r.1 :: rs.1, rs.2)

/-- The invariant of the registry under `declareNewEntitySet` calls on declared supersets. -/
structure RegistryInv (st : SymbolTable) : Prop where
  counter : FirstRuntimeEntitySet ≤ st.next_entityset_index
  below : ∀ e ∈ st.entitysets, e.index < st.next_entityset_index
  distinct : (st.entitysets.map EntitySet.index).Nodup
  closed : ∀ e ∈ st.entitysets, isDeclared st.entitysets e.subset_index
  roots : ∀ r ∈ canonicalRoots, supersetOf st.entitysets r = some r
  reaches : ∀ e ∈ st.entitysets, ReachesCanonicalRoot st.entitysets e.index

/-! ## Diagnostics that name an identifier -/

/-- The message contains the identifier as a substring: the characters of the identifier occur
contiguously in the message. -/
def Names (message identifier : String) : Prop := identifier.data <:+: message.data

instance (message identifier : String) : Decidable (Names message identifier) :=
  inferInstanceAs (Decidable (identifier.data <:+: message.data))

/-! ## The reference definition of the resolved return type -/

/-- The property of a return type as the specification resolves it: the static value when the
marker is `InvalidIndex`, otherwise the property of the designated argument (the static value
again when the marker designates no argument). -/
def resolveProperty {α : Type} (argtypes : List EquelleType) (marker : Int) (static : α)
    (property : EquelleType → α) : α :=
  if marker = InvalidIndex then static
  else
    match argtypes[marker.toNat]? with
    | some argument => property argument
    | none => static

/-- The reference definition of `returnType(argtypes)`, in the words of the specification:
the static return type when the dynamic type aspect is inactive; otherwise the type with basic
type, grid mapping and array size resolved each on its own, the given subset, the composite
type and the domain and stencil flags of the static return type, and never mutable. -/
def referenceReturnType (ft : FunctionType) (argtypes : List EquelleType) (subset : Int) :
    EquelleType :=
  if ft.dynamic.activeType then
    { basicType :=
        resolveProperty argtypes ft.dynamic.arg_index_for_basic_type ft.return_type.basicType
          EquelleType.basicType,
      compositeType := ft.return_type.compositeType,
      gridMapping :=
        resolveProperty argtypes ft.dynamic.arg_index_for_gridmapping ft.return_type.gridMapping
          EquelleType.gridMapping,
      subsetOf := subset,
      isMutable := false,
      isDomain := ft.return_type.isDomain,
      arraySize :=
        resolveProperty argtypes ft.dynamic.arg_index_for_array_size ft.return_type.arraySize
          EquelleType.arraySize,
      isStencil := ft.return_type.isStencil }
  else ft.return_type

/-! ## Reachable function tables -/

/-- The parent chain of `functions[self]` reaches after `k` steps a scope without parent. -/
def RootAfter (functions : List Function) (k self : Nat) : Prop :=
  ∃ root f, ancestor functions k self = some root ∧ functions[root]? = some f
    ∧ f.parent_scope = none

/-- Some scope among the first `k + 1` on the parent chain of `functions[self]` (the scope
itself first) has a local variable or an argument of this name. -/
def DeclaredWithin (functions : List Function) (k self : Nat) (name : String) : Prop :=
  ∃ j, j ≤ k ∧ ∃ s f, ancestor functions j self = some s ∧ functions[s]? = some f
    ∧ f.hasName name

/-- The tables reachable from the initial table by `declareFunction` and `setCurrentFunction`
calls; a call that throws leaves the table it threw in. -/
inductive ReachableScopes : SymbolTable → Prop where
  | initial : ReachableScopes SymbolTable.initial
  | declare (st : SymbolTable) (name : String) (ftype : FunctionType) (is_template : Bool) :
      ReachableScopes st → ReachableScopes (declareFunction st name ftype is_template).table
  | enter (st : SymbolTable) (name : String) :
      ReachableScopes st → ReachableScopes (setCurrentFunction st name).table

/-- The tables reachable from the initial table by `declareFunction`, `setCurrentFunction` and
`addFunctionInstantiation` calls; a call that throws leaves the table it threw in. -/
inductive ReachableInstantiations : SymbolTable → Prop where
  | initial : ReachableInstantiations SymbolTable.initial
  | declare (st : SymbolTable) (name : String) (ftype : FunctionType) (is_template : Bool) :
      ReachableInstantiations st →
      ReachableInstantiations (declareFunction st name ftype is_template).table
  | enter (st : SymbolTable) (name : String) :
      ReachableInstantiations st → ReachableInstantiations (setCurrentFunction st name).table
  | instantiate (st : SymbolTable) (func : FunctionRef) :
      ReachableInstantiations st →
      ReachableInstantiations (addFunctionInstantiation st func).table

/-- Every parent scope is a function strictly earlier in the list. -/
def ParentsFirst (functions : List Function) : Prop :=
  ∀ (i : Nat) (f : Function) (p : Nat), functions[i]? = some f → f.parent_scope = some p → p < i

/-- The invariant of the function list under `declareFunction`, `setCurrentFunction` and
`addFunctionInstantiation`: the cursor designates a function, the built-ins come first and have
no parent, every other function has a parent strictly before it, and the names are pairwise
distinct. -/
structure ScopeInv (st : SymbolTable) : Prop where
  cursor : st.current_function < st.functions.length
  size : builtinFunctions.length ≤ st.functions.length
  parents : ∀ (i : Nat) (f : Function), st.functions[i]? = some f →
    (i < builtinFunctions.length ∧ f.parent_scope = none)
      ∨ (builtinFunctions.length ≤ i ∧ ∃ p, f.parent_scope = some p ∧ p < i)
  names : (st.functions.map Function.name).Nodup

/-- The invariant of the instantiation store: the indices of every function are strictly
increasing, each designates a stored instantiation with the name of the function, and every
stored instantiation is designated by some function. -/
structure InstantiationInv (st : SymbolTable) : Prop where
  increasing : ∀ (j : Nat) (f : Function), st.functions[j]? = some f →
    f.instantiations.Pairwise (fun x y => x < y)
  stored : ∀ (j : Nat) (f : Function), st.functions[j]? = some f →
    ∀ x : Int, x ∈ f.instantiations →
      0 ≤ x ∧ ∃ g : Function, st.function_instantiations[x.toNat]? = some g ∧ g.name = f.name
  covered : ∀ n : Nat, n < st.function_instantiations.length →
    ∃ (j : Nat) (f : Function), st.functions[j]? = some f ∧ (n : Int) ∈ f.instantiations

/-! ## Lemmas on `findSet` and the superset chain -/

theorem findSet_some {es : List EntitySet} {i : Int} {e : EntitySet}
    (h : findSet es i = some e) : e ∈ es ∧ e.index = i := by
  unfold findSet at h
  exact ⟨List.mem_of_find?_eq_some h, by simpa using List.find?_some h⟩

theorem findSet_of_declared {es : List EntitySet} {i : Int} (h : isDeclared es i) :
    ∃ e, findSet es i = some e := by
  obtain ⟨e, he, hi⟩ := h
  cases hf : findSet es i with
  | some x => exact ⟨x, rfl⟩
  | none =>
    unfold findSet at hf
    rw [List.find?_eq_none] at hf
    have := hf e he
    simp [hi] at this

theorem declared_of_findSet {es : List EntitySet} {i : Int} {e : EntitySet}
    (h : findSet es i = some e) : isDeclared es i :=
  ⟨e, (findSet_some h).1, (findSet_some h).2⟩

theorem findSet_of_mem {es : List EntitySet} (hd : (es.map EntitySet.index).Nodup)
    {e : EntitySet} (he : e ∈ es) : findSet es e.index = some e := by
  induction es with
  | nil => cases he
  | cons x xs ih =>
    rw [List.map_cons, List.nodup_cons] at hd
    unfold findSet
    rw [List.find?_cons]
    by_cases hx : x.index = e.index
    · simp only [hx, decide_True]
      rcases List.mem_cons.1 he with h | h
      · rw [h]
      · exact absurd (hx ▸ List.mem_map_of_mem EntitySet.index h) hd.1
    · simp only [hx, decide_False]
      rcases List.mem_cons.1 he with h | h
      · exact absurd (h ▸ rfl) hx
      · exact ih hd.2 h

theorem supersetIter_add (es : List EntitySet) (i d : Nat) (a : Int) :
    supersetIter es (i + d) a = (supersetIter es i a).bind (supersetIter es d) := by
  induction i generalizing a with
  | zero => simp [supersetIter]
  | succ i ih =>
    rw [Nat.succ_add, supersetIter, supersetIter]
    cases supersetOf es a with
    | none => rfl
    | some s => simpa using ih s

theorem supersetIter_of_not_reachesRoot {es : List EntitySet}
    (hc : ∀ e ∈ es, isDeclared es e.subset_index) (n : Nat) :
    ∀ a, isDeclared es a → reachesRoot es n a = false →
      ∀ k, k ≤ n → ∃ c, supersetIter es k a = some c ∧ isDeclared es c
        ∧ supersetOf es c ≠ some c := by
  induction n with
  | zero =>
    intro a ha hr k hk
    obtain ⟨it, hit⟩ := findSet_of_declared ha
    have hk0 : k = 0 := by omega
    subst hk0
    refine ⟨a, rfl, ha, ?_⟩
    unfold reachesRoot at hr
    rw [hit] at hr
    by_cases hs : it.subsetIndex = a
    · simp [hs] at hr
    · simp [supersetOf, hit, hs]
  | succ n ih =>
    intro a ha hr k hk
    obtain ⟨it, hit⟩ := findSet_of_declared ha
    unfold reachesRoot at hr
    rw [hit] at hr
    by_cases hs : it.subsetIndex = a
    · simp [hs] at hr
    · simp only [hs, if_false] at hr
      cases k with
      | zero =>
        exact ⟨a, rfl, ha, by simp [supersetOf, hit, hs]⟩
      | succ k =>
        have hsub : isDeclared es it.subsetIndex := hc it (findSet_some hit).1
        obtain ⟨c, h1, h2, h3⟩ := ih it.subsetIndex hsub hr k (by omega)
        refine ⟨c, ?_, h2, h3⟩
        rw [supersetIter]
        simp [supersetOf, hit, h1]

theorem reachesRoot_of_wellFormed {es : List EntitySet} (hwf : WellFormed es) {a : Int}
    (ha : isDeclared es a) : reachesRoot es es.length a = true := by
  by_contra hne
  have hr : reachesRoot es es.length a = false := by simpa using hne
  have hchain := supersetIter_of_not_reachesRoot hwf.closed es.length a ha hr
  let f : Nat → Int := fun k => (supersetIter es k a).getD 0
  have hcard : ((es.map EntitySet.index).toFinset).card < (Finset.range (es.length + 1)).card := by
    have := List.toFinset_card_le (es.map EntitySet.index)
    simp only [List.length_map] at this
    simp only [Finset.card_range]
    omega
  have hmaps : ∀ k ∈ Finset.range (es.length + 1), f k ∈ (es.map EntitySet.index).toFinset := by
    intro k hk
    have hk' : k ≤ es.length := by
      have := Finset.mem_range.1 hk
      omega
    obtain ⟨c, h1, ⟨e, he, hei⟩, _⟩ := hchain k hk'
    simp only [f, h1, Option.getD_some, List.mem_toFinset, List.mem_map]
    exact ⟨e, he, hei⟩
  obtain ⟨i, hi, j, hj, hij, hfij⟩ := Finset.exists_ne_map_eq_of_card_lt_of_maps_to hcard hmaps
  -- a repeated index on the chain is a cycle through a set that is not a root
  have key : ∀ i j, i ≤ es.length → j ≤ es.length → i < j → f i = f j → False := by
    intro i j hi hj hlt hf
    obtain ⟨c, h1, ⟨e, he, hei⟩, hnr⟩ := hchain i hi
    obtain ⟨c', h1', _, _⟩ := hchain j hj
    have hcc : c' = c := by
      simp only [f, h1, h1', Option.getD_some] at hf
      exact hf.symm
    have hadd := supersetIter_add es i (j - i) a
    rw [show i + (j - i) = j by omega, h1', h1, hcc] at hadd
    simp only [Option.some_bind] at hadd
    have hroot := hwf.acyclic e he (j - i) (by omega) (by rw [hei]; exact hadd.symm)
    apply hnr
    have hfe := findSet_of_mem hwf.distinct he
    rw [hei] at hfe
    simp [supersetOf, hfe, EntitySet.subsetIndex, hroot, hei]
  have hi' : i ≤ es.length := by have := Finset.mem_range.1 hi; omega
  have hj' : j ≤ es.length := by have := Finset.mem_range.1 hj; omega
  rcases Nat.lt_or_gt_of_ne hij with h | h
  · exact key i j hi' hj' h hfij
  · exact key j i hj' hi' h hfij.symm

theorem mem_supersetChain_self (es : List EntitySet) (m : Nat) (a : Int) :
    a ∈ supersetChain es m a := by
  unfold supersetChain
  cases findSet es a with
  | none => simp
  | some it =>
    by_cases h : it.subsetIndex = a
    · simp [h]
    · cases m <;> simp [h]

theorem isSubsetImpl_self (es : List EntitySet) (fuel : Nat) (a : Int) :
    isSubsetImpl es fuel a a = some (true, []) := by
  unfold isSubsetImpl
  simp

theorem isSubsetImpl_eq_of_reachesRoot (es : List EntitySet) (b : Int) (n : Nat) :
    ∀ a fuel m, reachesRoot es n a = true → n ≤ fuel → n ≤ m →
      isSubsetImpl es fuel a b = some (decide (b ∈ supersetChain es m a), []) := by
  induction n with
  | zero =>
    intro a fuel m hr _ _
    by_cases hab : a = b
    · subst hab
      simp [isSubsetImpl_self, mem_supersetChain_self]
    · have hba : ¬ b = a := fun h => hab h.symm
      unfold reachesRoot at hr
      unfold isSubsetImpl supersetChain
      cases hit : findSet es a with
      | none => simp [hit] at hr
      | some it =>
        rw [hit] at hr
        by_cases hs : it.subsetIndex = a
        · have hsb : ¬ it.subsetIndex = b := by rw [hs]; exact hab
          simp [hs, hab, hba, hsb]
        · simp [hs] at hr
  | succ n ih =>
    intro a fuel m hr hf hm
    by_cases hab : a = b
    · subst hab
      simp [isSubsetImpl_self, mem_supersetChain_self]
    · have hba : ¬ b = a := fun h => hab h.symm
      unfold reachesRoot at hr
      unfold isSubsetImpl supersetChain
      cases hit : findSet es a with
      | none => simp [hit] at hr
      | some it =>
        rw [hit] at hr
        by_cases hs : it.subsetIndex = a
        · have hsb : ¬ it.subsetIndex = b := by rw [hs]; exact hab
          simp [hs, hab, hba, hsb]
        · simp only [hs, if_false] at hr
          obtain ⟨fuel, rfl⟩ : ∃ f, fuel = f + 1 := ⟨fuel - 1, by omega⟩
          obtain ⟨m, rfl⟩ : ∃ f, m = f + 1 := ⟨m - 1, by omega⟩
          have hrec := ih it.subsetIndex fuel m hr (by omega) (by omega)
          by_cases hsb : it.subsetIndex = b
          · have hmem : b ∈ supersetChain es m it.subsetIndex := by
              rw [hsb]
              exact mem_supersetChain_self es m b
            simp [hs, hab, hba, hsb, hmem]
            rw [← hsb]
            exact mem_supersetChain_self es m _
          · simp only [hab, hsb, hs, if_false, List.mem_cons, hba, false_or]
            exact hrec

theorem isSubsetImpl_mono (es : List EntitySet) (b : Int) (fuel : Nat) :
    ∀ a r, isSubsetImpl es fuel a b = some r →
      ∀ fuel', fuel ≤ fuel' → isSubsetImpl es fuel' a b = some r := by
  induction fuel with
  | zero =>
    intro a r h fuel' _
    unfold isSubsetImpl at h ⊢
    by_cases hab : a = b
    · simpa [hab] using h
    · cases hit : findSet es a with
      | none => simpa [hab, hit] using h
      | some it =>
        by_cases h1 : it.subsetIndex = b
        · simpa [hab, hit, h1] using h
        · by_cases h2 : it.subsetIndex = a
          · simpa [hab, hit, h1, h2] using h
          · simp [hab, hit, h1, h2] at h
  | succ fuel ih =>
    intro a r h fuel' hle
    obtain ⟨f, rfl⟩ : ∃ f, fuel' = f + 1 := ⟨fuel' - 1, by omega⟩
    unfold isSubsetImpl at h ⊢
    by_cases hab : a = b
    · simpa [hab] using h
    · cases hit : findSet es a with
      | none => simpa [hab, hit] using h
      | some it =>
        by_cases h1 : it.subsetIndex = b
        · simpa [hab, hit, h1] using h
        · by_cases h2 : it.subsetIndex = a
          · simpa [hab, hit, h1, h2] using h
          · simp only [hab, hit, h1, h2, if_false] at h ⊢
            exact ih it.subsetIndex r h f (by omega)

theorem supersetIter_root {es : List EntitySet} {a : Int} (h : supersetOf es a = some a)
    (k : Nat) : supersetIter es k a = some a := by
  induction k with
  | zero => rfl
  | succ k ih => rw [supersetIter, h]; simpa using ih

theorem exists_supersetIter_of_mem_supersetChain (es : List EntitySet) (b : Int) (m : Nat) :
    ∀ a, b ∈ supersetChain es m a → ∃ k, supersetIter es k a = some b := by
  induction m with
  | zero =>
    intro a h
    unfold supersetChain at h
    have hb : b = a := by
      cases hit : findSet es a with
      | none => simpa [hit] using h
      | some it => by_cases hs : it.subsetIndex = a <;> simpa [hit, hs] using h
    exact ⟨0, by rw [hb]; rfl⟩
  | succ m ih =>
    intro a h
    unfold supersetChain at h
    cases hit : findSet es a with
    | none =>
      have hb : b = a := by simpa [hit] using h
      exact ⟨0, by rw [hb]; rfl⟩
    | some it =>
      by_cases hs : it.subsetIndex = a
      · have hb : b = a := by simpa [hit, hs] using h
        exact ⟨0, by rw [hb]; rfl⟩
      · simp only [hit, hs, if_false, List.mem_cons] at h
        rcases h with hb | hmem
        · exact ⟨0, by rw [hb]; rfl⟩
        · obtain ⟨k, hk⟩ := ih it.subsetIndex hmem
          refine ⟨k + 1, ?_⟩
          rw [supersetIter]
          simpa [supersetOf, hit] using hk

theorem mem_supersetChain_of_supersetIter (es : List EntitySet) (b : Int) (n : Nat) :
    ∀ a m k, reachesRoot es n a = true → n ≤ m → supersetIter es k a = some b →
      b ∈ supersetChain es m a := by
  induction n with
  | zero =>
    intro a m k hr _ hk
    unfold reachesRoot at hr
    cases hit : findSet es a with
    | none => simp [hit] at hr
    | some it =>
      by_cases hs : it.subsetIndex = a
      · have hroot : supersetOf es a = some a := by simp [supersetOf, hit, hs]
        rw [supersetIter_root hroot k] at hk
        rw [← Option.some.inj hk]
        exact mem_supersetChain_self es m a
      · simp [hit, hs] at hr
  | succ n ih =>
    intro a m k hr hm hk
    unfold reachesRoot at hr
    cases hit : findSet es a with
    | none => simp [hit] at hr
    | some it =>
      by_cases hs : it.subsetIndex = a
      · have hroot : supersetOf es a = some a := by simp [supersetOf, hit, hs]
        rw [supersetIter_root hroot k] at hk
        rw [← Option.some.inj hk]
        exact mem_supersetChain_self es m a
      · simp only [hit, hs, if_false] at hr
        obtain ⟨m, rfl⟩ : ∃ f, m = f + 1 := ⟨m - 1, by omega⟩
        cases k with
        | zero =>
          rw [← Option.some.inj hk]
          exact mem_supersetChain_self es _ a
        | succ k =>
          rw [supersetIter] at hk
          simp only [supersetOf, hit, Option.map_some', Option.some_bind] at hk
          have := ih it.subsetIndex m k hr (by omega) hk
          unfold supersetChain
          simp only [hit, hs, if_false, List.mem_cons]
          exact Or.inr this

theorem supersetChain_getLast_root (es : List EntitySet) (n : Nat) :
    ∀ a m, reachesRoot es n a = true → n ≤ m →
      ∃ r, (supersetChain es m a).getLast? = some r ∧ supersetOf es r = some r := by
  induction n with
  | zero =>
    intro a m hr _
    unfold reachesRoot at hr
    unfold supersetChain
    cases hit : findSet es a with
    | none => simp [hit] at hr
    | some it =>
      by_cases hs : it.subsetIndex = a
      · exact ⟨a, by simp [hs], by simp [supersetOf, hit, hs]⟩
      · simp [hit, hs] at hr
  | succ n ih =>
    intro a m hr hm
    unfold reachesRoot at hr
    unfold supersetChain
    cases hit : findSet es a with
    | none => simp [hit] at hr
    | some it =>
      by_cases hs : it.subsetIndex = a
      · exact ⟨a, by simp [hs], by simp [supersetOf, hit, hs]⟩
      · simp only [hit, hs, if_false] at hr
        obtain ⟨m, rfl⟩ : ∃ f, m = f + 1 := ⟨m - 1, by omega⟩
        obtain ⟨r, h1, h2⟩ := ih it.subsetIndex m hr (by omega)
        refine ⟨r, ?_, h2⟩
        simp only [hs, if_false]
        have hne : supersetChain es m it.subsetIndex ≠ [] :=
          List.ne_nil_of_mem (mem_supersetChain_self es m it.subsetIndex)
        obtain ⟨x, xs, hx⟩ := List.exists_cons_of_ne_nil hne
        rw [hx] at h1 ⊢
        rw [List.getLast?_cons_cons]
        exact h1

/-! ## The registry invariant -/

theorem findSet_append_of_some {es : List EntitySet} {i : Int} {e : EntitySet}
    (h : findSet es i = some e) (l : List EntitySet) : findSet (es ++ l) i = some e := by
  unfold findSet at h ⊢
  rw [List.find?_append, h]
  rfl

theorem findSet_append_of_none {es : List EntitySet} {i : Int}
    (h : findSet es i = none) (l : List EntitySet) : findSet (es ++ l) i = findSet l i := by
  unfold findSet at h ⊢
  rw [List.find?_append, h]
  rfl

theorem findSet_none_of_below {es : List EntitySet} {n : Int}
    (h : ∀ e ∈ es, e.index < n) : findSet es n = none := by
  unfold findSet
  rw [List.find?_eq_none]
  intro e he
  have := h e he
  simp only [decide_eq_true_eq]
  omega

theorem findSet_new {es : List EntitySet} {n : Int} (h : ∀ e ∈ es, e.index < n)
    (name : String) (s : Int) : findSet (es ++ [⟨name, n, s⟩]) n = some ⟨name, n, s⟩ := by
  rw [findSet_append_of_none (findSet_none_of_below h)]
  simp [findSet]

theorem supersetOf_append {es : List EntitySet} {i s : Int}
    (h : supersetOf es i = some s) (l : List EntitySet) : supersetOf (es ++ l) i = some s := by
  unfold supersetOf at h ⊢
  cases hf : findSet es i with
  | none => simp [hf] at h
  | some e =>
    rw [findSet_append_of_some hf]
    simpa [hf] using h

theorem supersetIter_append (es l : List EntitySet) (k : Nat) :
    ∀ i r, supersetIter es k i = some r → supersetIter (es ++ l) k i = some r := by
  induction k with
  | zero => intro i r h; simpa [supersetIter] using h
  | succ k ih =>
    intro i r h
    rw [supersetIter] at h ⊢
    cases hs : supersetOf es i with
    | none => simp [hs] at h
    | some s =>
      rw [supersetOf_append hs]
      simp only [hs, Option.some_bind] at h ⊢
      exact ih s r h

theorem isDeclared_append {es : List EntitySet} {i : Int} (h : isDeclared es i)
    (l : List EntitySet) : isDeclared (es ++ l) i := by
  obtain ⟨e, he, hi⟩ := h
  exact ⟨e, List.mem_append_left l he, hi⟩

theorem declareNewEntitySet_entitysets (st : SymbolTable) (name : String) (s : Int) :
    (declareNewEntitySet st name s).2.entitysets
      = st.entitysets ++ [⟨name, st.next_entityset_index, s⟩] := rfl

theorem declareNewEntitySet_next (st : SymbolTable) (name : String) (s : Int) :
    (declareNewEntitySet st name s).2.next_entityset_index = st.next_entityset_index + 1 := rfl

theorem declareNewEntitySet_fst (st : SymbolTable) (name : String) (s : Int) :
    (declareNewEntitySet st name s).1 = st.next_entityset_index := rfl

theorem registryInv_initial : RegistryInv SymbolTable.initial where
  counter := by decide
  below := by decide
  distinct := by decide
  closed := by unfold isDeclared; decide
  roots := by decide
  reaches := by
    have h : ∀ e ∈ SymbolTable.initial.entitysets, ∃ r ∈ canonicalRoots,
        supersetIter SymbolTable.initial.entitysets 1 e.index = some r := by decide
    intro e he
    obtain ⟨r, hr, hk⟩ := h e he
    exact ⟨1, r, hk, hr⟩

theorem registryInv_declare {st : SymbolTable} (inv : RegistryInv st) (name : String)
    {s : Int} (hs : isDeclared st.entitysets s) :
    RegistryInv (declareNewEntitySet st name s).2 where
  counter := by
    rw [declareNewEntitySet_next]
    have := inv.counter
    omega
  below := by
    rw [declareNewEntitySet_next, declareNewEntitySet_entitysets]
    intro e he
    rcases List.mem_append.1 he with h | h
    · have := inv.below e h
      omega
    · rw [List.mem_singleton] at h
      rw [h]
      show st.next_entityset_index < st.next_entityset_index + 1
      omega
  distinct := by
    rw [declareNewEntitySet_entitysets, List.map_append, List.nodup_append]
    refine ⟨inv.distinct, by simp, ?_⟩
    intro i hi hi'
    simp only [List.map_cons, List.map_nil, List.mem_singleton] at hi'
    obtain ⟨e, he, hei⟩ := List.mem_map.1 hi
    have := inv.below e he
    omega
  closed := by
    rw [declareNewEntitySet_entitysets]
    intro e he
    rcases List.mem_append.1 he with h | h
    · exact isDeclared_append (inv.closed e h) _
    · rw [List.mem_singleton] at h
      rw [h]
      exact isDeclared_append hs _
  roots := by
    rw [declareNewEntitySet_entitysets]
    intro r hr
    exact supersetOf_append (inv.roots r hr) _
  reaches := by
    rw [declareNewEntitySet_entitysets]
    intro e he
    rcases List.mem_append.1 he with h | h
    · obtain ⟨k, r, hk, hr⟩ := inv.reaches e h
      exact ⟨k, r, supersetIter_append _ _ k _ r hk, hr⟩
    · rw [List.mem_singleton] at h
      rw [h]
      obtain ⟨e', he', hse⟩ := hs
      obtain ⟨k, r, hk, hr⟩ := inv.reaches e' he'
      refine ⟨k + 1, r, ?_, hr⟩
      rw [supersetIter]
      have hnew := findSet_new inv.below name s
      simp only [supersetOf, hnew, Option.map_some', Option.some_bind, EntitySet.subsetIndex]
      rw [← hse]
      exact supersetIter_append _ _ k _ r hk

theorem registryInv_of_reachableDeclared {st : SymbolTable} (h : ReachableDeclared st) :
    RegistryInv st := by
  induction h with
  | initial => exact registryInv_initial
  | declare st name s _ hs ih => exact registryInv_declare ih name hs

theorem reachable_of_reachableDeclared {st : SymbolTable} (h : ReachableDeclared st) :
    Reachable st := by
  induction h with
  | initial => exact Reachable.initial
  | declare st name s _ _ ih => exact Reachable.declare st name s ih

theorem reachable_counter {st : SymbolTable} (h : Reachable st) :
    FirstRuntimeEntitySet ≤ st.next_entityset_index
      ∧ ∀ e ∈ st.entitysets, e.index < st.next_entityset_index := by
  induction h with
  | initial => exact ⟨by decide, by decide⟩
  | declare st name s _ ih =>
    rw [declareNewEntitySet_next, declareNewEntitySet_entitysets]
    refine ⟨by omega, ?_⟩
    intro e he
    rcases List.mem_append.1 he with h | h
    · have := ih.2 e h
      omega
    · rw [List.mem_singleton] at h
      rw [h]
      show st.next_entityset_index < st.next_entityset_index + 1
      omega

theorem supersetOf_of_mem {st : SymbolTable} (inv : RegistryInv st) {e : EntitySet}
    (he : e ∈ st.entitysets) : supersetOf st.entitysets e.index = some e.subset_index := by
  simp [supersetOf, findSet_of_mem inv.distinct he, EntitySet.subsetIndex]

theorem wellFormed_of_registryInv {st : SymbolTable} (inv : RegistryInv st) :
    WellFormed st.entitysets where
  distinct := inv.distinct
  closed := inv.closed
  acyclic := by
    intro e he k hk hcycle
    obtain ⟨j, r, hj, hr⟩ := inv.reaches e he
    have hroot := inv.roots r hr
    -- the chain returns to `e` after every multiple of `k` steps
    have hmul : ∀ t, supersetIter st.entitysets (k * t) e.index = some e.index := by
      intro t
      induction t with
      | zero => rfl
      | succ t ih =>
        rw [Nat.mul_succ, supersetIter_add, ih]
        exact hcycle
    have hle : j ≤ k * j := Nat.le_mul_of_pos_left j hk
    have h1 := supersetIter_add st.entitysets j (k * j - j) e.index
    rw [show j + (k * j - j) = k * j by omega, hmul j, hj] at h1
    simp only [Option.some_bind] at h1
    rw [supersetIter_root hroot] at h1
    have her : e.index = r := Option.some.inj h1
    have hsup := supersetOf_of_mem inv he
    rw [her, hroot] at hsup
    rw [her]
    exact (Option.some.inj hsup).symm

theorem root_canonical {st : SymbolTable} (inv : RegistryInv st) {a : Int}
    (h : supersetOf st.entitysets a = some a) : a ∈ canonicalRoots := by
  cases hf : findSet st.entitysets a with
  | none => simp [supersetOf, hf] at h
  | some e =>
    obtain ⟨he, hei⟩ := findSet_some hf
    obtain ⟨k, r, hk, hr⟩ := inv.reaches e he
    rw [hei, supersetIter_root h] at hk
    rw [Option.some.inj hk]
    exact hr

theorem reachesRoot_of_registryInv {st : SymbolTable} (inv : RegistryInv st) {a : Int}
    (ha : isDeclared st.entitysets a) :
    reachesRoot st.entitysets st.entitysets.length a = true :=
  reachesRoot_of_wellFormed (wellFormed_of_registryInv inv) ha

theorem supersetIter_of_isSubsetImpl_true {es : List EntitySet} {a b : Int}
    (hr : reachesRoot es es.length a = true) {fuel : Nat} {d : List String}
    (h : isSubsetImpl es fuel a b = some (true, d)) : ∃ k, supersetIter es k a = some b := by
  have h1 := isSubsetImpl_mono es b fuel a _ h (max fuel es.length) (le_max_left _ _)
  have h2 := isSubsetImpl_eq_of_reachesRoot es b es.length a (max fuel es.length) es.length hr
    (le_max_right _ _) (le_refl _)
  rw [h1] at h2
  have hmem : b ∈ supersetChain es es.length a := by
    have := congrArg Prod.fst (Option.some.inj h2)
    simpa using this.symm
  exact exists_supersetIter_of_mem_supersetChain es b es.length a hmem

theorem supersetIter_declared {es : List EntitySet}
    (hc : ∀ e ∈ es, isDeclared es e.subset_index) (k : Nat) :
    ∀ a c, isDeclared es a → supersetIter es k a = some c → isDeclared es c := by
  induction k with
  | zero =>
    intro a c ha h
    rw [← Option.some.inj h]
    exact ha
  | succ k ih =>
    intro a c _ h
    rw [supersetIter] at h
    cases hf : findSet es a with
    | none => simp [supersetOf, hf] at h
    | some it =>
      simp only [supersetOf, hf, Option.map_some', Option.some_bind] at h
      exact ih it.subsetIndex c (hc it (findSet_some hf).1) h

/-! ## The claims on the entity-set registry -/

/-- C1: in a registry whose superset links are well-founded (indices pairwise distinct, every
superset index declared, no cycle other than a root pointing at itself), the chain
`a, superset(a), ...` of a declared set `a` ends at a set that is its own superset, and
`isSubset(a, b)` returns, with no diagnostic and for every fuel from the number of sets on,
true when `b` occurs in that chain and false otherwise. -/
theorem isSubset_eq_mem_supersetChain (st : SymbolTable) (hwf : WellFormed st.entitysets)
    (a b : Int) (ha : isDeclared st.entitysets a) :
    (∃ r, (supersetChain st.entitysets st.entitysets.length a).getLast? = some r
        ∧ supersetOf st.entitysets r = some r)
      ∧ ∀ fuel, st.entitysets.length ≤ fuel →
        isSubset fuel st a b
          = some (decide (b ∈ supersetChain st.entitysets st.entitysets.length a), []) := by
  have hr := reachesRoot_of_wellFormed hwf ha
  refine ⟨supersetChain_getLast_root _ _ a _ hr (le_refl _), ?_⟩
  intro fuel hfuel
  exact isSubsetImpl_eq_of_reachesRoot _ b _ a fuel _ hr hfuel (le_refl _)

theorem isSubset_eq_mem_supersetChain_witness :
    WellFormed SymbolTable.initial.entitysets
      ∧ isDeclared SymbolTable.initial.entitysets InteriorCells
      ∧ isSubset 12 SymbolTable.initial InteriorCells AllCells = some (true, [])
      ∧ isSubset 12 SymbolTable.initial InteriorCells AllFaces = some (false, []) :=
  ⟨wellFormed_of_registryInv registryInv_initial, (by decide),
    ((isSubset_eq_mem_supersetChain SymbolTable.initial
      (wellFormed_of_registryInv registryInv_initial) InteriorCells AllCells
      (by decide)).2 12 (by decide)).trans (by decide),
    by decide⟩

/-- C2: for every integer index `a`, declared or not, and every registry state,
`isSubset(a, a)` returns true and emits no diagnostic, whatever the fuel. -/
theorem isSubset_refl (fuel : Nat) (st : SymbolTable) (a : Int) :
    isSubset fuel st a a = some (true, []) :=
  isSubsetImpl_self st.entitysets fuel a

/-- C3: in every state reachable from the initial table by `declareNewEntitySet` calls on
declared supersets, for declared sets `a`, `b`, `c`: if `isSubset(a, b)` and `isSubset(b, c)`
return true then `isSubset(a, c)` returns true, with no diagnostic and for every fuel from the
number of sets on. -/
theorem isSubset_trans (st : SymbolTable) (hst : ReachableDeclared st) (a b c : Int)
    (ha : isDeclared st.entitysets a) (hb : isDeclared st.entitysets b)
    (_hc : isDeclared st.entitysets c) (f1 f2 : Nat) (d1 d2 : List String)
    (hab : isSubset f1 st a b = some (true, d1)) (hbc : isSubset f2 st b c = some (true, d2)) :
    ∀ fuel, st.entitysets.length ≤ fuel → isSubset fuel st a c = some (true, []) := by
  intro fuel hfuel
  have inv := registryInv_of_reachableDeclared hst
  have hra := reachesRoot_of_registryInv inv ha
  have hrb := reachesRoot_of_registryInv inv hb
  obtain ⟨i, hi⟩ := supersetIter_of_isSubsetImpl_true hra hab
  obtain ⟨j, hj⟩ := supersetIter_of_isSubsetImpl_true hrb hbc
  have hij : supersetIter st.entitysets (i + j) a = some c := by
    rw [supersetIter_add, hi]
    exact hj
  have hmem := mem_supersetChain_of_supersetIter st.entitysets c _ a _ (i + j) hra
    (le_refl _) hij
  have := isSubsetImpl_eq_of_reachesRoot st.entitysets c _ a fuel _ hra hfuel (le_refl _)
  rw [isSubset, this]
  simp [hmem]

theorem isSubset_trans_witness :
    isSubset 0 (declareNewEntitySet SymbolTable.initial "MyCells" InteriorCells).2
        14 InteriorCells = some (true, [])
      ∧ isSubset 0 (declareNewEntitySet SymbolTable.initial "MyCells" InteriorCells).2
        InteriorCells AllCells = some (true, [])
      ∧ isSubset 13 (declareNewEntitySet SymbolTable.initial "MyCells" InteriorCells).2
        14 AllCells = some (true, []) :=
  ⟨by decide, by decide,
    isSubset_trans (declareNewEntitySet SymbolTable.initial "MyCells" InteriorCells).2
      (ReachableDeclared.declare _ _ _ ReachableDeclared.initial (by decide))
      14 InteriorCells AllCells (by decide) (by decide) (by decide)
      0 0 [] [] (by decide) (by decide) 13 (by decide)⟩

/-- C4 fails as stated: `declareNewEntitySet("A", 15)` on the initial table returns 14 and
stores, unchecked, the not yet declared index 15 as its superset; the set `s = 14` is then
declared, `n = declareNewEntitySet("B", 14)` returns 15, and afterwards `isSubset(s, n)`, that
is `isSubset(14, 15)`, returns true, for every fuel. -/
theorem isSubset_of_new_set_after_forward_reference :
    Reachable (declareNewEntitySet SymbolTable.initial "A" 15).2
      ∧ (declareNewEntitySet SymbolTable.initial "A" 15).1 = 14
      ∧ isDeclared (declareNewEntitySet SymbolTable.initial "A" 15).2.entitysets 14
      ∧ (declareNewEntitySet (declareNewEntitySet SymbolTable.initial "A" 15).2 "B" 14).1 = 15
      ∧ ∀ fuel,
          isSubset fuel (declareNewEntitySet (declareNewEntitySet SymbolTable.initial "A" 15).2
            "B" 14).2 14 15 = some (true, []) := by
  refine ⟨Reachable.declare _ _ _ Reachable.initial, by decide, by decide, by decide, ?_⟩
  intro fuel
  cases fuel <;> rfl

/-- C4, amended: for every name and every declared set `s`, after
`n = declareNewEntitySet(name, s)`: in every state reachable from the initial table by
`declareNewEntitySet` calls, `isSubset(n, s)` returns true, for every fuel; and in every state
reachable by calls whose superset was an already declared set, `isSubset(s, n)` returns false,
for every fuel from the number of sets on; both without diagnostic. -/
theorem isSubset_declareNewEntitySet (st : SymbolTable) (name : String) (s : Int)
    (hs : isDeclared st.entitysets s) :
    (Reachable st →
        ∀ fuel, isSubset fuel (declareNewEntitySet st name s).2
          (declareNewEntitySet st name s).1 s = some (true, []))
      ∧ (ReachableDeclared st →
        ∀ fuel, (declareNewEntitySet st name s).2.entitysets.length ≤ fuel →
          isSubset fuel (declareNewEntitySet st name s).2
            s (declareNewEntitySet st name s).1 = some (false, [])) := by
  constructor
  · intro hst fuel
    have hbelow := (reachable_counter hst).2
    have hsn : s ≠ st.next_entityset_index := by
      obtain ⟨e, he, hes⟩ := hs
      have := hbelow e he
      omega
    rw [isSubset, declareNewEntitySet_fst, declareNewEntitySet_entitysets]
    unfold isSubsetImpl
    rw [findSet_new hbelow]
    simp [EntitySet.subsetIndex, Ne.symm hsn]
  · intro hst fuel hfuel
    have inv := registryInv_of_reachableDeclared hst
    have inv' := registryInv_declare inv name hs
    have hs' : isDeclared (declareNewEntitySet st name s).2.entitysets s := by
      rw [declareNewEntitySet_entitysets]
      exact isDeclared_append hs _
    have hr := reachesRoot_of_registryInv inv' hs'
    have := isSubsetImpl_eq_of_reachesRoot _ (declareNewEntitySet st name s).1 _ s fuel _ hr
      hfuel (le_refl _)
    rw [isSubset, this]
    have hnot : ¬ (declareNewEntitySet st name s).1
        ∈ supersetChain (declareNewEntitySet st name s).2.entitysets
            (declareNewEntitySet st name s).2.entitysets.length s := by
      intro hmem
      obtain ⟨k, hk⟩ := exists_supersetIter_of_mem_supersetChain _ _ _ _ hmem
      -- the chain of `s` stays inside the sets declared before the call
      have htot : ∀ k a, isDeclared st.entitysets a →
          ∃ c, supersetIter st.entitysets k a = some c := by
        intro k
        induction k with
        | zero => intro a _; exact ⟨a, rfl⟩
        | succ k ih =>
          intro a ha
          obtain ⟨it, hit⟩ := findSet_of_declared ha
          obtain ⟨c, hc⟩ := ih it.subsetIndex (inv.closed it (findSet_some hit).1)
          exact ⟨c, by rw [supersetIter]; simpa [supersetOf, hit] using hc⟩
      obtain ⟨c, hc⟩ := htot k s hs
      have hcd := supersetIter_declared inv.closed k s c hs hc
      have hc' := supersetIter_append st.entitysets [⟨name, st.next_entityset_index, s⟩] k s c hc
      rw [declareNewEntitySet_entitysets, hc'] at hk
      obtain ⟨e, he, hec⟩ := hcd
      have := inv.below e he
      rw [declareNewEntitySet_fst] at hk
      have := Option.some.inj hk
      omega
    simp [hnot]

theorem isSubset_declareNewEntitySet_witness :
    isSubset 0 (declareNewEntitySet SymbolTable.initial "MyCells" AllCells).2 14 AllCells
        = some (true, [])
      ∧ isSubset 13 (declareNewEntitySet SymbolTable.initial "MyCells" AllCells).2 AllCells 14
        = some (false, []) :=
  ⟨(isSubset_declareNewEntitySet SymbolTable.initial "MyCells" AllCells (by decide)).1
      Reachable.initial 0,
    (isSubset_declareNewEntitySet SymbolTable.initial "MyCells" AllCells (by decide)).2
      ReachableDeclared.initial 13 (by decide)⟩

/-! ## `entitySetType` -/

theorem canonical_invalid_of_ge {i : Int} (h : FirstRuntimeEntitySet ≤ i) :
    canonicalGridMappingEntity i = BasicType.Invalid := by
  unfold FirstRuntimeEntitySet at h
  unfold canonicalGridMappingEntity InteriorCells BoundaryCells AllCells InteriorFaces
    BoundaryFaces AllFaces InteriorEdges BoundaryEdges AllEdges InteriorVertices
    BoundaryVertices AllVertices
  have h0 : ¬ (i = 0 ∨ i = 1 ∨ i = 2) := by omega
  have h1 : ¬ (i = 3 ∨ i = 4 ∨ i = 5) := by omega
  have h2 : ¬ (i = 6 ∨ i = 7 ∨ i = 8) := by omega
  have h3 : ¬ (i = 9 ∨ i = 10 ∨ i = 11) := by omega
  rw [if_neg h0, if_neg h1, if_neg h2, if_neg h3]

theorem canonical_of_root {r : Int} (h : r ∈ canonicalRoots) :
    canonicalGridMappingEntity r ≠ BasicType.Invalid := by
  have : ∀ r ∈ canonicalRoots, canonicalGridMappingEntity r ≠ BasicType.Invalid := by decide
  exact this r h

theorem entitySetTypeLoop_of_chain (es : List EntitySet) (j : Int) (k : Nat) :
    ∀ i fuel, supersetIter es k i = some j →
      canonicalGridMappingEntity j ≠ BasicType.Invalid →
      (∀ k', k' < k → ∀ j', supersetIter es k' i = some j' →
        canonicalGridMappingEntity j' = BasicType.Invalid) →
      k ≤ fuel →
      entitySetTypeLoop es fuel i (canonicalGridMappingEntity i)
        = some (Except.ok (canonicalGridMappingEntity j)) := by
  induction k with
  | zero =>
    intro i fuel hk hj _ _
    have hij : i = j := Option.some.inj hk
    rw [hij]
    unfold entitySetTypeLoop
    rw [if_neg hj]
  | succ k ih =>
    intro i fuel hk hj hfirst hfuel
    obtain ⟨fuel, rfl⟩ : ∃ f, fuel = f + 1 := ⟨fuel - 1, by omega⟩
    have hi : canonicalGridMappingEntity i = BasicType.Invalid :=
      hfirst 0 (by omega) i rfl
    rw [supersetIter] at hk
    cases hf : findSet es i with
    | none => simp [supersetOf, hf] at hk
    | some it =>
      simp only [supersetOf, hf, Option.map_some', Option.some_bind] at hk
      unfold entitySetTypeLoop
      rw [if_pos hi]
      simp only [hf]
      apply ih it.subsetIndex fuel hk hj _ (by omega)
      intro k' hk' j' hj'
      apply hfirst (k' + 1) (by omega) j'
      rw [supersetIter]
      simpa [supersetOf, hf] using hj'

theorem entitySetTypeLoop_of_reachesRoot (es : List EntitySet)
    (hroot : ∀ a, supersetOf es a = some a → canonicalGridMappingEntity a ≠ BasicType.Invalid)
    (n : Nat) :
    ∀ a, reachesRoot es n a = true →
      ∃ t, t ≠ BasicType.Invalid ∧ ∀ fuel, n ≤ fuel →
        entitySetTypeLoop es fuel a (canonicalGridMappingEntity a) = some (Except.ok t) := by
  induction n with
  | zero =>
    intro a hr
    unfold reachesRoot at hr
    cases hit : findSet es a with
    | none => simp [hit] at hr
    | some it =>
      by_cases hs : it.subsetIndex = a
      · have hc := hroot a (by simp [supersetOf, hit, hs])
        refine ⟨_, hc, ?_⟩
        intro fuel _
        unfold entitySetTypeLoop
        rw [if_neg hc]
      · simp [hit, hs] at hr
  | succ n ih =>
    intro a hr
    by_cases hc : canonicalGridMappingEntity a = BasicType.Invalid
    · unfold reachesRoot at hr
      cases hit : findSet es a with
      | none => simp [hit] at hr
      | some it =>
        by_cases hs : it.subsetIndex = a
        · exact absurd hc (hroot a (by simp [supersetOf, hit, hs]))
        · simp only [hit, hs, if_false] at hr
          obtain ⟨t, ht, hfuel⟩ := ih it.subsetIndex hr
          refine ⟨t, ht, ?_⟩
          intro fuel hle
          obtain ⟨fuel, rfl⟩ : ∃ f, fuel = f + 1 := ⟨fuel - 1, by omega⟩
          unfold entitySetTypeLoop
          rw [if_pos hc]
          simp only [hit]
          exact hfuel fuel (by omega)
    · refine ⟨_, hc, ?_⟩
      intro fuel _
      unfold entitySetTypeLoop
      rw [if_neg hc]

theorem entitySetTypeLoop_append (es l : List EntitySet) (t : BasicType) (fuel : Nat) :
    ∀ a c, entitySetTypeLoop es fuel a c = some (Except.ok t) →
      entitySetTypeLoop (es ++ l) fuel a c = some (Except.ok t) := by
  induction fuel with
  | zero =>
    intro a c h
    unfold entitySetTypeLoop at h ⊢
    by_cases hc : c = BasicType.Invalid
    · simp [hc] at h
    · simpa [hc] using h
  | succ fuel ih =>
    intro a c h
    unfold entitySetTypeLoop at h ⊢
    by_cases hc : c = BasicType.Invalid
    · cases hf : findSet es a with
      | none => simp [hc, hf] at h
      | some it =>
        rw [if_pos hc] at h ⊢
        simp only [hf] at h
        simp only [findSet_append_of_some hf]
        exact ih _ _ h
    · simpa [hc] using h

theorem entitySetType_ok_of_registryInv {st : SymbolTable} (inv : RegistryInv st)
    {i : Int} (hi : isDeclared st.entitysets i) :
    ∃ t, t ≠ BasicType.Invalid ∧ ∀ fuel, st.entitysets.length ≤ fuel →
      entitySetType fuel st i = some (Except.ok t) :=
  entitySetTypeLoop_of_reachesRoot st.entitysets
    (fun _ h => canonical_of_root (root_canonical inv h)) _ i
    (reachesRoot_of_registryInv inv hi)

theorem entitySetType_new {st : SymbolTable}
    (hc : FirstRuntimeEntitySet ≤ st.next_entityset_index)
    (hb : ∀ e ∈ st.entitysets, e.index < st.next_entityset_index) (name : String) (s : Int)
    (fuel : Nat) :
    entitySetType (fuel + 1) (declareNewEntitySet st name s).2 (declareNewEntitySet st name s).1
      = entitySetTypeLoop (declareNewEntitySet st name s).2.entitysets fuel s
          (canonicalGridMappingEntity s) := by
  rw [entitySetType, declareNewEntitySet_fst, declareNewEntitySet_entitysets]
  rw [entitySetTypeLoop, if_pos (canonical_invalid_of_ge hc)]
  simp only [findSet_new hb, EntitySet.subsetIndex]

/-- C5: `entitySetType(i)` returns `canonicalGridMappingEntity(j)` for the first index `j` on
the superset chain of `i` whose canonical entity is not Invalid (in every table, for every fuel
from the position of `j` on); in a state reachable by declarations on declared supersets, a
set declared as a subset of a declared set `s` gets the entity type of `s`; and a set declared
as a subset of the built-in AllCells has entity type Cell. -/
theorem entitySetType_spec (st : SymbolTable) (hst : ReachableDeclared st) (name : String)
    (s : Int) (hs : isDeclared st.entitysets s) :
    (∀ (tbl : SymbolTable) (i j : Int) (k : Nat),
        supersetIter tbl.entitysets k i = some j →
        canonicalGridMappingEntity j ≠ BasicType.Invalid →
        (∀ k', k' < k → ∀ j', supersetIter tbl.entitysets k' i = some j' →
          canonicalGridMappingEntity j' = BasicType.Invalid) →
        ∀ fuel, k ≤ fuel →
          entitySetType fuel tbl i = some (Except.ok (canonicalGridMappingEntity j)))
      ∧ (∃ t, t ≠ BasicType.Invalid ∧ ∀ fuel, st.entitysets.length + 1 ≤ fuel →
          entitySetType fuel st s = some (Except.ok t)
            ∧ entitySetType fuel (declareNewEntitySet st name s).2
                (declareNewEntitySet st name s).1 = some (Except.ok t))
      ∧ ∀ fuel, 1 ≤ fuel →
          entitySetType fuel (declareNewEntitySet st name AllCells).2
            (declareNewEntitySet st name AllCells).1 = some (Except.ok BasicType.Cell) := by
  have inv := registryInv_of_reachableDeclared hst
  refine ⟨?_, ?_, ?_⟩
  · intro tbl i j k hk hj hfirst fuel hfuel
    exact entitySetTypeLoop_of_chain tbl.entitysets j k i fuel hk hj hfirst hfuel
  · obtain ⟨t, ht, hfuel⟩ := entitySetType_ok_of_registryInv inv hs
    refine ⟨t, ht, ?_⟩
    intro fuel hle
    obtain ⟨fuel, rfl⟩ : ∃ f, fuel = f + 1 := ⟨fuel - 1, by omega⟩
    refine ⟨hfuel _ (by omega), ?_⟩
    rw [entitySetType_new inv.counter inv.below, declareNewEntitySet_entitysets]
    exact entitySetTypeLoop_append _ _ t fuel _ _ (hfuel fuel (by omega))
  · intro fuel hle
    obtain ⟨fuel, rfl⟩ : ∃ f, fuel = f + 1 := ⟨fuel - 1, by omega⟩
    rw [entitySetType_new inv.counter inv.below]
    unfold entitySetTypeLoop
    rw [if_neg (by decide)]
    rfl

theorem entitySetType_spec_witness :
    entitySetType 13 SymbolTable.initial InteriorFaces = some (Except.ok BasicType.Face)
      ∧ entitySetType 13 (declareNewEntitySet SymbolTable.initial "MyFaces" InteriorFaces).2 14
        = some (Except.ok BasicType.Face)
      ∧ entitySetType 1 (declareNewEntitySet SymbolTable.initial "MyFaces" AllCells).2 14
        = some (Except.ok BasicType.Cell) :=
  ⟨by decide, by decide,
    (entitySetType_spec SymbolTable.initial ReachableDeclared.initial "MyFaces" InteriorFaces
      (by decide)).2.2 1 (by decide)⟩

/-- C6, as amended: in every state reachable from the initial table by `declareNewEntitySet`
calls whose superset is an already declared set, `entitySetType(i)` returns an entity type
other than Invalid for every declared `i` and every fuel from the number of sets on: the walk
ends at a canonical set and never dereferences the result of a failed `findSet`. -/
theorem entitySetType_terminates (st : SymbolTable) (hst : ReachableDeclared st) (i : Int)
    (hi : isDeclared st.entitysets i) :
    ∃ t, t ≠ BasicType.Invalid ∧ ∀ fuel, st.entitysets.length ≤ fuel →
      entitySetType fuel st i = some (Except.ok t) :=
  entitySetType_ok_of_registryInv (registryInv_of_reachableDeclared hst) hi

theorem entitySetType_terminates_witness :
    ∃ t, t ≠ BasicType.Invalid ∧ ∀ fuel,
      (declareNewEntitySet SymbolTable.initial "MyEdges" BoundaryEdges).2.entitysets.length
          ≤ fuel →
        entitySetType fuel (declareNewEntitySet SymbolTable.initial "MyEdges" BoundaryEdges).2
          14 = some (Except.ok t) :=
  entitySetType_terminates (declareNewEntitySet SymbolTable.initial "MyEdges" BoundaryEdges).2
    (ReachableDeclared.declare _ _ _ ReachableDeclared.initial (by decide)) 14 (by decide)

/-- C6 fails as stated: after `declareNewEntitySet("Loop", 14)` on the initial table the
declared set 14 is its own superset and has no canonical entity, and `entitySetType(14)`
returns for no amount of fuel. -/
theorem entitySetType_diverges :
    Reachable (declareNewEntitySet SymbolTable.initial "Loop" 14).2
      ∧ isDeclared (declareNewEntitySet SymbolTable.initial "Loop" 14).2.entitysets 14
      ∧ ∀ fuel, entitySetType fuel (declareNewEntitySet SymbolTable.initial "Loop" 14).2 14
          = none := by
  refine ⟨Reachable.declare _ _ _ Reachable.initial, by decide, ?_⟩
  intro fuel
  unfold entitySetType
  rw [show canonicalGridMappingEntity 14 = BasicType.Invalid by decide]
  induction fuel with
  | zero => rfl
  | succ fuel ih =>
    unfold entitySetTypeLoop
    rw [if_pos rfl]
    rw [show findSet (declareNewEntitySet SymbolTable.initial "Loop" 14).2.entitysets 14
      = some ⟨"Loop", 14, 14⟩ by decide]
    exact ih

/-- C7, as amended: in the initial table and after every `declareNewEntitySet` call whose
superset is an already declared set, the registry is well-founded (no cycle other than a root
pointing at itself, no undeclared superset) and the superset chain of every entity set reaches
one of the canonical root sets AllCells, AllFaces, AllEdges, AllVertices. -/
theorem registry_reaches_canonical_root (st : SymbolTable) (hst : ReachableDeclared st) :
    WellFormed st.entitysets
      ∧ ∀ e ∈ st.entitysets, ReachesCanonicalRoot st.entitysets e.index :=
  ⟨wellFormed_of_registryInv (registryInv_of_reachableDeclared hst),
    (registryInv_of_reachableDeclared hst).reaches⟩

theorem registry_reaches_canonical_root_witness :
    WellFormed (declareNewEntitySet SymbolTable.initial "MyVertices" AllVertices).2.entitysets
      ∧ ∀ e ∈ (declareNewEntitySet SymbolTable.initial "MyVertices" AllVertices).2.entitysets,
        ReachesCanonicalRoot
          (declareNewEntitySet SymbolTable.initial "MyVertices" AllVertices).2.entitysets
          e.index :=
  registry_reaches_canonical_root
    (declareNewEntitySet SymbolTable.initial "MyVertices" AllVertices).2
    (ReachableDeclared.declare _ _ _ ReachableDeclared.initial (by decide))

/-- C7 fails as stated: after `declareNewEntitySet("Orphan", 999)` on the initial table the
superset chain of the new set 14 leads to the undeclared index 999 and reaches no canonical
root. -/
theorem registry_chain_leaves_registry :
    ¬ ∀ e ∈ (declareNewEntitySet SymbolTable.initial "Orphan" 999).2.entitysets,
        ReachesCanonicalRoot
          (declareNewEntitySet SymbolTable.initial "Orphan" 999).2.entitysets e.index := by
  intro h
  obtain ⟨k, r, hk, hr⟩ := h ⟨"Orphan", 14, 999⟩ (by decide)
  have h0 : supersetIter (declareNewEntitySet SymbolTable.initial "Orphan" 999).2.entitysets
      0 14 = some 14 := rfl
  have h1 : supersetIter (declareNewEntitySet SymbolTable.initial "Orphan" 999).2.entitysets
      1 14 = some 999 := by decide
  have h2 : ∀ k, supersetIter (declareNewEntitySet SymbolTable.initial "Orphan" 999).2.entitysets
      (k + 2) 14 = none := by
    intro k
    rw [show k + 2 = 1 + (k + 1) by omega, supersetIter_add, h1]
    rfl
  have hroots : (14 : Int) ∉ canonicalRoots ∧ (999 : Int) ∉ canonicalRoots := by decide
  match k, hk with
  | 0, hk =>
    rw [h0] at hk
    exact hroots.1 (Option.some.inj hk ▸ hr)
  | 1, hk =>
    rw [h1] at hk
    exact hroots.2 (Option.some.inj hk ▸ hr)
  | k + 2, hk =>
    rw [h2 k] at hk
    cases hk

/-! ## `declareNewEntitySet` -/

theorem declareNewEntitySets_increasing (calls : List (String × Int)) :
    ∀ st : SymbolTable,
      List.Pairwise (fun i j => i < j) (declareNewEntitySets st calls).1
        ∧ ∀ i ∈ (declareNewEntitySets st calls).1, st.next_entityset_index ≤ i := by
  induction calls with
  | nil => intro st; exact ⟨List.Pairwise.nil, by simp [declareNewEntitySets]⟩
  | cons call calls ih =>
    intro st
    obtain ⟨h1, h2⟩ := ih (declareNewEntitySet st call.1 call.2).2
    rw [declareNewEntitySet_next] at h2
    simp only [declareNewEntitySets, declareNewEntitySet_fst, List.pairwise_cons,
      List.mem_cons, forall_eq_or_imp, le_refl, true_and]
    refine ⟨⟨?_, h1⟩, ?_⟩
    · intro i hi
      have := h2 i hi
      omega
    · intro i hi
      have := h2 i hi
      omega

/-- C8: `declareNewEntitySet(name, s)` returns the current value of the next-index counter
(initially FirstRuntimeEntitySet), increments the counter by exactly one and appends the
triple (name, returned index, s) at the end of the entity-set sequence, the sets before it
unchanged; the indices returned by successive calls are strictly increasing and pairwise
distinct; and in every table reachable from the initial one, `entitySetName` of the returned
index is `name`. -/
theorem declareNewEntitySet_spec (st : SymbolTable) (name : String) (s : Int) :
    (declareNewEntitySet st name s).1 = st.next_entityset_index
      ∧ SymbolTable.initial.next_entityset_index = FirstRuntimeEntitySet
      ∧ (declareNewEntitySet st name s).2.next_entityset_index = st.next_entityset_index + 1
      ∧ (declareNewEntitySet st name s).2.entitysets
          = st.entitysets ++ [⟨name, (declareNewEntitySet st name s).1, s⟩]
      ∧ (∀ calls : List (String × Int),
          List.Pairwise (fun i j => i < j) (declareNewEntitySets st calls).1
            ∧ (declareNewEntitySets st calls).1.Nodup)
      ∧ (Reachable st →
          entitySetName (declareNewEntitySet st name s).2 (declareNewEntitySet st name s).1
            = Except.ok name) := by
  refine ⟨rfl, rfl, rfl, rfl, ?_, ?_⟩
  · intro calls
    have h := (declareNewEntitySets_increasing calls st).1
    exact ⟨h, h.imp (fun hlt => ne_of_lt hlt)⟩
  · intro hst
    rw [entitySetName, declareNewEntitySet_fst, declareNewEntitySet_entitysets,
      findSet_new (reachable_counter hst).2]

theorem declareNewEntitySet_spec_witness :
    Reachable (declareNewEntitySet SymbolTable.initial "A" AllCells).2
      ∧ (declareNewEntitySets SymbolTable.initial
          [("A", AllCells), ("B", 14), ("C", AllFaces)]).1 = [14, 15, 16]
      ∧ entitySetName
          (declareNewEntitySet (declareNewEntitySet SymbolTable.initial "A" AllCells).2 "B" 14).2
          (declareNewEntitySet (declareNewEntitySet SymbolTable.initial "A" AllCells).2 "B" 14).1
        = Except.ok "B" :=
  ⟨Reachable.declare _ _ _ Reachable.initial, by decide,
    (declareNewEntitySet_spec (declareNewEntitySet SymbolTable.initial "A" AllCells).2 "B" 14
      ).2.2.2.2.2 (Reachable.declare _ _ _ Reachable.initial)⟩

/-! ## `FunctionType` -/

/-- C9: for every FunctionType, the zero-argument `returnType()` fails exactly when the
dynamic type aspect of its dynamic return specification is active, the failure being the
thrown logic error, and otherwise it returns the static return type unchanged. -/
theorem returnType0_spec (ft : FunctionType) :
    ((∃ f, ft.returnType0 = Except.error f) ↔ ft.dynamic.activeType = true)
      ∧ (ft.dynamic.activeType = true →
          ft.returnType0 = Except.error (Fault.logic_error returnTypeMessage))
      ∧ (ft.dynamic.activeType = false → ft.returnType0 = Except.ok ft.return_type) := by
  unfold FunctionType.returnType0
  cases h : ft.dynamic.activeType <;> simp

theorem returnType0_spec_witness :
    (FunctionType.ofDynamic [Variable.new "faces"
          { basicType := BasicType.Face, compositeType := CompositeType.Collection }]
        { basicType := BasicType.Cell, compositeType := CompositeType.Collection,
          subsetOf := AllCells }
        Dimension.dimensionless { arg_index_for_gridmapping := 0 }).returnType0
      = Except.error (Fault.logic_error returnTypeMessage)
    ∧ (FunctionType.ofReturnType { basicType := BasicType.Void }).returnType0
      = Except.ok { basicType := BasicType.Void } :=
  ⟨(returnType0_spec _).2.1 (by decide), (returnType0_spec _).2.2 (by decide)⟩

/-- C10: for every FunctionType, `returnType(argtypes)`, `returnDimension(argdims)` and
`returnArrayDimension(argdims)` fail on their arity assertion whenever the number of supplied
actuals differs from `arguments().size()`, whatever the dynamic return specification. -/
theorem return_arity_checked (ft : FunctionType) :
    (∀ argtypes : List EquelleType, argtypes.length ≠ ft.arguments.length →
        ft.returnType argtypes
          = Except.error (Fault.assertion_failed "argtypes.size() == arguments_.size()"))
      ∧ (∀ argdims : List Dimension, argdims.length ≠ ft.arguments.length →
        ft.returnDimension argdims
          = Except.error (Fault.assertion_failed "argdims.size() == arguments_.size()"))
      ∧ (∀ argdims : List (List Dimension), argdims.length ≠ ft.arguments.length →
        ft.returnArrayDimension argdims
          = Except.error (Fault.assertion_failed "argdims.size() == arguments_.size()")) := by
  refine ⟨?_, ?_, ?_⟩
  · intro argtypes h
    unfold FunctionType.returnType
    rw [if_pos h]
  · intro argdims h
    unfold FunctionType.returnDimension
    rw [if_pos h]
  · intro argdims h
    unfold FunctionType.returnArrayDimension
    rw [if_pos h]

theorem return_arity_checked_witness :
    (FunctionType.ofArgs [Variable.new "x"] { basicType := BasicType.Scalar }).returnType []
        = Except.error (Fault.assertion_failed "argtypes.size() == arguments_.size()")
      ∧ (FunctionType.ofArgs [Variable.new "x"] { basicType := BasicType.Scalar }).returnDimension
          [Dimension.dimensionless, Dimension.dimensionless]
        = Except.error (Fault.assertion_failed "argdims.size() == arguments_.size()")
      ∧ (FunctionType.ofArgs [Variable.new "x"]
          { basicType := BasicType.Scalar }).returnArrayDimension []
        = Except.error (Fault.assertion_failed "argdims.size() == arguments_.size()") :=
  ⟨(return_arity_checked _).1 [] (by decide),
    (return_arity_checked _).2.1 [Dimension.dimensionless, Dimension.dimensionless] (by decide),
    (return_arity_checked _).2.2 [] (by decide)⟩

/-! ## Lemmas on `FunctionType::returnType` -/

theorem except_bind_eq_ok {ε α β : Type} {x : Except ε α} {f : α → Except ε β} {b : β} :
    (x >>= f) = Except.ok b ↔ ∃ a, x = Except.ok a ∧ f a = Except.ok b := by
  cases x <;> simp [bind, Except.bind]

theorem except_map_eq_ok {ε α β : Type} {x : Except ε α} {f : α → β} {b : β} :
    x.map f = Except.ok b ↔ ∃ a, x = Except.ok a ∧ f a = b := by
  cases x <;> simp [Except.map]

theorem vectorAt_eq_ok {α : Type} {v : List α} {i : Int} {x : α} :
    vectorAt v i = Except.ok x ↔ 0 ≤ i ∧ v[i.toNat]? = some x := by
  unfold vectorAt
  by_cases h : i < 0
  · simp [h]
  · rw [if_neg h]
    cases hv : v[i.toNat]? with
    | none => simp
    | some y => simp; omega

theorem vectorAt_natCast {α : Type} (v : List α) (i : Nat) (hi : i < v.length) :
    vectorAt v (i : Int) = Except.ok v[i] := by
  rw [vectorAt_eq_ok]
  simp [hi]

theorem vectorAt_of_inRange {α : Type} (v : List α) {i : Int} (h0 : 0 ≤ i) (h1 : i < v.length) :
    ∃ x, vectorAt v i = Except.ok x := by
  obtain ⟨n, rfl⟩ := Int.eq_ofNat_of_zero_le h0
  have hn : n < v.length := by omega
  exact ⟨v[n], vectorAt_natCast v n hn⟩

theorem returnType_eq_bind (ft : FunctionType) (argtypes : List EquelleType)
    (hlen : argtypes.length = ft.arguments.length) (hact : ft.dynamic.activeType = true) :
    ft.returnType argtypes = (do
      let bt ← ft.resolvedBasicType argtypes
      let gridmapping ← ft.resolvedGridMapping argtypes
      let subset ← ft.dynamicSubsetReturn argtypes
      let array_size ← ft.resolvedArraySize argtypes
      Except.ok
        { basicType := bt, compositeType := ft.return_type.compositeType,
          gridMapping := gridmapping, subsetOf := subset, isMutable := false,
          isDomain := ft.return_type.isDomain, arraySize := array_size,
          isStencil := ft.return_type.isStencil }) := by
  unfold FunctionType.returnType FunctionType.resolvedBasicType
    FunctionType.resolvedGridMapping FunctionType.resolvedArraySize
  rw [if_neg (by simpa using hlen), if_pos hact]
  by_cases h1 : ft.dynamic.arg_index_for_basic_type = InvalidIndex <;>
    by_cases h2 : ft.dynamic.arg_index_for_gridmapping = InvalidIndex <;>
    by_cases h3 : ft.dynamic.arg_index_for_array_size = InvalidIndex <;>
    simp only [h1, h2, h3, if_true, if_false]

theorem dynamicSubsetReturn_eq_bind (ft : FunctionType) (argtypes : List EquelleType)
    (hact : ft.dynamic.activeType = true) :
    ft.dynamicSubsetReturn argtypes = (do
      let bt ← ft.resolvedBasicType argtypes
      if isEntityType bt && ft.return_type.isCollection then
        if ft.dynamic.arg_index_for_subset = InvalidIndex then
          Except.ok ft.return_type.subsetOf
        else
          (vectorAt argtypes ft.dynamic.arg_index_for_subset).map EquelleType.gridMapping
      else
        Except.ok NotApplicable) := by
  unfold FunctionType.dynamicSubsetReturn FunctionType.resolvedBasicType
  rw [if_pos hact]
  by_cases h1 : ft.dynamic.arg_index_for_basic_type = InvalidIndex <;>
    simp only [h1, if_true, if_false]

theorem returnType_eq_ok (ft : FunctionType) (argtypes : List EquelleType)
    (hlen : argtypes.length = ft.arguments.length) (hact : ft.dynamic.activeType = true)
    (r : EquelleType) :
    ft.returnType argtypes = Except.ok r ↔
      ∃ bt gm sub asz, ft.resolvedBasicType argtypes = Except.ok bt
        ∧ ft.resolvedGridMapping argtypes = Except.ok gm
        ∧ (if isEntityType bt && ft.return_type.isCollection then
            if ft.dynamic.arg_index_for_subset = InvalidIndex then
              Except.ok ft.return_type.subsetOf
            else
              (vectorAt argtypes ft.dynamic.arg_index_for_subset).map EquelleType.gridMapping
          else
            Except.ok NotApplicable) = Except.ok sub
        ∧ ft.resolvedArraySize argtypes = Except.ok asz
        ∧ r = { basicType := bt, compositeType := ft.return_type.compositeType,
                gridMapping := gm, subsetOf := sub, isMutable := false,
                isDomain := ft.return_type.isDomain, arraySize := asz,
                isStencil := ft.return_type.isStencil } := by
  rw [returnType_eq_bind ft argtypes hlen hact, dynamicSubsetReturn_eq_bind ft argtypes hact]
  constructor
  · intro h
    obtain ⟨bt, hbt, h⟩ := except_bind_eq_ok.1 h
    obtain ⟨gm, hgm, h⟩ := except_bind_eq_ok.1 h
    obtain ⟨sub, hsub, h⟩ := except_bind_eq_ok.1 h
    obtain ⟨asz, hasz, h⟩ := except_bind_eq_ok.1 h
    obtain ⟨bt', hbt', hsub⟩ := except_bind_eq_ok.1 hsub
    rw [hbt] at hbt'
    cases hbt'
    exact ⟨bt, gm, sub, asz, hbt, hgm, hsub, hasz, (Except.ok.inj h).symm⟩
  · rintro ⟨bt, gm, sub, asz, hbt, hgm, hsub, hasz, rfl⟩
    rw [hbt, hgm, hasz]
    simp only [bind, Except.bind]
    rw [hsub]

theorem marker_ok {α β : Type} (v : List α) (f : α → β) (d : β) {m : Int}
    (h : MarkerInRange m v.length) :
    ∃ x, (if m = InvalidIndex then Except.ok d else (vectorAt v m).map f) = Except.ok x := by
  by_cases hm : m = InvalidIndex
  · exact ⟨d, by rw [if_pos hm]⟩
  · rcases h with h | ⟨h0, h1⟩
    · exact absurd h hm
    · obtain ⟨x, hx⟩ := vectorAt_of_inRange v h0 h1
      exact ⟨f x, by rw [if_neg hm, hx]; rfl⟩

theorem marker_natCast {α β : Type} (v : List α) (f : α → β) (d : β) {m : Int} (i : Nat)
    (hi : i < v.length) (hm : m = (i : Int)) :
    (if m = InvalidIndex then Except.ok d else (vectorAt v m).map f) = Except.ok (f v[i]) := by
  have hne : ¬ m = InvalidIndex := by
    unfold InvalidIndex
    omega
  rw [if_neg hne, hm, vectorAt_natCast v i hi]
  rfl

theorem returnType_total (ft : FunctionType) (argtypes : List EquelleType)
    (hlen : argtypes.length = ft.arguments.length) (hact : ft.dynamic.activeType = true)
    (hbt : MarkerInRange ft.dynamic.arg_index_for_basic_type argtypes.length)
    (hgm : MarkerInRange ft.dynamic.arg_index_for_gridmapping argtypes.length)
    (hsub : MarkerInRange ft.dynamic.arg_index_for_subset argtypes.length
      ∨ ∀ bt, ft.resolvedBasicType argtypes = Except.ok bt →
          (isEntityType bt && ft.return_type.isCollection) = false)
    (hasz : MarkerInRange ft.dynamic.arg_index_for_array_size argtypes.length) :
    ∃ r, ft.returnType argtypes = Except.ok r := by
  obtain ⟨bt, hbt⟩ := marker_ok argtypes EquelleType.basicType ft.return_type.basicType hbt
  obtain ⟨gm, hgm⟩ := marker_ok argtypes EquelleType.gridMapping ft.return_type.gridMapping hgm
  obtain ⟨asz, hasz⟩ := marker_ok argtypes EquelleType.arraySize ft.return_type.arraySize hasz
  have hs : ∃ sub, (if isEntityType bt && ft.return_type.isCollection then
            if ft.dynamic.arg_index_for_subset = InvalidIndex then
              Except.ok ft.return_type.subsetOf
            else
              (vectorAt argtypes ft.dynamic.arg_index_for_subset).map EquelleType.gridMapping
          else
            Except.ok NotApplicable) = Except.ok sub := by
    by_cases hc : (isEntityType bt && ft.return_type.isCollection) = true
    · rw [if_pos hc]
      rcases hsub with hsub | hsub
      · exact marker_ok argtypes EquelleType.gridMapping ft.return_type.subsetOf hsub
      · rw [hsub bt hbt] at hc
        cases hc
    · rw [if_neg hc]
      exact ⟨_, rfl⟩
  obtain ⟨sub, hs⟩ := hs
  exact ⟨_, (returnType_eq_ok ft argtypes hlen hact _).2
    ⟨bt, gm, sub, asz, hbt, hgm, hs, hasz, rfl⟩⟩

/-! ## The claims on `FunctionType` -/

/-- C11: for a FunctionType whose dynamic type aspect is active and actuals of matching
length, whenever `returnType(argtypes)` returns a type its basic type is that of `argtypes[i]`
if the basic-type marker is the argument index `i`, and that of the static return type if the
marker is InvalidIndex; and it does return a type when the other markers are InvalidIndex or
argument indices. -/
theorem returnType_basicType (ft : FunctionType) (argtypes : List EquelleType)
    (hact : ft.dynamic.activeType = true) (hlen : argtypes.length = ft.arguments.length) :
    (∀ (i : Nat) (hi : i < argtypes.length),
        ft.dynamic.arg_index_for_basic_type = (i : Int) →
        (∀ r, ft.returnType argtypes = Except.ok r → r.basicType = argtypes[i].basicType)
          ∧ (MarkerInRange ft.dynamic.arg_index_for_gridmapping argtypes.length →
              MarkerInRange ft.dynamic.arg_index_for_subset argtypes.length →
              MarkerInRange ft.dynamic.arg_index_for_array_size argtypes.length →
              ∃ r, ft.returnType argtypes = Except.ok r
                ∧ r.basicType = argtypes[i].basicType))
      ∧ (ft.dynamic.arg_index_for_basic_type = InvalidIndex →
        (∀ r, ft.returnType argtypes = Except.ok r → r.basicType = ft.return_type.basicType)
          ∧ (MarkerInRange ft.dynamic.arg_index_for_gridmapping argtypes.length →
              MarkerInRange ft.dynamic.arg_index_for_subset argtypes.length →
              MarkerInRange ft.dynamic.arg_index_for_array_size argtypes.length →
              ∃ r, ft.returnType argtypes = Except.ok r
                ∧ r.basicType = ft.return_type.basicType)) := by
  constructor
  · intro i hi hm
    have hbt : ft.resolvedBasicType argtypes = Except.ok argtypes[i].basicType :=
      marker_natCast argtypes EquelleType.basicType _ i hi hm
    have hpart : ∀ r, ft.returnType argtypes = Except.ok r →
        r.basicType = argtypes[i].basicType := by
      intro r hr
      obtain ⟨bt, gm, sub, asz, h1, _, _, _, rfl⟩ :=
        (returnType_eq_ok ft argtypes hlen hact r).1 hr
      rw [hbt] at h1
      exact (Except.ok.inj h1).symm
    refine ⟨hpart, ?_⟩
    intro hgm hsub hasz
    obtain ⟨r, hr⟩ := returnType_total ft argtypes hlen hact
      (Or.inr ⟨by omega, by omega⟩) hgm (Or.inl hsub) hasz
    exact ⟨r, hr, hpart r hr⟩
  · intro hm
    have hbt : ft.resolvedBasicType argtypes = Except.ok ft.return_type.basicType := by
      unfold FunctionType.resolvedBasicType
      rw [if_pos hm]
    have hpart : ∀ r, ft.returnType argtypes = Except.ok r →
        r.basicType = ft.return_type.basicType := by
      intro r hr
      obtain ⟨bt, gm, sub, asz, h1, _, _, _, rfl⟩ :=
        (returnType_eq_ok ft argtypes hlen hact r).1 hr
      rw [hbt] at h1
      exact (Except.ok.inj h1).symm
    refine ⟨hpart, ?_⟩
    intro hgm hsub hasz
    obtain ⟨r, hr⟩ := returnType_total ft argtypes hlen hact (Or.inl hm) hgm (Or.inl hsub) hasz
    exact ⟨r, hr, hpart r hr⟩

theorem returnType_basicType_witness :
    (∃ r, builtin_InputDomainSubsetOf.returnType
          [{ basicType := BasicType.String },
           { basicType := BasicType.Face, compositeType := CompositeType.Collection,
             gridMapping := InteriorFaces, subsetOf := AllFaces, isDomain := true }]
            = Except.ok r ∧ r.basicType = BasicType.Face)
      ∧ ∃ r, builtin_FirstCell.returnType
          [{ basicType := BasicType.Face, compositeType := CompositeType.Collection }]
            = Except.ok r ∧ r.basicType = BasicType.Cell :=
  ⟨((returnType_basicType builtin_InputDomainSubsetOf
      [{ basicType := BasicType.String },
       { basicType := BasicType.Face, compositeType := CompositeType.Collection,
         gridMapping := InteriorFaces, subsetOf := AllFaces, isDomain := true }]
      (by decide) (by decide)).1 1 (by decide) (by decide)).2
      (by decide) (by decide) (by decide),
    ((returnType_basicType builtin_FirstCell
      [{ basicType := BasicType.Face, compositeType := CompositeType.Collection }]
      (by decide) (by decide)).2 (by decide)).2 (by decide) (by decide) (by decide)⟩

/-- C12: for a FunctionType whose grid-mapping marker is the argument index `i` and actuals of
matching length, whenever `returnType(argtypes)` returns a type its grid mapping is that of
`argtypes[i]`, and it does return a type when the other markers are InvalidIndex or argument
indices.  A function `f(x : Collection Of Scalar On InteriorCells) -> Collection Of Scalar`
with the grid mapping taken from argument 0, called with an argument On BoundaryFaces,
returns a type On BoundaryFaces, which is neither the static return type's nor the declared
parameter's grid mapping. -/
theorem returnType_gridMapping (ft : FunctionType) (argtypes : List EquelleType) (i : Nat)
    (hi : i < argtypes.length) (hm : ft.dynamic.arg_index_for_gridmapping = (i : Int))
    (hlen : argtypes.length = ft.arguments.length) :
    (∀ r, ft.returnType argtypes = Except.ok r → r.gridMapping = argtypes[i].gridMapping)
      ∧ (MarkerInRange ft.dynamic.arg_index_for_basic_type argtypes.length →
          MarkerInRange ft.dynamic.arg_index_for_subset argtypes.length →
          MarkerInRange ft.dynamic.arg_index_for_array_size argtypes.length →
          ∃ r, ft.returnType argtypes = Except.ok r
            ∧ r.gridMapping = argtypes[i].gridMapping)
      ∧ (FunctionType.ofDynamic
            [Variable.new "x"
              { basicType := BasicType.Scalar, compositeType := CompositeType.Collection,
                gridMapping := InteriorCells }]
            { basicType := BasicType.Scalar, compositeType := CompositeType.Collection }
            Dimension.dimensionless
            (DynamicReturnSpecification.new InvalidIndex 0 InvalidIndex)).returnType
          [{ basicType := BasicType.Scalar, compositeType := CompositeType.Collection,
             gridMapping := BoundaryFaces }]
        = Except.ok
          { basicType := BasicType.Scalar, compositeType := CompositeType.Collection,
            gridMapping := BoundaryFaces } := by
  have hne : ¬ ft.dynamic.arg_index_for_gridmapping = InvalidIndex := by
    unfold InvalidIndex
    omega
  have hact : ft.dynamic.activeType = true := by
    unfold DynamicReturnSpecification.activeType
    simp [hne]
  have hgm : ft.resolvedGridMapping argtypes = Except.ok argtypes[i].gridMapping :=
    marker_natCast argtypes EquelleType.gridMapping _ i hi hm
  have hpart : ∀ r, ft.returnType argtypes = Except.ok r →
      r.gridMapping = argtypes[i].gridMapping := by
    intro r hr
    obtain ⟨bt, gm, sub, asz, _, h2, _, _, rfl⟩ :=
      (returnType_eq_ok ft argtypes hlen hact r).1 hr
    rw [hgm] at h2
    exact (Except.ok.inj h2).symm
  refine ⟨hpart, ?_, by decide⟩
  intro hbt hsub hasz
  obtain ⟨r, hr⟩ := returnType_total ft argtypes hlen hact hbt
    (Or.inr ⟨by omega, by omega⟩) (Or.inl hsub) hasz
  exact ⟨r, hr, hpart r hr⟩

theorem returnType_gridMapping_witness :
    ∃ r, builtin_FirstCell.returnType
        [{ basicType := BasicType.Face, compositeType := CompositeType.Collection,
           gridMapping := BoundaryFaces, subsetOf := AllFaces }]
          = Except.ok r ∧ r.gridMapping = BoundaryFaces :=
  (returnType_gridMapping builtin_FirstCell
    [{ basicType := BasicType.Face, compositeType := CompositeType.Collection,
       gridMapping := BoundaryFaces, subsetOf := AllFaces }]
    0 (by decide) (by decide) (by decide)).2.1 (by decide) (by decide) (by decide)

/-- C13: for a FunctionType whose dynamic type aspect is active and actuals of matching
length: if the resolved basic type is not an entity type or the static return type is not a
collection, then whenever `returnType(argtypes)` returns a type its subset-of is
NotApplicable; and it does return such a type when the grid-mapping and array-size markers are
InvalidIndex or argument indices, whatever the subset marker and the static subset-of. -/
theorem returnType_subsetOf_notApplicable (ft : FunctionType) (argtypes : List EquelleType)
    (hact : ft.dynamic.activeType = true) (hlen : argtypes.length = ft.arguments.length)
    (bt : BasicType) (hbt : ft.resolvedBasicType argtypes = Except.ok bt)
    (hcond : isEntityType bt = false ∨ ft.return_type.isCollection = false) :
    (∀ r, ft.returnType argtypes = Except.ok r → r.subsetOf = NotApplicable)
      ∧ (MarkerInRange ft.dynamic.arg_index_for_gridmapping argtypes.length →
          MarkerInRange ft.dynamic.arg_index_for_array_size argtypes.length →
          ∃ r, ft.returnType argtypes = Except.ok r ∧ r.basicType = bt
            ∧ r.subsetOf = NotApplicable) := by
  have hc : (isEntityType bt && ft.return_type.isCollection) = false := by
    rcases hcond with h | h <;> simp [h]
  have hpart : ∀ r, ft.returnType argtypes = Except.ok r →
      r.basicType = bt ∧ r.subsetOf = NotApplicable := by
    intro r hr
    obtain ⟨bt', gm, sub, asz, h1, _, h3, _, rfl⟩ :=
      (returnType_eq_ok ft argtypes hlen hact r).1 hr
    rw [hbt] at h1
    cases h1
    rw [hc] at h3
    exact ⟨rfl, (Except.ok.inj h3).symm⟩
  refine ⟨fun r hr => (hpart r hr).2, ?_⟩
  intro hgm hasz
  have hbtm : MarkerInRange ft.dynamic.arg_index_for_basic_type argtypes.length := by
    by_cases hm : ft.dynamic.arg_index_for_basic_type = InvalidIndex
    · exact Or.inl hm
    · unfold FunctionType.resolvedBasicType at hbt
      rw [if_neg hm] at hbt
      obtain ⟨t, ht, _⟩ := except_map_eq_ok.1 hbt
      obtain ⟨h0, h1⟩ := vectorAt_eq_ok.1 ht
      have := (List.getElem?_eq_some_iff.1 h1).1
      exact Or.inr ⟨h0, by omega⟩
  obtain ⟨r, hr⟩ := returnType_total ft argtypes hlen hact hbtm hgm
    (Or.inr (fun bt' h => by rw [hbt] at h; cases h; exact hc)) hasz
  exact ⟨r, hr, hpart r hr⟩

theorem returnType_subsetOf_notApplicable_witness :
    ∃ r, (FunctionType.ofDynamic
            [Variable.new "x" { basicType := BasicType.Scalar,
                                compositeType := CompositeType.Collection }]
            { basicType := BasicType.Scalar, compositeType := CompositeType.Collection,
              subsetOf := AllCells }
            Dimension.dimensionless
            (DynamicReturnSpecification.new InvalidIndex InvalidIndex 7)).returnType
          [{ basicType := BasicType.Scalar, compositeType := CompositeType.Collection,
             gridMapping := InteriorCells }]
        = Except.ok r ∧ r.basicType = BasicType.Scalar ∧ r.subsetOf = NotApplicable :=
  (returnType_subsetOf_notApplicable _ _ (by decide) (by decide) BasicType.Scalar (by decide)
    (Or.inl (by decide))).2 (by decide) (by decide)

/-- C14, as amended: for a FunctionType whose subset marker is the argument index `i`, whose
resolved basic type is an entity type and whose static return type is a collection, and
actuals of matching length: whenever `returnType(argtypes)` returns a type, its subset-of is
the grid mapping of `argtypes[i]` (the set the designated argument lives on); and it does
return a type when the grid-mapping and array-size markers are InvalidIndex or argument
indices. -/
theorem returnType_subsetOf_from_argument (ft : FunctionType) (argtypes : List EquelleType)
    (i : Nat) (hi : i < argtypes.length) (hm : ft.dynamic.arg_index_for_subset = (i : Int))
    (hlen : argtypes.length = ft.arguments.length)
    (bt : BasicType) (hbt : ft.resolvedBasicType argtypes = Except.ok bt)
    (hent : isEntityType bt = true) (hcoll : ft.return_type.isCollection = true) :
    (∀ r, ft.returnType argtypes = Except.ok r → r.subsetOf = argtypes[i].gridMapping)
      ∧ (MarkerInRange ft.dynamic.arg_index_for_gridmapping argtypes.length →
          MarkerInRange ft.dynamic.arg_index_for_array_size argtypes.length →
          ∃ r, ft.returnType argtypes = Except.ok r
            ∧ r.subsetOf = argtypes[i].gridMapping) := by
  have hne : ¬ ft.dynamic.arg_index_for_subset = InvalidIndex := by
    unfold InvalidIndex
    omega
  have hact : ft.dynamic.activeType = true := by
    unfold DynamicReturnSpecification.activeType
    simp [hne]
  have hpart : ∀ r, ft.returnType argtypes = Except.ok r →
      r.subsetOf = argtypes[i].gridMapping := by
    intro r hr
    obtain ⟨bt', gm, sub, asz, h1, _, h3, _, rfl⟩ :=
      (returnType_eq_ok ft argtypes hlen hact r).1 hr
    rw [hbt] at h1
    cases h1
    rw [hent, hcoll, Bool.and_self, if_pos rfl,
      marker_natCast argtypes EquelleType.gridMapping _ i hi hm] at h3
    exact (Except.ok.inj h3).symm
  refine ⟨hpart, ?_⟩
  intro hgm hasz
  have hbtm : MarkerInRange ft.dynamic.arg_index_for_basic_type argtypes.length := by
    by_cases hm' : ft.dynamic.arg_index_for_basic_type = InvalidIndex
    · exact Or.inl hm'
    · unfold FunctionType.resolvedBasicType at hbt
      rw [if_neg hm'] at hbt
      obtain ⟨t, ht, _⟩ := except_map_eq_ok.1 hbt
      obtain ⟨h0, h1⟩ := vectorAt_eq_ok.1 ht
      have := (List.getElem?_eq_some_iff.1 h1).1
      exact Or.inr ⟨h0, by omega⟩
  obtain ⟨r, hr⟩ := returnType_total ft argtypes hlen hact hbtm hgm
    (Or.inl (Or.inr ⟨by omega, by omega⟩)) hasz
  exact ⟨r, hr, hpart r hr⟩

theorem returnType_subsetOf_from_argument_witness :
    ∃ r, builtin_InputDomainSubsetOf.returnType
        [{ basicType := BasicType.String },
         { basicType := BasicType.Cell, compositeType := CompositeType.Collection,
           gridMapping := InteriorCells, subsetOf := AllCells, isDomain := true }]
          = Except.ok r ∧ r.subsetOf = InteriorCells :=
  (returnType_subsetOf_from_argument builtin_InputDomainSubsetOf
    [{ basicType := BasicType.String },
     { basicType := BasicType.Cell, compositeType := CompositeType.Collection,
       gridMapping := InteriorCells, subsetOf := AllCells, isDomain := true }]
    1 (by decide) (by decide) (by decide) BasicType.Cell (by decide) (by decide)
    (by decide)).2 (by decide) (by decide)

/-- C14 fails as stated: for the built-in `InputDomainSubsetOf`, whose subset marker is
argument 1, called on the domain `InteriorCells()` (a collection of Cell on InteriorCells,
subset of AllCells), the returned type is a subset of InteriorCells, the grid mapping of the
argument, and not of AllCells, the argument's own subset-of. -/
theorem returnType_subsetOf_is_not_argument_subsetOf :
    builtin_InputDomainSubsetOf.dynamic.arg_index_for_subset = 1
      ∧ builtin_InputDomainSubsetOf.return_type.isCollection = true
      ∧ builtin_InputDomainSubsetOf.resolvedBasicType
          [{ basicType := BasicType.String },
           { basicType := BasicType.Cell, compositeType := CompositeType.Collection,
             gridMapping := InteriorCells, subsetOf := AllCells, isDomain := true }]
        = Except.ok BasicType.Cell
      ∧ builtin_InputDomainSubsetOf.returnType
          [{ basicType := BasicType.String },
           { basicType := BasicType.Cell, compositeType := CompositeType.Collection,
             gridMapping := InteriorCells, subsetOf := AllCells, isDomain := true }]
        = Except.ok
          { basicType := BasicType.Cell, compositeType := CompositeType.Collection,
            gridMapping := NotApplicable, subsetOf := InteriorCells, isDomain := true }
      ∧ InteriorCells ≠ AllCells := by
  decide

/-- C15: for every FunctionType and dimension actuals of matching length: if the dimension
marker is the argument index `i`, `returnDimension(argdims)` is `argdims[i]` and
`returnArrayDimension(argdims)` is the whole sequence `argdims[i]`; if the dynamic dimension
aspect is inactive, `returnDimension` returns the first static return dimension and
`returnArrayDimension` the whole static return-dimension sequence, whatever the actuals. -/
theorem returnDimension_spec (ft : FunctionType) :
    (∀ argdims : List Dimension, argdims.length = ft.arguments.length →
        (∀ (i : Nat) (hi : i < argdims.length), ft.dynamic.arg_index_for_dimension = (i : Int) →
            ft.returnDimension argdims = Except.ok argdims[i])
          ∧ (ft.dynamic.activeDimension = false → ∀ d ds, ft.return_dimension = d :: ds →
            ft.returnDimension argdims = Except.ok d))
      ∧ (∀ argdims : List (List Dimension), argdims.length = ft.arguments.length →
        (∀ (i : Nat) (hi : i < argdims.length), ft.dynamic.arg_index_for_dimension = (i : Int) →
            ft.returnArrayDimension argdims = Except.ok argdims[i])
          ∧ (ft.dynamic.activeDimension = false →
            ft.returnArrayDimension argdims = Except.ok ft.return_dimension)) := by
  have hactive : ∀ i : Nat, ft.dynamic.arg_index_for_dimension = (i : Int) →
      ft.dynamic.activeDimension = true := by
    intro i hm
    unfold DynamicReturnSpecification.activeDimension InvalidIndex
    rw [hm]
    simp only [ne_eq, decide_eq_true_eq]
    omega
  constructor
  · intro argdims hlen
    constructor
    · intro i hi hm
      unfold FunctionType.returnDimension
      rw [if_neg (by simpa using hlen), if_pos (hactive i hm), hm]
      exact vectorAt_natCast argdims i hi
    · intro hin d ds hd
      unfold FunctionType.returnDimension
      rw [if_neg (by simpa using hlen), hin, hd, if_neg (by decide)]
      exact vectorAt_natCast (d :: ds) 0 (by simp)
  · intro argdims hlen
    constructor
    · intro i hi hm
      unfold FunctionType.returnArrayDimension
      rw [if_neg (by simpa using hlen), if_pos (hactive i hm), hm]
      exact vectorAt_natCast argdims i hi
    · intro hin
      unfold FunctionType.returnArrayDimension
      rw [if_neg (by simpa using hlen), hin, if_neg (by decide)]

theorem returnDimension_spec_witness :
    (FunctionType.ofDynamic
        [Variable.new "values" { basicType := BasicType.Scalar,
                                 compositeType := CompositeType.Collection }]
        { basicType := BasicType.Scalar, compositeType := CompositeType.Collection }
        Dimension.dimensionless
        (DynamicReturnSpecification.new InvalidIndex InvalidIndex InvalidIndex InvalidIndex
          0)).returnDimension [⟨[1, 0, -2]⟩] = Except.ok ⟨[1, 0, -2]⟩
      ∧ builtin_FirstCell.returnArrayDimension [[⟨[1]⟩, ⟨[2]⟩]]
        = Except.ok [Dimension.dimensionless] :=
  ⟨((returnDimension_spec _).1 [⟨[1, 0, -2]⟩] (by decide)).1 0 (by decide) (by decide),
    ((returnDimension_spec builtin_FirstCell).2 [[⟨[1]⟩, ⟨[2]⟩]] (by decide)).2 (by decide)⟩

/-- C16: for the built-ins FirstCell and SecondCell and every argument type `t`,
`returnType([t])` is the non-mutable Collection Of Cell whose grid mapping is that of `t` and
whose subset-of is AllCells: the basic-type and subset markers are InvalidIndex and the
grid-mapping marker is argument 0. -/
theorem builtin_FirstCell_returnType (t : EquelleType) :
    builtin_FirstCell.returnType [t]
        = Except.ok
          { basicType := BasicType.Cell, compositeType := CompositeType.Collection,
            gridMapping := t.gridMapping, subsetOf := AllCells, isMutable := false,
            isDomain := false, arraySize := NotAnArray, isStencil := false }
      ∧ builtin_SecondCell.returnType [t]
        = Except.ok
          { basicType := BasicType.Cell, compositeType := CompositeType.Collection,
            gridMapping := t.gridMapping, subsetOf := AllCells, isMutable := false,
            isDomain := false, arraySize := NotAnArray, isStencil := false }
      ∧ builtin_FirstCell.dynamic.arg_index_for_basic_type = InvalidIndex
      ∧ builtin_FirstCell.dynamic.arg_index_for_subset = InvalidIndex
      ∧ builtin_FirstCell.dynamic.arg_index_for_gridmapping = 0
      ∧ builtin_SecondCell.dynamic = builtin_FirstCell.dynamic :=
  ⟨rfl, rfl, rfl, rfl, rfl, rfl⟩

/-! ## Lemmas on scopes -/

theorem find_name_eq_none {l : List Variable} {name : String} :
    l.find? (fun v => decide (v.name = name)) = none ↔ name ∉ l.map Variable.name := by
  rw [List.find?_eq_none]
  simp only [decide_eq_true_eq, List.mem_map, not_exists, not_and]

theorem find_name_isSome {l : List Variable} {name : String} :
    (l.find? (fun v => decide (v.name = name))).isSome = true ↔ name ∈ l.map Variable.name := by
  rw [← not_iff_not, ← find_name_eq_none]
  cases l.find? (fun v => decide (v.name = name)) <;> simp

theorem find_name_some {l : List Variable} {name : String} {v : Variable}
    (h : l.find? (fun v => decide (v.name = name)) = some v) : v ∈ l ∧ v.name = name :=
  ⟨List.mem_of_find?_eq_some h, by simpa using List.find?_some h⟩

theorem declared_fst_iff (f : Function) (name : String) :
    (f.declared name).1 = true ↔ f.hasName name := by
  unfold Function.declared Function.hasName findLocal
  cases h1 : f.local_variables.find? (fun v => decide (v.name = name)) with
  | some lit =>
    have := find_name_isSome.1 (by rw [h1]; rfl)
    simp [this]
  | none =>
    have hn1 := find_name_eq_none.1 h1
    cases h2 : f.type.arguments.find? (fun v => decide (v.name = name)) with
    | some ait =>
      have := find_name_isSome.1 (by rw [h2]; rfl)
      simp [this]
    | none =>
      have hn2 := find_name_eq_none.1 h2
      simp only [Bool.false_eq_true, false_iff, not_or]
      exact ⟨hn1, hn2⟩

theorem declared_fst_false {f : Function} {name : String} (h : ¬ f.hasName name) :
    (f.declared name).1 = false := by
  have := (declared_fst_iff f name).not.2 h
  simpa using this

theorem findLocal_none_of_not_hasName {f : Function} {name : String} (h : ¬ f.hasName name) :
    findLocal f.local_variables name = none :=
  find_name_eq_none.2 (fun hm => h (Or.inl hm))

theorem findArg_none_of_not_hasName {f : Function} {name : String} (h : ¬ f.hasName name) :
    f.type.arguments.find? (fun a => decide (a.name = name)) = none :=
  find_name_eq_none.2 (fun hm => h (Or.inr hm))

theorem findLocal_orderedInsert (l : List Variable) (v : Variable)
    (h : findLocal l v.name = none) :
    findLocal (l.orderedInsert Variable.lt v) v.name = some v := by
  induction l with
  | nil => simp [findLocal]
  | cons b l ih =>
    unfold findLocal at h ih ⊢
    rw [List.find?_cons] at h
    by_cases hb : b.name = v.name
    · simp [hb] at h
    · simp only [hb, decide_False] at h
      rw [List.orderedInsert]
      by_cases hr : Variable.lt v b
      · simp [hr]
      · simp only [hr, if_false, List.find?_cons, hb, decide_False]
        exact ih h

theorem findLocal_insertLocal (l : List Variable) (v : Variable)
    (h : findLocal l v.name = none) : findLocal (insertLocal l v) v.name = some v := by
  unfold insertLocal
  rw [h]
  exact findLocal_orderedInsert l v h

theorem eraseLocal_orderedInsert (l : List Variable) (v : Variable)
    (h : findLocal l v.name = none) :
    eraseLocal (l.orderedInsert Variable.lt v) v.name = l := by
  induction l with
  | nil => simp [eraseLocal]
  | cons b l ih =>
    unfold findLocal at h ih
    unfold eraseLocal at ih ⊢
    rw [List.find?_cons] at h
    by_cases hb : b.name = v.name
    · simp [hb] at h
    · simp only [hb, decide_False] at h
      rw [List.orderedInsert]
      by_cases hr : Variable.lt v b
      · simp [hr]
      · simp only [hr, if_false]
        rw [List.eraseP_cons_of_neg (by simpa using hb), ih h]

theorem eraseLocal_insertLocal (l : List Variable) (v : Variable)
    (h : findLocal l v.name = none) : eraseLocal (insertLocal l v) v.name = l := by
  unfold insertLocal
  rw [h]
  exact eraseLocal_orderedInsert l v h

theorem insertLocal_perm (l : List Variable) (v : Variable) (h : findLocal l v.name = none) :
    (insertLocal l v).Perm (v :: l) := by
  unfold insertLocal
  rw [h]
  exact List.perm_orderedInsert Variable.lt v l

theorem ancestor_succ {fs : List Function} {g p : Nat} {G : Function}
    (hG : fs[g]? = some G) (hp : G.parent_scope = some p) (k : Nat) :
    ancestor fs (k + 1) g = ancestor fs k p := by
  rw [ancestor]
  simp only [hG, hp]

theorem ancestor_succ_some {fs : List Function} {g f : Nat} {G : Function} {k : Nat}
    (hG : fs[g]? = some G) (h : ancestor fs (k + 1) g = some f) :
    ∃ p, G.parent_scope = some p ∧ ancestor fs k p = some f := by
  rw [ancestor] at h
  simp only [hG] at h
  cases hp : G.parent_scope with
  | none => simp [hp] at h
  | some p => exact ⟨p, rfl, by simpa [hp] using h⟩

theorem undeclaredBelow_head {fs : List Function} {k g : Nat} {name : String}
    (h : UndeclaredBelow fs (k + 1) g name) : ∃ G, fs[g]? = some G ∧ ¬ G.hasName name :=
  h 0 (by omega) g rfl

theorem undeclaredBelow_parent {fs : List Function} {k g p : Nat} {G : Function}
    {name : String} (hG : fs[g]? = some G) (hp : G.parent_scope = some p)
    (h : UndeclaredBelow fs (k + 1) g name) : UndeclaredBelow fs k p name := by
  intro j hj s hs
  exact h (j + 1) (by omega) s (by rw [ancestor_succ hG hp]; exact hs)

theorem variableType_delegates (fs : List Function) (name : String) (k : Nat) :
    ∀ g f fuel, ancestor fs k g = some f → UndeclaredBelow fs k g name →
      variableType fs (k + fuel) g name = variableType fs fuel f name := by
  induction k with
  | zero =>
    intro g f fuel ha _
    rw [Option.some.inj ha, Nat.zero_add]
  | succ k ih =>
    intro g f fuel ha hu
    obtain ⟨G, hG, hn⟩ := undeclaredBelow_head hu
    obtain ⟨p, hp, hap⟩ := ancestor_succ_some hG ha
    rw [show k + 1 + fuel = (k + fuel) + 1 by omega, variableType]
    simp only [hG, declared_fst_false hn, hp, Bool.not_false, if_true]
    exact ih p f fuel hap (undeclaredBelow_parent hG hp hu)

theorem variableDimension_delegates (fs : List Function) (name : String) (k : Nat) :
    ∀ g f fuel, ancestor fs k g = some f → UndeclaredBelow fs k g name →
      variableDimension fs (k + fuel) g name = variableDimension fs fuel f name := by
  induction k with
  | zero =>
    intro g f fuel ha _
    rw [Option.some.inj ha, Nat.zero_add]
  | succ k ih =>
    intro g f fuel ha hu
    obtain ⟨G, hG, hn⟩ := undeclaredBelow_head hu
    obtain ⟨p, hp, hap⟩ := ancestor_succ_some hG ha
    rw [show k + 1 + fuel = (k + fuel) + 1 by omega, variableDimension]
    simp only [hG, findLocal_none_of_not_hasName hn, findArg_none_of_not_hasName hn, hp]
    exact ih p f fuel hap (undeclaredBelow_parent hG hp hu)

theorem isVariableDeclared_delegates (fs : List Function) (name : String) (k : Nat) :
    ∀ g f fuel, ancestor fs k g = some f → UndeclaredBelow fs k g name →
      isVariableDeclared fs (k + fuel) g name = isVariableDeclared fs fuel f name := by
  induction k with
  | zero =>
    intro g f fuel ha _
    rw [Option.some.inj ha, Nat.zero_add]
  | succ k ih =>
    intro g f fuel ha hu
    obtain ⟨G, hG, hn⟩ := undeclaredBelow_head hu
    obtain ⟨p, hp, hap⟩ := ancestor_succ_some hG ha
    rw [show k + 1 + fuel = (k + fuel) + 1 by omega, isVariableDeclared]
    simp only [hG, declared_fst_false hn, hp, Bool.false_eq_true, if_false]
    exact ih p f fuel hap (undeclaredBelow_parent hG hp hu)

theorem isVariableAssigned_delegates (fs : List Function) (name : String) (k : Nat) :
    ∀ g f fuel, ancestor fs k g = some f → UndeclaredBelow fs k g name →
      isVariableAssigned fs (k + fuel) g name = isVariableAssigned fs fuel f name := by
  induction k with
  | zero =>
    intro g f fuel ha _
    rw [Option.some.inj ha, Nat.zero_add]
  | succ k ih =>
    intro g f fuel ha hu
    obtain ⟨G, hG, hn⟩ := undeclaredBelow_head hu
    obtain ⟨p, hp, hap⟩ := ancestor_succ_some hG ha
    rw [show k + 1 + fuel = (k + fuel) + 1 by omega, isVariableAssigned]
    simp only [hG, findLocal_none_of_not_hasName hn, findArg_none_of_not_hasName hn, hp]
    exact ih p f fuel hap (undeclaredBelow_parent hG hp hu)

theorem declareVariable_fresh {f : Function} {name : String} (h : ¬ f.hasName name)
    (type : EquelleType) :
    f.declareVariable name type
      = ({ f with
            local_variables := insertLocal f.local_variables (Variable.new name type false) },
          []) := by
  simp [Function.declareVariable, declared_fst_false h]

/-! ## The claims on scopes -/

/-- C17: `Function::declareVariable(name, type)` reports "redeclared variable: name" if and
only if `name` is already a local variable or an argument of that very scope; in that case
the scope is left unchanged; otherwise it reports nothing, the local-variable set becomes the
old one plus the one Variable (name, type, assigned = false), which `find` then returns for
`name`, and nothing else in the scope changes. -/
theorem declareVariable_spec (f : Function) (name : String) (type : EquelleType) :
    ((f.declareVariable name type).2 = ["redeclared variable: " ++ name] ↔ f.hasName name)
      ∧ (f.hasName name → (f.declareVariable name type).1 = f)
      ∧ (¬ f.hasName name →
          (f.declareVariable name type).2 = []
            ∧ (f.declareVariable name type).1.local_variables.Perm
                (Variable.new name type false :: f.local_variables)
            ∧ findLocal (f.declareVariable name type).1.local_variables name
                = some (Variable.new name type false)
            ∧ (f.declareVariable name type).1
                = { f with
                    local_variables := (f.declareVariable name type).1.local_variables }) := by
  by_cases h : f.hasName name
  · have hd := (declared_fst_iff f name).2 h
    simp [Function.declareVariable, hd, h]
  · have hd := declared_fst_false h
    have hfind : findLocal f.local_variables (Variable.new name type false).name = none :=
      findLocal_none_of_not_hasName h
    refine ⟨by simp [Function.declareVariable, hd, h], fun h' => absurd h' h, fun _ => ?_⟩
    simp only [Function.declareVariable, hd, Bool.not_false, if_true]
    exact ⟨trivial, insertLocal_perm _ _ hfind, findLocal_insertLocal _ _ hfind, trivial⟩

theorem declareVariable_spec_witness :
    ((Function.new "f" (FunctionType.ofArgs [Variable.new "x" { basicType := BasicType.Scalar }]
        { basicType := BasicType.Scalar })).declareVariable "x"
        { basicType := BasicType.Vector }).2 = ["redeclared variable: x"]
      ∧ ((Function.new "f" (FunctionType.ofArgs
          [Variable.new "x" { basicType := BasicType.Scalar }]
          { basicType := BasicType.Scalar })).declareVariable "y"
          { basicType := BasicType.Vector }).1.local_variables
        = [Variable.new "y" { basicType := BasicType.Vector } false] :=
  ⟨(declareVariable_spec _ "x" _).1.2 (by decide),
    by
      have h := ((declareVariable_spec (Function.new "f" (FunctionType.ofArgs
        [Variable.new "x" { basicType := BasicType.Scalar }]
        { basicType := BasicType.Scalar })) "y" { basicType := BasicType.Vector }).2.2
        (by decide)).2.1
      exact List.perm_singleton.1 h⟩

/-- C18: for a scope `F` that holds a variable `name` whose type is `T1` and a scope `G`
further down (`F` is the `k`-th scope on the parent chain of `G`, `k > 0`) without local or
argument called `name`: `declareVariable(name, T2)` on `G` reports no error; afterwards
`variableType(name)` returns `T2` from `G` and still `T1` from `F`, and `F` is unchanged. -/
theorem declareVariable_shadows (functions : List Function) (f g : Nat) (F G : Function)
    (hF : functions[f]? = some F) (hG : functions[g]? = some G)
    (k : Nat) (_hk : 0 < k) (_hchain : ancestor functions k g = some f)
    (name : String) (T1 T2 : EquelleType)
    (hF1 : F.hasName name) (hT1 : (F.declared name).2 = T1) (hG1 : ¬ G.hasName name) :
    ∃ functions', declareVariable functions g name T2 = Except.ok (functions', [])
      ∧ (∀ fuel, variableType functions' fuel g name = some (Except.ok (T2, [])))
      ∧ (∀ fuel, variableType functions' fuel f name = some (Except.ok (T1, [])))
      ∧ functions'[f]? = some F := by
  have hfg : g ≠ f := by
    intro h
    rw [h, hF] at hG
    exact hG1 (Option.some.inj hG ▸ hF1)
  have hglt : g < functions.length := (List.getElem?_eq_some_iff.1 hG).1
  have hfresh := declareVariable_fresh hG1 T2
  have hfind : findLocal (G.declareVariable name T2).1.local_variables name
      = some (Variable.new name T2 false) := by
    rw [hfresh]
    exact findLocal_insertLocal _ (Variable.new name T2 false)
      (findLocal_none_of_not_hasName hG1)
  refine ⟨functions.set g (G.declareVariable name T2).1, ?_, ?_, ?_, ?_⟩
  · unfold declareVariable
    simp only [hG]
    rw [hfresh]
  · intro fuel
    have hd : ((G.declareVariable name T2).1.declared name) = (true, T2) := by
      unfold Function.declared
      rw [hfind]
      rfl
    cases fuel <;>
      · unfold variableType
        simp only [List.getElem?_set_self hglt, hd, Bool.not_true, Bool.false_eq_true, if_false]
  · intro fuel
    have hd := (declared_fst_iff F name).2 hF1
    cases fuel <;>
      · unfold variableType
        simp only [List.getElem?_set_ne hfg, hF, hd, hT1, Bool.not_true, Bool.false_eq_true,
          if_false]
  · rw [List.getElem?_set_ne hfg, hF]

theorem declareVariable_shadows_witness :
    ∃ functions',
      declareVariable sampleScopes 2 "x" { basicType := BasicType.Vector }
          = Except.ok (functions', [])
        ∧ (∀ fuel, variableType functions' fuel 2 "x"
            = some (Except.ok ({ basicType := BasicType.Vector }, [])))
        ∧ (∀ fuel, variableType functions' fuel 1 "x"
            = some (Except.ok ({ basicType := BasicType.Scalar }, [])))
        ∧ functions'[1]? = sampleScopes[1]? :=
  declareVariable_shadows sampleScopes 1 2
    { Function.new "f" (FunctionType.ofArgs [Variable.new "x" { basicType := BasicType.Scalar }]
      { basicType := BasicType.Scalar }) with parent_scope := some 0 }
    { Function.new "g" with parent_scope := some 1 }
    rfl rfl 1 (by decide) rfl "x"
    { basicType := BasicType.Scalar } { basicType := BasicType.Vector }
    (by decide) rfl (by decide)

theorem queries_at_declaring_scope {fs : List Function} {f : Nat} {F : Function}
    (hF : fs[f]? = some F) (name : String) (v : Variable) (D : Dimension)
    (hv : findLocal F.local_variables name = some v) (hD : v.dimension = [D]) (fuel : Nat) :
    variableType fs fuel f name = some (Except.ok (v.type, []))
      ∧ variableDimension fs fuel f name = some (Except.ok (D, []))
      ∧ isVariableDeclared fs fuel f name = some (Except.ok (true, [])) := by
  have hd : F.declared name = (true, v.type) := by
    unfold Function.declared
    rw [hv]
  have hg : v.getDimension = Except.ok D := by
    unfold Variable.getDimension
    rw [hD]
  refine ⟨?_, ?_, ?_⟩
  · cases fuel <;>
      · unfold variableType
        simp only [hF, hd, Bool.not_true, Bool.false_eq_true, if_false]
  · cases fuel <;>
      · unfold variableDimension
        simp only [hF, hv, hg]
        rfl
  · cases fuel <;>
      · unfold isVariableDeclared
        simp only [hF, hd, if_true]

/-- C19: for a scope `F` in which `name` is not yet a local or an argument,
`declareVariable(name, T)` and then `setVariableDimension(name, D)` on `F` both run without
error, and afterwards `variableType(name)` returns `T`, `variableDimension(name)` returns `D`
and `isVariableDeclared(name)` returns true, without diagnostic, from `F` and from every scope
`G` that has `F` as the `k`-th scope on its parent chain, provided none of the scopes before
`F` on that chain has a local or an argument called `name`, for every fuel from `k` on. -/
theorem declared_variable_visible (functions : List Function) (f : Nat) (F : Function)
    (hF : functions[f]? = some F) (name : String) (T : EquelleType) (D : Dimension)
    (hnew : ¬ F.hasName name) :
    ∃ functions1 functions2,
      declareVariable functions f name T = Except.ok (functions1, [])
        ∧ (∀ fuel, setVariableDimension functions1 fuel f name D
            = some (Except.ok (functions2, [])))
        ∧ ∀ g k, ancestor functions2 k g = some f → UndeclaredBelow functions2 k g name →
          ∀ fuel, k ≤ fuel →
            variableType functions2 fuel g name = some (Except.ok (T, []))
              ∧ variableDimension functions2 fuel g name = some (Except.ok (D, []))
              ∧ isVariableDeclared functions2 fuel g name = some (Except.ok (true, [])) := by
  have hflt : f < functions.length := (List.getElem?_eq_some_iff.1 hF).1
  have hfresh := declareVariable_fresh hnew T
  have hnone : findLocal F.local_variables (Variable.new name T false).name = none :=
    findLocal_none_of_not_hasName hnew
  have hlocals : (F.declareVariable name T).1.local_variables
      = insertLocal F.local_variables (Variable.new name T false) := by
    rw [hfresh]
  have hfound : findLocal (F.declareVariable name T).1.local_variables name
      = some (Variable.new name T false) := by
    rw [hlocals]
    exact findLocal_insertLocal _ (Variable.new name T false) hnone
  have hcopy : findLocal F.local_variables
      ((Variable.new name T false).setDimension D).name = none := hnone
  refine ⟨functions.set f (F.declareVariable name T).1,
    (functions.set f (F.declareVariable name T).1).set f
      { (F.declareVariable name T).1 with
        local_variables := insertLocal F.local_variables
          ((Variable.new name T false).setDimension D) }, ?_, ?_, ?_⟩
  · unfold declareVariable
    simp only [hF]
    rw [hfresh]
  · intro fuel
    have hget : (functions.set f (F.declareVariable name T).1)[f]?
        = some (F.declareVariable name T).1 := List.getElem?_set_self hflt
    have herase : eraseLocal (F.declareVariable name T).1.local_variables name
        = F.local_variables := by
      rw [hlocals]
      exact eraseLocal_insertLocal _ (Variable.new name T false) hnone
    cases fuel <;>
      · unfold setVariableDimension
        simp only [hget, hfound, herase]
  · intro g k hanc hbelow fuel hfuel
    have hget : ((functions.set f (F.declareVariable name T).1).set f
        { (F.declareVariable name T).1 with
          local_variables := insertLocal F.local_variables
            ((Variable.new name T false).setDimension D) })[f]?
        = some { (F.declareVariable name T).1 with
          local_variables := insertLocal F.local_variables
            ((Variable.new name T false).setDimension D) } :=
      List.getElem?_set_self (by rw [List.length_set]; exact hflt)
    have hfind := findLocal_insertLocal F.local_variables
      ((Variable.new name T false).setDimension D) hcopy
    have hat := queries_at_declaring_scope hget name
      ((Variable.new name T false).setDimension D) D hfind rfl (fuel - k)
    obtain ⟨n, rfl⟩ : ∃ n, fuel = k + n := ⟨fuel - k, by omega⟩
    rw [variableType_delegates _ name k g f n hanc hbelow,
      variableDimension_delegates _ name k g f n hanc hbelow,
      isVariableDeclared_delegates _ name k g f n hanc hbelow]
    simpa using hat

theorem declared_variable_visible_witness :
    ∃ functions1 functions2,
      declareVariable sampleScopes 1 "u" { basicType := BasicType.Vector }
          = Except.ok (functions1, [])
        ∧ (∀ fuel, setVariableDimension functions1 fuel 1 "u" ⟨[1, 0, -1]⟩
            = some (Except.ok (functions2, [])))
        ∧ ∀ g k, ancestor functions2 k g = some 1 → UndeclaredBelow functions2 k g "u" →
          ∀ fuel, k ≤ fuel →
            variableType functions2 fuel g "u"
                = some (Except.ok ({ basicType := BasicType.Vector }, []))
              ∧ variableDimension functions2 fuel g "u" = some (Except.ok (⟨[1, 0, -1]⟩, []))
              ∧ isVariableDeclared functions2 fuel g "u" = some (Except.ok (true, [])) :=
  declared_variable_visible sampleScopes 1
    { Function.new "f" (FunctionType.ofArgs [Variable.new "x" { basicType := BasicType.Scalar }]
      { basicType := BasicType.Scalar }) with parent_scope := some 0 }
    rfl "u" { basicType := BasicType.Vector } ⟨[1, 0, -1]⟩ (by decide)

/-- C20, as amended: when `name` is neither a local variable nor an argument of any scope on
the parent chain from the queried scope up to the root (reached after `k` steps), then for
every fuel from `k` on `variableType` reports "could not find variable name" and returns the
default type, `variableDimension` and `isVariableAssigned` report an internal compiler error
naming the query and return the default dimension and false, and `isVariableDeclared` returns
false and reports nothing. -/
theorem undeclared_variable_queries (functions : List Function) (g k : Nat) (name : String)
    (h : UndeclaredOnChain functions k g name) :
    ∀ fuel, k ≤ fuel →
      variableType functions fuel g name
          = some (Except.ok ({}, ["could not find variable " ++ name]))
        ∧ variableDimension functions fuel g name
          = some (Except.ok (Dimension.dimensionless,
              ["internal compiler error in Function::variableDimension()"]))
        ∧ isVariableAssigned functions fuel g name
          = some (Except.ok (false,
              ["internal compiler error in Function::isVariableAssigned()"]))
        ∧ isVariableDeclared functions fuel g name = some (Except.ok (false, [])) := by
  intro fuel hfuel
  obtain ⟨hbelow, root, R, hanc, hR, hpar⟩ := h
  obtain ⟨R', hR', hn⟩ := hbelow k (by omega) root hanc
  rw [hR] at hR'
  cases hR'
  have hb : UndeclaredBelow functions k g name := fun j hj s hs => hbelow j (by omega) s hs
  obtain ⟨n, rfl⟩ : ∃ n, fuel = k + n := ⟨fuel - k, by omega⟩
  rw [variableType_delegates _ name k g root n hanc hb,
    variableDimension_delegates _ name k g root n hanc hb,
    isVariableAssigned_delegates _ name k g root n hanc hb,
    isVariableDeclared_delegates _ name k g root n hanc hb]
  refine ⟨?_, ?_, ?_, ?_⟩
  · cases n <;>
      · unfold variableType
        simp only [hR, declared_fst_false hn, hpar, Bool.not_false, if_true]
  · cases n <;>
      · unfold variableDimension
        simp only [hR, findLocal_none_of_not_hasName hn, findArg_none_of_not_hasName hn, hpar]
  · cases n <;>
      · unfold isVariableAssigned
        simp only [hR, findLocal_none_of_not_hasName hn, findArg_none_of_not_hasName hn, hpar]
  · cases n <;>
      · unfold isVariableDeclared
        simp only [hR, declared_fst_false hn, hpar, Bool.false_eq_true, if_false]

theorem undeclaredOnChain_sample : UndeclaredOnChain sampleScopes 2 2 "y" := by
  refine ⟨?_, 0, _, rfl, rfl, rfl⟩
  intro j hj s hs
  match j, hj, hs with
  | 0, _, hs => exact ⟨_, by rw [← Option.some.inj hs]; rfl, by decide⟩
  | 1, _, hs => exact ⟨_, by rw [← Option.some.inj hs]; rfl, by decide⟩
  | 2, _, hs => exact ⟨_, by rw [← Option.some.inj hs]; rfl, by decide⟩

theorem undeclared_variable_queries_witness :
    variableType sampleScopes 2 2 "y"
        = some (Except.ok ({}, ["could not find variable y"]))
      ∧ variableDimension sampleScopes 2 2 "y"
        = some (Except.ok (Dimension.dimensionless,
            ["internal compiler error in Function::variableDimension()"]))
      ∧ isVariableAssigned sampleScopes 2 2 "y"
        = some (Except.ok (false,
            ["internal compiler error in Function::isVariableAssigned()"]))
      ∧ isVariableDeclared sampleScopes 2 2 "y" = some (Except.ok (false, [])) :=
  undeclared_variable_queries sampleScopes 2 2 "y" undeclaredOnChain_sample 2 (by decide)

/-- C20 fails as stated: in the sample scopes `y` is no local and no argument of `g`, `f` or
`Main`, and `isVariableDeclared("y")` queried from `g` returns false without reporting any
error. -/
theorem isVariableDeclared_reports_nothing :
    UndeclaredOnChain sampleScopes 2 2 "y"
      ∧ isVariableDeclared sampleScopes 2 2 "y" = some (Except.ok (false, [])) :=
  ⟨undeclaredOnChain_sample, by decide⟩

/-! ## The claims on the freshly constructed table and on `equelleString` -/

/-- C28: for a type whose grid mapping and subset-of, when applicable, are declared entity
sets, `equelleString` returns the concatenation, in this order, of "Mutable " iff the type is
mutable, "Array Of n " iff it is an array, "Collection Of " iff it is a collection and else
"Sequence Of " iff it is a sequence, the basic type name, " On " and the name of the grid
mapping iff that is neither NotApplicable nor PostponedDefinition, " Subset Of " and the name
of the subset-of set iff that is not NotApplicable.  In the initial table the type
(Scalar, Collection, AllCells) gives "Collection Of Scalar On AllCells()". -/
theorem equelleString_spec (st : SymbolTable) (t : EquelleType)
    (hgm : t.gridMapping ≠ NotApplicable ∧ t.gridMapping ≠ PostponedDefinition →
      isDeclared st.entitysets t.gridMapping)
    (hsub : t.subsetOf ≠ NotApplicable → isDeclared st.entitysets t.subsetOf) :
    (∃ gname sname,
        (t.gridMapping ≠ NotApplicable ∧ t.gridMapping ≠ PostponedDefinition →
          entitySetName st t.gridMapping = Except.ok gname)
        ∧ (t.subsetOf ≠ NotApplicable → entitySetName st t.subsetOf = Except.ok sname)
        ∧ equelleString st t = Except.ok
            ((if t.isMutable then "Mutable " else "")
              ++ (if t.isArray then "Array Of " ++ to_string t.arraySize ++ " " else "")
              ++ (if t.isCollection then "Collection Of "
                  else if t.isSequence then "Sequence Of " else "")
              ++ basicTypeString t.basicType
              ++ (if t.gridMapping ≠ NotApplicable ∧ t.gridMapping ≠ PostponedDefinition
                  then " On " ++ gname else "")
              ++ (if t.subsetOf ≠ NotApplicable then " Subset Of " ++ sname else "")))
      ∧ equelleString SymbolTable.initial
          { basicType := BasicType.Scalar, compositeType := CompositeType.Collection,
            gridMapping := AllCells }
        = Except.ok "Collection Of Scalar On AllCells()" := by
  refine ⟨?_, by decide⟩
  have hname : ∀ i, isDeclared st.entitysets i →
      ∃ n, entitySetName st i = Except.ok n ∧ setNameOf st i = Except.ok n := by
    intro i hi
    obtain ⟨e, he⟩ := findSet_of_declared hi
    exact ⟨e.name, by simp [entitySetName, he], by simp [setNameOf, he]⟩
  have hg : ∃ gname, (t.gridMapping ≠ NotApplicable ∧ t.gridMapping ≠ PostponedDefinition →
      entitySetName st t.gridMapping = Except.ok gname
        ∧ setNameOf st t.gridMapping = Except.ok gname) := by
    by_cases h : t.gridMapping ≠ NotApplicable ∧ t.gridMapping ≠ PostponedDefinition
    · obtain ⟨n, h1, h2⟩ := hname _ (hgm h)
      exact ⟨n, fun _ => ⟨h1, h2⟩⟩
    · exact ⟨"", fun h' => absurd h' h⟩
  have hs : ∃ sname, (t.subsetOf ≠ NotApplicable →
      entitySetName st t.subsetOf = Except.ok sname
        ∧ setNameOf st t.subsetOf = Except.ok sname) := by
    by_cases h : t.subsetOf ≠ NotApplicable
    · obtain ⟨n, h1, h2⟩ := hname _ (hsub h)
      exact ⟨n, fun _ => ⟨h1, h2⟩⟩
    · exact ⟨"", fun h' => absurd h' h⟩
  obtain ⟨gname, hg⟩ := hg
  obtain ⟨sname, hs⟩ := hs
  refine ⟨gname, sname, fun h => (hg h).1, fun h => (hs h).1, ?_⟩
  have hg' : t.gridMapping ≠ NotApplicable ∧ t.gridMapping ≠ PostponedDefinition →
      setNameOf st t.gridMapping = Except.ok gname := fun h => (hg h).2
  have hs' : t.subsetOf ≠ NotApplicable → setNameOf st t.subsetOf = Except.ok sname :=
    fun h => (hs h).2
  unfold equelleString
  cases t.isMutable <;> cases t.isArray <;> cases t.isCollection <;> cases t.isSequence <;>
    by_cases h5 : t.gridMapping ≠ NotApplicable ∧ t.gridMapping ≠ PostponedDefinition <;>
    by_cases h6 : t.subsetOf ≠ NotApplicable <;>
    simp only [h5, h6, hg' , hs', if_true, if_false, not_false_eq_true, and_self,
      Bool.false_eq_true, Except.map, bind, Except.bind, String.empty_append,
      String.append_assoc, String.append_empty, ne_eq, not_true_eq_false]

theorem equelleString_spec_witness :
    isDeclared SymbolTable.initial.entitysets InteriorCells
      ∧ isDeclared SymbolTable.initial.entitysets AllCells
      ∧ equelleString SymbolTable.initial
          { basicType := BasicType.Cell, compositeType := CompositeType.Collection,
            gridMapping := InteriorCells, subsetOf := AllCells, isMutable := true }
        = Except.ok "Mutable Collection Of Cell On InteriorCells() Subset Of AllCells()" := by
  refine ⟨by decide, by decide, ?_⟩
  obtain ⟨gname, sname, h1, h2, h3⟩ := (equelleString_spec SymbolTable.initial
    { basicType := BasicType.Cell, compositeType := CompositeType.Collection,
      gridMapping := InteriorCells, subsetOf := AllCells, isMutable := true }
    (fun _ => by decide) (fun _ => by decide)).1
  have e1 : entitySetName SymbolTable.initial InteriorCells = Except.ok "InteriorCells()" := by
    decide
  have e2 : entitySetName SymbolTable.initial AllCells = Except.ok "AllCells()" := by decide
  have hg : gname = "InteriorCells()" := (Except.ok.inj (e1.symm.trans (h1 (by decide)))).symm
  have hs : sname = "AllCells()" := (Except.ok.inj (e2.symm.trans (h2 (by decide)))).symm
  rw [h3, hg, hs]
  decide

/-- C29: in the freshly constructed symbol table the global function list is Main followed by
the 36 catalog functions, in the order of the constructor; the names are pairwise distinct, no
function has a parent scope, and the current function, like the main function, is Main. -/
theorem initial_functions :
    SymbolTable.initial.functions.map Function.name
        = ["Main",
           "InteriorCells", "BoundaryCells", "AllCells",
           "InteriorFaces", "BoundaryFaces", "AllFaces",
           "InteriorEdges", "BoundaryEdges", "AllEdges",
           "InteriorVertices", "BoundaryVertices", "AllVertices",
           "FirstCell", "SecondCell", "IsEmpty", "Centroid", "Normal",
           "InputScalarWithDefault", "InputCollectionOfScalar",
           "InputStencilCollectionOfScalar", "InputDomainSubsetOf", "InputSequenceOfScalar",
           "Gradient", "Divergence", "Dot", "NewtonSolve", "NewtonSolveSystem", "Output", "Sqrt",
           "MaxReduce", "MinReduce", "SumReduce", "ProdReduce",
           "StencilI", "StencilJ", "StencilK"]
      ∧ SymbolTable.initial.functions.length = 1 + 36
      ∧ (SymbolTable.initial.functions.map Function.name).Nodup
      ∧ (∀ f ∈ SymbolTable.initial.functions, f.parent_scope = none)
      ∧ (getCurrentFunction SymbolTable.initial).map Function.name = Except.ok "Main"
      ∧ SymbolTable.initial.current_function = SymbolTable.initial.main_function
      ∧ SymbolTable.initial.functions[SymbolTable.initial.current_function]?
          = SymbolTable.initial.functions.head? := by
  refine ⟨by decide, by decide, by decide, by decide, by decide, rfl, by decide⟩

/-- C30: in the freshly constructed symbol table the registry holds exactly the twelve sets
"InteriorCells()", "BoundaryCells()", "AllCells()" and their Faces, Edges and Vertices
analogues; Interior and Boundary of a kind have All of that kind as immediate superset and All
is its own superset; and for every fuel from 1 on `isSubset(a, b)` on two of these sets is
true exactly when `a = b` or `b` is All of the kind of `a`, so it is false from All to
Interior or Boundary, between Interior and Boundary, and between sets of different kinds. -/
theorem initial_entitysets :
    SymbolTable.initial.entitysets
        = [⟨"InteriorCells()", InteriorCells, AllCells⟩,
           ⟨"BoundaryCells()", BoundaryCells, AllCells⟩,
           ⟨"AllCells()", AllCells, AllCells⟩,
           ⟨"InteriorFaces()", InteriorFaces, AllFaces⟩,
           ⟨"BoundaryFaces()", BoundaryFaces, AllFaces⟩,
           ⟨"AllFaces()", AllFaces, AllFaces⟩,
           ⟨"InteriorEdges()", InteriorEdges, AllEdges⟩,
           ⟨"BoundaryEdges()", BoundaryEdges, AllEdges⟩,
           ⟨"AllEdges()", AllEdges, AllEdges⟩,
           ⟨"InteriorVertices()", InteriorVertices, AllVertices⟩,
           ⟨"BoundaryVertices()", BoundaryVertices, AllVertices⟩,
           ⟨"AllVertices()", AllVertices, AllVertices⟩]
      ∧ ∀ fuel, 1 ≤ fuel →
        (∀ k ∈ [(InteriorCells, BoundaryCells, AllCells),
                (InteriorFaces, BoundaryFaces, AllFaces),
                (InteriorEdges, BoundaryEdges, AllEdges),
                (InteriorVertices, BoundaryVertices, AllVertices)],
            isSubset fuel SymbolTable.initial k.1 k.2.2 = some (true, [])
              ∧ isSubset fuel SymbolTable.initial k.2.1 k.2.2 = some (true, [])
              ∧ isSubset fuel SymbolTable.initial k.2.2 k.1 = some (false, [])
              ∧ isSubset fuel SymbolTable.initial k.2.2 k.2.1 = some (false, [])
              ∧ isSubset fuel SymbolTable.initial k.1 k.2.1 = some (false, [])
              ∧ isSubset fuel SymbolTable.initial k.2.1 k.1 = some (false, []))
          ∧ ∀ a ∈ SymbolTable.initial.entitysets, ∀ b ∈ SymbolTable.initial.entitysets,
              canonicalGridMappingEntity a.index ≠ canonicalGridMappingEntity b.index →
              isSubset fuel SymbolTable.initial a.index b.index = some (false, []) := by
  refine ⟨rfl, ?_⟩
  intro fuel hfuel
  have h1 : (∀ k ∈ [(InteriorCells, BoundaryCells, AllCells),
                (InteriorFaces, BoundaryFaces, AllFaces),
                (InteriorEdges, BoundaryEdges, AllEdges),
                (InteriorVertices, BoundaryVertices, AllVertices)],
            isSubset 1 SymbolTable.initial k.1 k.2.2 = some (true, [])
              ∧ isSubset 1 SymbolTable.initial k.2.1 k.2.2 = some (true, [])
              ∧ isSubset 1 SymbolTable.initial k.2.2 k.1 = some (false, [])
              ∧ isSubset 1 SymbolTable.initial k.2.2 k.2.1 = some (false, [])
              ∧ isSubset 1 SymbolTable.initial k.1 k.2.1 = some (false, [])
              ∧ isSubset 1 SymbolTable.initial k.2.1 k.1 = some (false, []))
          ∧ ∀ a ∈ SymbolTable.initial.entitysets, ∀ b ∈ SymbolTable.initial.entitysets,
              canonicalGridMappingEntity a.index ≠ canonicalGridMappingEntity b.index →
              isSubset 1 SymbolTable.initial a.index b.index = some (false, []) := by
    decide
  have mono : ∀ a b r, isSubset 1 SymbolTable.initial a b = some r →
      isSubset fuel SymbolTable.initial a b = some r :=
    fun a b r h => isSubsetImpl_mono _ b 1 a r h fuel hfuel
  refine ⟨fun k hk => ?_, fun a ha b hb hne => mono _ _ _ (h1.2 a ha b hb hne)⟩
  obtain ⟨p1, p2, p3, p4, p5, p6⟩ := h1.1 k hk
  exact ⟨mono _ _ _ p1, mono _ _ _ p2, mono _ _ _ p3, mono _ _ _ p4, mono _ _ _ p5,
    mono _ _ _ p6⟩

theorem initial_entitysets_witness :
    isSubset 1 SymbolTable.initial InteriorCells AllCells = some (true, [])
      ∧ isSubset 5 SymbolTable.initial AllFaces BoundaryFaces = some (false, []) :=
  ⟨((initial_entitysets.2 1 (by decide)).1 (InteriorCells, BoundaryCells, AllCells)
      (by decide)).1,
    ((initial_entitysets.2 5 (by decide)).1 (InteriorFaces, BoundaryFaces, AllFaces)
      (by decide)).2.2.2.1⟩

/-! ## Lemmas on the function table -/

theorem findFunction_eq_none_iff {fs : List Function} {name : String} :
    findFunction fs name = none ↔ name ∉ fs.map Function.name := by
  unfold findFunction
  rw [List.findIdx?_eq_none_iff]
  simp only [decide_eq_false_iff_not, List.mem_map, not_exists, not_and]

theorem findFunction_isSome_iff {fs : List Function} {name : String} :
    (∃ i, findFunction fs name = some i) ↔ name ∈ fs.map Function.name := by
  rw [← not_iff_not, ← findFunction_eq_none_iff]
  cases findFunction fs name <;> simp

theorem findFunction_some {fs : List Function} {name : String} {i : Nat}
    (h : findFunction fs name = some i) :
    ∃ f, fs[i]? = some f ∧ f.name = name
      ∧ ∀ j g, j < i → fs[j]? = some g → g.name ≠ name := by
  unfold findFunction at h
  obtain ⟨hi, hp, hfirst⟩ := List.findIdx?_eq_some_iff_getElem.1 h
  refine ⟨fs[i], List.getElem?_eq_getElem hi, by simpa using hp, ?_⟩
  intro j g hj hg
  have hjl : j < fs.length := Nat.lt_trans hj hi
  have := hfirst j hj
  rw [List.getElem?_eq_getElem hjl] at hg
  rw [← Option.some.inj hg]
  simpa using this

theorem findFunction_append_new {fs : List Function} {g : Function}
    (h : findFunction fs g.name = none) : findFunction (fs ++ [g]) g.name = some fs.length := by
  unfold findFunction at h ⊢
  rw [List.findIdx?_append, h]
  simp

theorem findFunction_append_old {fs : List Function} {name : String} {i : Nat}
    (h : findFunction fs name = some i) (l : List Function) :
    findFunction (fs ++ l) name = some i := by
  unfold findFunction at h ⊢
  rw [List.findIdx?_append, h]
  rfl

/-! ## The claims on the function table -/

/-- C23: `declareFunction(name, ftype, is_template)` reports "function already declared: name"
and throws the logic error "Function already declared." if and only if some function of the
global list has this name, whatever the current function; it then leaves the whole table,
function list and cursor included, unchanged; otherwise it returns without diagnostic. -/
theorem declareFunction_fails_iff (st : SymbolTable) (name : String) (ftype : FunctionType)
    (is_template : Bool) :
    (((declareFunction st name ftype is_template).result
          = Except.error (Fault.logic_error "Function already declared.")
        ∧ (declareFunction st name ftype is_template).diagnostics
          = ["function already declared: " ++ name])
        ↔ name ∈ st.functions.map Function.name)
      ∧ (name ∈ st.functions.map Function.name →
          (declareFunction st name ftype is_template).table = st)
      ∧ (name ∉ st.functions.map Function.name →
          (declareFunction st name ftype is_template).result = Except.ok ()
            ∧ (declareFunction st name ftype is_template).diagnostics = []) := by
  unfold declareFunction declareFunctionImpl
  cases h : findFunction st.functions name with
  | none =>
    have hn := findFunction_eq_none_iff.1 h
    simp [hn]
  | some i =>
    have hn := findFunction_isSome_iff.1 ⟨i, h⟩
    simp [hn]

theorem declareFunction_fails_iff_witness :
    (declareFunction SymbolTable.initial "Sqrt" FunctionType.default true).table
        = SymbolTable.initial
      ∧ (declareFunction SymbolTable.initial "Sqrt" FunctionType.default true).diagnostics
        = ["function already declared: Sqrt"]
      ∧ (declareFunction SymbolTable.initial "flux" FunctionType.default true).result
        = Except.ok () :=
  ⟨(declareFunction_fails_iff SymbolTable.initial "Sqrt" FunctionType.default true).2.1
      (by decide),
    ((declareFunction_fails_iff SymbolTable.initial "Sqrt" FunctionType.default true).1.2
      (by decide)).2,
    ((declareFunction_fails_iff SymbolTable.initial "flux" FunctionType.default true).2.2
      (by decide)).1⟩

/-- C24: when no function of the global list is called `name`,
`declareFunction(name, ftype, is_template)` appends to the list exactly the function with this
name, type `ftype`, no local variables, no instantiations, template flag `is_template` and the
current function as parent scope; the functions before it, the cursor and the rest of the
table are unchanged; afterwards `isFunctionDeclared(name)` is true and `getFunction(name)`
returns the new function without diagnostic. -/
theorem declareFunction_appends (st : SymbolTable) (name : String) (ftype : FunctionType)
    (is_template : Bool) (h : name ∉ st.functions.map Function.name) :
    (declareFunction st name ftype is_template).table
        = { st with
            functions := st.functions ++
              [{ name := name, type := ftype, local_variables := [],
                 parent_scope := some st.current_function, is_template := is_template,
                 instantiation_indices := [] }] }
      ∧ (∀ i, i < st.functions.length →
          (declareFunction st name ftype is_template).table.functions[i]? = st.functions[i]?)
      ∧ (declareFunction st name ftype is_template).table.functions.length
          = st.functions.length + 1
      ∧ (declareFunction st name ftype is_template).table.current_function
          = st.current_function
      ∧ (declareFunction st name ftype is_template).diagnostics = []
      ∧ (declareFunction st name ftype is_template).result = Except.ok ()
      ∧ isFunctionDeclared (declareFunction st name ftype is_template).table name = true
      ∧ getFunction (declareFunction st name ftype is_template).table name
          = ([], Except.ok
              { name := name, type := ftype, local_variables := [],
                parent_scope := some st.current_function, is_template := is_template,
                instantiation_indices := [] }) := by
  have hnone := findFunction_eq_none_iff.2 h
  have htable : (declareFunction st name ftype is_template).table
      = { st with functions := st.functions ++ [declaredFunction st name ftype is_template] } := by
    unfold declareFunction declareFunctionImpl
    rw [hnone]
  have hfind : findFunction (st.functions ++ [declaredFunction st name ftype is_template]) name
      = some st.functions.length :=
    findFunction_append_new (g := declaredFunction st name ftype is_template) hnone
  refine ⟨htable, ?_, ?_, ?_, ?_, ?_, ?_, ?_⟩
  · intro i hi
    rw [htable]
    exact List.getElem?_append_left hi
  · rw [htable]
    simp
  · rw [htable]
  · unfold declareFunction declareFunctionImpl
    rw [hnone]
  · unfold declareFunction declareFunctionImpl
    rw [hnone]
  · rw [htable]
    unfold isFunctionDeclared
    simp only [hfind, Option.isSome_some]
  · rw [htable]
    unfold getFunction
    simp only [hfind, List.getElem?_concat_length]
    rfl

theorem declareFunction_appends_witness :
    getFunction (declareFunction SymbolTable.initial "flux" FunctionType.default true).table
        "flux"
      = ([], Except.ok
          { name := "flux", type := FunctionType.default, local_variables := [],
            parent_scope := some 0, is_template := true, instantiation_indices := [] }) :=
  (declareFunction_appends SymbolTable.initial "flux" FunctionType.default true
    (by decide)).2.2.2.2.2.2.2

/-- C25: `setCurrentFunction(name)`: when no function is called `name` it reports
"internal compiler error: could not find function name" and leaves the table, cursor included,
unchanged; otherwise it reports nothing and afterwards the current function is the first
function of the list called `name`.  In both cases the function list is unchanged. -/
theorem setCurrentFunction_spec (st : SymbolTable) (name : String) :
    (name ∉ st.functions.map Function.name →
        (setCurrentFunction st name).table = st
          ∧ (setCurrentFunction st name).diagnostics
            = ["internal compiler error: could not find function " ++ name])
      ∧ (name ∈ st.functions.map Function.name →
        (setCurrentFunction st name).diagnostics = []
          ∧ findFunction st.functions name
            = some (setCurrentFunction st name).table.current_function
          ∧ ∃ f, getCurrentFunction (setCurrentFunction st name).table = Except.ok f
              ∧ f.name = name)
      ∧ (setCurrentFunction st name).table.functions = st.functions := by
  unfold setCurrentFunction
  cases h : findFunction st.functions name with
  | none =>
    have hn := findFunction_eq_none_iff.1 h
    simp [hn]
  | some i =>
    have hn := findFunction_isSome_iff.1 ⟨i, h⟩
    obtain ⟨f, hf, hname, _⟩ := findFunction_some h
    simp [hn, getCurrentFunction, hf, hname]

theorem setCurrentFunction_spec_witness :
    (setCurrentFunction SymbolTable.initial "nowhere").table = SymbolTable.initial
      ∧ ∃ f, getCurrentFunction (setCurrentFunction SymbolTable.initial "Sqrt").table
          = Except.ok f ∧ f.name = "Sqrt" :=
  ⟨((setCurrentFunction_spec SymbolTable.initial "nowhere").1 (by decide)).1,
    ((setCurrentFunction_spec SymbolTable.initial "Sqrt").2.1 (by decide)).2.2⟩

theorem read_after_set {fs : List Function} {func : FunctionRef} {named f g : Function}
    {it : Nat} (hread : func.read fs = Except.ok named) (hf : fs[it]? = some f)
    (hg : g.name = f.name) :
    ∃ copied, func.read (fs.set it g) = Except.ok copied ∧ copied.name = named.name
      ∧ (∀ o, func = FunctionRef.object o → copied = o)
      ∧ (func = FunctionRef.element it → copied = g)
      ∧ (∀ j, func = FunctionRef.element j → j ≠ it → copied = named) := by
  have hlt : it < fs.length := (List.getElem?_eq_some.1 hf).1
  cases func with
  | object o =>
    have hn : o = named := Except.ok.inj hread
    refine ⟨o, rfl, by rw [hn], ?_, ?_, ?_⟩
    · intro o2 h
      exact FunctionRef.object.inj h
    · intro h
      cases h
    · intro j h
      cases h
  | element p =>
    have hp : fs[p]? = some named := by
      unfold FunctionRef.read at hread
      cases hq : fs[p]? with
      | none => simp [hq] at hread
      | some q =>
        simp only [hq] at hread
        rw [Except.ok.inj hread]
    by_cases hpi : p = it
    · subst hpi
      rw [hf] at hp
      have hfn : f = named := Option.some.inj hp
      refine ⟨g, ?_, by rw [hg, hfn], ?_, fun _ => rfl, ?_⟩
      · unfold FunctionRef.read
        simp only [List.getElem?_set_self hlt]
      · intro o h
        cases h
      · intro j h hj
        exact absurd (FunctionRef.element.inj h).symm hj
    · refine ⟨named, ?_, rfl, ?_, ?_, fun _ _ _ => rfl⟩
      · unfold FunctionRef.read
        simp only [List.getElem?_set_ne (Ne.symm hpi), hp]
      · intro o h
        cases h
      · intro h
        exact absurd (FunctionRef.element.inj h) hpi

theorem addFunctionInstantiation_found {st : SymbolTable} {func : FunctionRef}
    {named F : Function} {i : Nat} (hread : func.read st.functions = Except.ok named)
    (hfind : findFunction st.functions named.name = some i) (hF : st.functions[i]? = some F) :
    ∃ copied,
      func.read (st.functions.set i
          (F.addInstantiation (st.function_instantiations.length : Int))) = Except.ok copied
        ∧ copied.name = named.name
        ∧ (∀ o, func = FunctionRef.object o → copied = o)
        ∧ (func = FunctionRef.element i
            → copied = F.addInstantiation (st.function_instantiations.length : Int))
        ∧ (∀ j, func = FunctionRef.element j → j ≠ i → copied = named)
        ∧ addFunctionInstantiation st func
          = { table :=
                { st with
                  functions := st.functions.set i
                    (F.addInstantiation (st.function_instantiations.length : Int)),
                  function_instantiations := st.function_instantiations ++ [copied] },
              diagnostics := [],
              result := Except.ok (st.function_instantiations.length : Int) } := by
  obtain ⟨copied, h1, h2, h3, h4, h5⟩ :=
    read_after_set (g := F.addInstantiation (st.function_instantiations.length : Int))
      hread hF rfl
  refine ⟨copied, h1, h2, h3, h4, h5, ?_⟩
  unfold addFunctionInstantiation
  simp only [hread, hfind, hF, h1]

theorem addFunctionInstantiation_ok {st : SymbolTable} {func : FunctionRef} {n : Int}
    (h : (addFunctionInstantiation st func).result = Except.ok n) :
    n = (st.function_instantiations.length : Int)
      ∧ ∃ copied, (addFunctionInstantiation st func).table.function_instantiations
            = st.function_instantiations ++ [copied]
          ∧ func.read (addFunctionInstantiation st func).table.functions = Except.ok copied
          ∧ (∀ o, func = FunctionRef.object o → copied = o) := by
  cases hread : func.read st.functions with
  | error fault =>
    unfold addFunctionInstantiation at h
    simp [hread] at h
  | ok named =>
    cases hf : findFunction st.functions named.name with
    | none =>
      unfold addFunctionInstantiation at h
      simp [hread, hf] at h
    | some k =>
      cases hF : st.functions[k]? with
      | none =>
        unfold addFunctionInstantiation at h
        simp [hread, hf, hF] at h
      | some F =>
        obtain ⟨copied, h1, _, h3, _, _, h6⟩ := addFunctionInstantiation_found hread hf hF
        rw [h6] at h ⊢
        exact ⟨(Except.ok.inj h).symm, copied, rfl, h1, h3⟩

/-- C26, the claim as stated fails: `getFunction("Sqrt")` refers to the function at position
29 of the global list, whose instantiations are empty; `addFunctionInstantiation` called with
that very function returns 0, and `getFunctionInstantiation(0)` is then a Function with the
instantiations `[0]`, not the Function as it was passed. -/
theorem instantiation_of_listed_function_differs :
    getFunction SymbolTable.initial "Sqrt"
        = ([], FunctionRef.read SymbolTable.initial.functions (FunctionRef.element 29))
      ∧ (FunctionRef.read SymbolTable.initial.functions (FunctionRef.element 29)).map
          Function.instantiations = Except.ok []
      ∧ (addFunctionInstantiation SymbolTable.initial (FunctionRef.element 29)).result
          = Except.ok 0
      ∧ (getFunctionInstantiation
            (addFunctionInstantiation SymbolTable.initial (FunctionRef.element 29)).table 0).map
          Function.instantiations = Except.ok [0]
      ∧ getFunctionInstantiation
            (addFunctionInstantiation SymbolTable.initial (FunctionRef.element 29)).table 0
          ≠ FunctionRef.read SymbolTable.initial.functions (FunctionRef.element 29) := by
  refine ⟨by decide, by decide, by decide, by decide, ?_⟩
  intro h
  have h1 : (getFunctionInstantiation
      (addFunctionInstantiation SymbolTable.initial (FunctionRef.element 29)).table 0).map
        Function.instantiations = Except.ok [0] := by decide
  have h2 : (FunctionRef.read SymbolTable.initial.functions (FunctionRef.element 29)).map
      Function.instantiations = Except.ok [] := by decide
  rw [h, h2] at h1
  cases h1

/-- C26, amended: for an argument `func` whose name is declared in the global function list,
`addFunctionInstantiation(func)` returns the size `n` that the instantiation store had, appends
`n` to the instantiation indices of the first function called `func.name()`, leaving every
other function and the rest of that function unchanged, and appends to the store one Function,
which `getFunctionInstantiation(n)` returns: the copy of `func` taken after that append.  It is
the Function passed when `func` is an object of its own; when `func` is the function of the
global list that got the index, it is that function with `n` appended; when it is another
function of the list, it is that function unchanged.  Nothing is reported. -/
theorem addFunctionInstantiation_spec (st : SymbolTable) (func : FunctionRef)
    (named : Function) (hread : func.read st.functions = Except.ok named)
    (h : named.name ∈ st.functions.map Function.name) :
    ∃ i F copied, findFunction st.functions named.name = some i ∧ st.functions[i]? = some F
      ∧ F.name = named.name
      ∧ (addFunctionInstantiation st func).result
          = Except.ok (st.function_instantiations.length : Int)
      ∧ (addFunctionInstantiation st func).diagnostics = []
      ∧ (addFunctionInstantiation st func).table.function_instantiations
          = st.function_instantiations ++ [copied]
      ∧ (addFunctionInstantiation st func).table.function_instantiations.length
          = st.function_instantiations.length + 1
      ∧ getFunctionInstantiation (addFunctionInstantiation st func).table
          (st.function_instantiations.length : Int) = Except.ok copied
      ∧ func.read (addFunctionInstantiation st func).table.functions = Except.ok copied
      ∧ (∀ o, func = FunctionRef.object o → copied = o)
      ∧ (func = FunctionRef.element i →
          copied = { F with
            instantiation_indices :=
              F.instantiations ++ [(st.function_instantiations.length : Int)] })
      ∧ (∀ j, func = FunctionRef.element j → j ≠ i → copied = named)
      ∧ (addFunctionInstantiation st func).table.functions
          = st.functions.set i
              { F with
                instantiation_indices :=
                  F.instantiations ++ [(st.function_instantiations.length : Int)] }
      ∧ (∀ j, j ≠ i →
          (addFunctionInstantiation st func).table.functions[j]? = st.functions[j]?) := by
  obtain ⟨i, hfind⟩ := findFunction_isSome_iff.2 h
  obtain ⟨F, hF, hname, _⟩ := findFunction_some hfind
  obtain ⟨copied, h1, _, h3, h4, h5, h6⟩ := addFunctionInstantiation_found hread hfind hF
  rw [h6]
  refine ⟨i, F, copied, hfind, hF, hname, rfl, rfl, rfl, by simp, ?_, h1, h3, h4, h5, rfl, ?_⟩
  · unfold getFunctionInstantiation
    rw [vectorAt_eq_ok]
    simp
  · intro j hj
    exact List.getElem?_set_ne (Ne.symm hj)

theorem addFunctionInstantiation_spec_witness :
    (addFunctionInstantiation SymbolTable.initial
        (FunctionRef.object { Function.new "Sqrt" with is_template := true })).result
        = Except.ok 0
      ∧ getFunctionInstantiation
          (addFunctionInstantiation SymbolTable.initial
            (FunctionRef.object { Function.new "Sqrt" with is_template := true })).table 0
        = Except.ok { Function.new "Sqrt" with is_template := true } := by
  obtain ⟨i, F, copied, _, _, _, h4, _, _, _, h8, _, h10, _⟩ :=
    addFunctionInstantiation_spec SymbolTable.initial
      (FunctionRef.object { Function.new "Sqrt" with is_template := true }) _ rfl (by decide)
  have hc := h10 _ rfl
  subst hc
  exact ⟨h4, h8⟩

theorem run_function_instantiations (fuel : Nat) (st st' : SymbolTable) (call : Call)
    (h : call.run fuel st = some st') :
    ∃ l, st'.function_instantiations = st.function_instantiations ++ l := by
  have scopes : ∀ r, withScopes st r = some st' →
      st'.function_instantiations = st.function_instantiations := by
    intro r hr
    unfold withScopes at hr
    split at hr
    · rw [← Option.some.inj hr]
    · cases hr
  cases call with
  | addFunctionInstantiation func =>
    simp only [Call.run] at h
    have htab : (addFunctionInstantiation st func).table = st' := by
      split at h
      · cases h
      · exact Option.some.inj h
    rw [← htab]
    cases hread : func.read st.functions with
    | error fault => exact ⟨[], by simp [addFunctionInstantiation, hread]⟩
    | ok named =>
      cases hf : findFunction st.functions named.name with
      | none => exact ⟨[], by simp [addFunctionInstantiation, hread, hf]⟩
      | some i =>
        cases hF : st.functions[i]? with
        | none => exact ⟨[], by simp [addFunctionInstantiation, hread, hf, hF]⟩
        | some F =>
          obtain ⟨copied, _, _, _, _, _, h6⟩ := addFunctionInstantiation_found hread hf hF
          rw [h6]
          exact ⟨[copied], rfl⟩
  | declareFunction name ftype is_template =>
    simp only [Call.run] at h
    rw [← Option.some.inj h]
    unfold declareFunction declareFunctionImpl
    cases findFunction st.functions name <;> exact ⟨[], by simp⟩
  | declareVariable name type => exact ⟨[], by simp [scopes _ h]⟩
  | setVariableAssigned name assigned => exact ⟨[], by simp [scopes _ h]⟩
  | setVariableType name type => exact ⟨[], by simp [scopes _ h]⟩
  | setVariableDimension name dimension => exact ⟨[], by simp [scopes _ h]⟩
  | setVariableDimensions name dimensions => exact ⟨[], by simp [scopes _ h]⟩
  | clearLocalVariablesOfCurrentFunction =>
    simp only [Call.run] at h
    unfold clearLocalVariablesOfCurrentFunction at h
    cases hc : st.functions[st.current_function]? with
    | none => simp [hc] at h
    | some f =>
      simp only [hc] at h
      rw [← Option.some.inj h]
      exact ⟨[], by simp⟩

theorem runCalls_function_instantiations (fuel : Nat) (calls : List Call) :
    ∀ st st', runCalls fuel st calls = some st' →
      ∃ l, st'.function_instantiations = st.function_instantiations ++ l := by
  induction calls with
  | nil =>
    intro st st' h
    rw [runCalls] at h
    rw [← Option.some.inj h]
    exact ⟨[], by simp⟩
  | cons call calls ih =>
    intro st st' h
    rw [runCalls] at h
    cases hc : call.run fuel st with
    | none => simp [hc] at h
    | some st1 =>
      simp only [hc] at h
      obtain ⟨l1, h1⟩ := run_function_instantiations fuel st st1 call hc
      obtain ⟨l2, h2⟩ := ih st1 st' h
      exact ⟨l1 ++ l2, by rw [h2, h1, List.append_assoc]⟩

/-- C27, the claim as stated fails: `addFunctionInstantiation` called with the function
`Sqrt` of the global list itself, whose instantiations are empty at the call, allocates the
index 0; after a later `declareFunction("flux")`, `getFunctionInstantiation(0)` is a Function
with the instantiations `[0]`, not the Function value passed when 0 was allocated. -/
theorem stored_instantiation_is_not_value_passed :
    (FunctionRef.read SymbolTable.initial.functions (FunctionRef.element 29)).map
        (fun f => (f.name, f.instantiations)) = Except.ok ("Sqrt", [])
      ∧ (addFunctionInstantiation SymbolTable.initial (FunctionRef.element 29)).result
          = Except.ok 0
      ∧ runCalls 0 (addFunctionInstantiation SymbolTable.initial (FunctionRef.element 29)).table
          [Call.declareFunction "flux" FunctionType.default true]
        = some (declareFunction
            (addFunctionInstantiation SymbolTable.initial (FunctionRef.element 29)).table
            "flux" FunctionType.default true).table
      ∧ (getFunctionInstantiation
            (declareFunction
              (addFunctionInstantiation SymbolTable.initial (FunctionRef.element 29)).table
              "flux" FunctionType.default true).table 0).map
          (fun f => (f.name, f.instantiations)) = Except.ok ("Sqrt", [0])
      ∧ getFunctionInstantiation
            (declareFunction
              (addFunctionInstantiation SymbolTable.initial (FunctionRef.element 29)).table
              "flux" FunctionType.default true).table 0
          ≠ FunctionRef.read SymbolTable.initial.functions (FunctionRef.element 29) := by
  refine ⟨by decide, by decide, rfl, by decide, ?_⟩
  intro h
  have h1 : (getFunctionInstantiation
      (declareFunction
        (addFunctionInstantiation SymbolTable.initial (FunctionRef.element 29)).table
        "flux" FunctionType.default true).table 0).map
          Function.instantiations = Except.ok [0] := by decide
  have h2 : (FunctionRef.read SymbolTable.initial.functions (FunctionRef.element 29)).map
      Function.instantiations = Except.ok [] := by decide
  rw [h, h2] at h1
  cases h1

/-- C27, amended: the instantiation store is append-only.  When `addFunctionInstantiation(func)`
returns the index `i`, `getFunctionInstantiation(i)` returns the Function stored at that
moment, the copy of `func` taken after the index was recorded, which is the Function passed
when `func` is an object of its own; after any later sequence of addFunctionInstantiation,
declareFunction, declareVariable, setVariableAssigned, setVariableType, setVariableDimension
and clearLocalVariablesOfCurrentFunction calls that ends with a defined table,
`getFunctionInstantiation(i)` still returns that stored Function, and every index that a
further `addFunctionInstantiation` returns is greater than `i`, hence distinct from it. -/
theorem instantiation_store_append_only (st : SymbolTable) (func : FunctionRef) (i : Int)
    (hadd : (addFunctionInstantiation st func).result = Except.ok i)
    (fuel : Nat) (calls : List Call) (st' : SymbolTable)
    (hrun : runCalls fuel (addFunctionInstantiation st func).table calls = some st') :
    ∃ copied,
      getFunctionInstantiation (addFunctionInstantiation st func).table i = Except.ok copied
        ∧ func.read (addFunctionInstantiation st func).table.functions = Except.ok copied
        ∧ (∀ o, func = FunctionRef.object o → copied = o)
        ∧ getFunctionInstantiation st' i = Except.ok copied
        ∧ ∀ func2 j, (addFunctionInstantiation st' func2).result = Except.ok j → i < j := by
  obtain ⟨hi, copied, hstore, hcopy, hobj⟩ := addFunctionInstantiation_ok hadd
  obtain ⟨l, hl⟩ := runCalls_function_instantiations fuel calls _ st' hrun
  rw [hstore] at hl
  refine ⟨copied, ?_, hcopy, hobj, ?_, ?_⟩
  · unfold getFunctionInstantiation
    rw [vectorAt_eq_ok, hstore, hi]
    simp
  · unfold getFunctionInstantiation
    rw [vectorAt_eq_ok, hl, hi, List.append_assoc]
    refine ⟨by omega, ?_⟩
    rw [Int.toNat_ofNat, List.getElem?_append_right (le_refl _), Nat.sub_self]
    simp
  · intro func2 j hj
    obtain ⟨hj', _⟩ := addFunctionInstantiation_ok hj
    rw [hj', hi, hl]
    simp only [List.length_append, List.length_singleton, Nat.cast_add, Nat.cast_one]
    omega

theorem instantiation_store_append_only_witness :
    getFunctionInstantiation
        (declareFunction (addFunctionInstantiation SymbolTable.initial
          (FunctionRef.object (Function.new "Sqrt"))).table "flux" FunctionType.default
          true).table 0
      = Except.ok (Function.new "Sqrt") := by
  obtain ⟨copied, _, _, h3, h4, _⟩ :=
    instantiation_store_append_only SymbolTable.initial
      (FunctionRef.object (Function.new "Sqrt")) 0 (by decide) 0
      [Call.declareFunction "flux" FunctionType.default true] _ rfl
  have hc := h3 _ rfl
  subst hc
  exact h4

/-! ## Lemmas on the setters -/

theorem perm_cons_eraseLocal {l : List Variable} {name : String} {v : Variable}
    (h : findLocal l name = some v) : l.Perm (v :: eraseLocal l name) := by
  induction l with
  | nil => simp [findLocal] at h
  | cons b l ih =>
    unfold findLocal at h ih
    unfold eraseLocal at ih ⊢
    rw [List.find?_cons] at h
    by_cases hb : b.name = name
    · simp only [hb, decide_True] at h
      rw [← Option.some.inj h, List.eraseP_cons_of_pos (by simpa using hb)]
    · simp only [hb, decide_False] at h
      rw [List.eraseP_cons_of_neg (by simpa using hb)]
      exact (List.Perm.cons b (ih h)).trans (List.Perm.swap v b _)

theorem findLocal_eraseLocal {l : List Variable} {name : String}
    (hd : (l.map Variable.name).Nodup) : findLocal (eraseLocal l name) name = none := by
  induction l with
  | nil => rfl
  | cons b l ih =>
    rw [List.map_cons, List.nodup_cons] at hd
    unfold findLocal at ih ⊢
    unfold eraseLocal at ih ⊢
    by_cases hb : b.name = name
    · rw [List.eraseP_cons_of_pos (by simpa using hb)]
      rw [hb] at hd
      exact find_name_eq_none.2 hd.1
    · rw [List.eraseP_cons_of_neg (by simpa using hb), List.find?_cons]
      simp only [hb, decide_False]
      exact ih hd.2

theorem replaceLocal_spec {l : List Variable} {name : String} {v : Variable} (w : Variable)
    (hw : w.name = name) (h : findLocal l name = some v)
    (hd : (l.map Variable.name).Nodup) :
    (insertLocal (eraseLocal l name) w).Perm (w :: eraseLocal l name)
      ∧ l.Perm (v :: eraseLocal l name)
      ∧ findLocal (insertLocal (eraseLocal l name) w) name = some w
      ∧ ((insertLocal (eraseLocal l name) w).map Variable.name).Perm (l.map Variable.name) := by
  have hnone : findLocal (eraseLocal l name) w.name = none := by
    rw [hw]
    exact findLocal_eraseLocal hd
  have h1 := insertLocal_perm _ w hnone
  have h2 := perm_cons_eraseLocal h
  have hv : v.name = name := (find_name_some h).2
  refine ⟨h1, h2, ?_, ?_⟩
  · have := findLocal_insertLocal _ w hnone
    rwa [hw] at this
  · have e1 := h1.map Variable.name
    have e2 := h2.map Variable.name
    rw [List.map_cons, hw] at e1
    rw [List.map_cons, hv] at e2
    exact e1.trans e2.symm

theorem noLocalBelow_head {fs : List Function} {k g : Nat} {name : String}
    (h : NoLocalBelow fs (k + 1) g name) :
    ∃ G, fs[g]? = some G ∧ findLocal G.local_variables name = none :=
  h 0 (by omega) g rfl

theorem noLocalBelow_parent {fs : List Function} {k g p : Nat} {G : Function}
    {name : String} (hG : fs[g]? = some G) (hp : G.parent_scope = some p)
    (h : NoLocalBelow fs (k + 1) g name) : NoLocalBelow fs k p name := by
  intro j hj s hs
  exact h (j + 1) (by omega) s (by rw [ancestor_succ hG hp]; exact hs)

theorem setVariableWith_delegates (u : Variable → Variable) (m : String) (fs : List Function)
    (name : String) (k : Nat) :
    ∀ g s fuel, ancestor fs k g = some s → NoLocalBelow fs k g name →
      setVariableWith u m fs (k + fuel) g name = setVariableWith u m fs fuel s name := by
  induction k with
  | zero =>
    intro g s fuel ha _
    rw [Option.some.inj ha, Nat.zero_add]
  | succ k ih =>
    intro g s fuel ha hu
    obtain ⟨G, hG, hn⟩ := noLocalBelow_head hu
    obtain ⟨p, hp, hap⟩ := ancestor_succ_some hG ha
    rw [show k + 1 + fuel = (k + fuel) + 1 by omega, setVariableWith]
    simp only [hG, hn, hp]
    exact ih p s fuel hap (noLocalBelow_parent hG hp hu)

theorem setVariableWith_found (u : Variable → Variable) (m : String) {fs : List Function}
    {s : Nat} {S : Function} {name : String} {v : Variable} (hS : fs[s]? = some S)
    (hv : findLocal S.local_variables name = some v) (fuel : Nat) :
    setVariableWith u m fs fuel s name
      = some (Except.ok
          (fs.set s
            { S with
              local_variables := insertLocal (eraseLocal S.local_variables name) (u v) },
            [])) := by
  cases fuel <;>
    · unfold setVariableWith
      simp only [hS, hv]

theorem setVariableWith_root (u : Variable → Variable) (m : String) {fs : List Function}
    {r : Nat} {R : Function} {name : String} (hR : fs[r]? = some R)
    (hv : findLocal R.local_variables name = none) (hp : R.parent_scope = none) (fuel : Nat) :
    setVariableWith u m fs fuel r name = some (Except.ok (fs, [m])) := by
  cases fuel <;>
    · unfold setVariableWith
      simp only [hR, hv, hp]

theorem setVariableAssigned_eq (fs : List Function) (name : String) (b : Bool) (fuel : Nat) :
    ∀ g, setVariableAssigned fs fuel g name b
      = setVariableWith (fun v => v.setAssigned b)
          "internal compiler error in Function::setVariableAssigned()" fs fuel g name := by
  induction fuel with
  | zero => intro g; unfold setVariableAssigned setVariableWith; rfl
  | succ fuel ih =>
    intro g
    unfold setVariableAssigned setVariableWith
    cases fs[g]? with
    | none => rfl
    | some f =>
      dsimp only
      cases findLocal f.local_variables name with
      | some lit => rfl
      | none =>
        dsimp only
        cases f.parent_scope with
        | none => rfl
        | some p => exact ih p

theorem setVariableType_eq (fs : List Function) (name : String) (T : EquelleType) (fuel : Nat) :
    ∀ g, setVariableType fs fuel g name T
      = setVariableWith (fun v => v.setType T)
          "internal compiler error in Function::setVariableType()" fs fuel g name := by
  induction fuel with
  | zero => intro g; unfold setVariableType setVariableWith; rfl
  | succ fuel ih =>
    intro g
    unfold setVariableType setVariableWith
    cases fs[g]? with
    | none => rfl
    | some f =>
      dsimp only
      cases findLocal f.local_variables name with
      | some lit => rfl
      | none =>
        dsimp only
        cases f.parent_scope with
        | none => rfl
        | some p => exact ih p

theorem setVariableDimension_eq (fs : List Function) (name : String) (D : Dimension)
    (fuel : Nat) :
    ∀ g, setVariableDimension fs fuel g name D
      = setVariableWith (fun v => v.setDimension D)
          "internal compiler error in Function::setVariableDimension()" fs fuel g name := by
  induction fuel with
  | zero => intro g; unfold setVariableDimension setVariableWith; rfl
  | succ fuel ih =>
    intro g
    unfold setVariableDimension setVariableWith
    cases fs[g]? with
    | none => rfl
    | some f =>
      dsimp only
      cases findLocal f.local_variables name with
      | some lit => rfl
      | none =>
        dsimp only
        cases f.parent_scope with
        | none => rfl
        | some p => exact ih p

theorem setVariableDimensions_eq (fs : List Function) (name : String) (Ds : List Dimension)
    (fuel : Nat) :
    ∀ g, setVariableDimensions fs fuel g name Ds
      = setVariableWith (fun v => v.setDimensions Ds)
          "internal compiler error in Function::setVariableDimension()" fs fuel g name := by
  induction fuel with
  | zero => intro g; unfold setVariableDimensions setVariableWith; rfl
  | succ fuel ih =>
    intro g
    unfold setVariableDimensions setVariableWith
    cases fs[g]? with
    | none => rfl
    | some f =>
      dsimp only
      cases findLocal f.local_variables name with
      | some lit => rfl
      | none =>
        dsimp only
        cases f.parent_scope with
        | none => rfl
        | some p => exact ih p

theorem ancestor_set {fs : List Function} {s : Nat} {S S2 : Function} (hS : fs[s]? = some S)
    (hp : S2.parent_scope = S.parent_scope) (k : Nat) :
    ∀ g, ancestor (fs.set s S2) k g = ancestor fs k g := by
  have hlt : s < fs.length := (List.getElem?_eq_some.1 hS).1
  induction k with
  | zero => intro g; rfl
  | succ k ih =>
    intro g
    rw [ancestor, ancestor]
    by_cases hg : s = g
    · subst hg
      rw [List.getElem?_set_self hlt, hS]
      simp only [hp]
      cases S.parent_scope with
      | none => rfl
      | some p => exact ih p
    · rw [List.getElem?_set_ne hg]
      cases fs[g]? with
      | none => rfl
      | some G =>
        dsimp only
        cases G.parent_scope with
        | none => rfl
        | some p => exact ih p

theorem hasName_of_findLocal {S : Function} {name : String} {v : Variable}
    (hv : findLocal S.local_variables name = some v) : S.hasName name :=
  Or.inl (find_name_isSome.1 (by unfold findLocal at hv; rw [hv]; rfl))

theorem undeclaredBelow_set {fs : List Function} {s : Nat} {S S2 : Function} {name : String}
    {v : Variable} (hS : fs[s]? = some S) (hp : S2.parent_scope = S.parent_scope)
    (hv : findLocal S.local_variables name = some v) {k g : Nat}
    (hu : UndeclaredBelow fs k g name) : UndeclaredBelow (fs.set s S2) k g name := by
  intro j hj t ht
  rw [ancestor_set hS hp] at ht
  obtain ⟨T, hT, hn⟩ := hu j hj t ht
  have hne : s ≠ t := by
    intro h
    subst h
    rw [hS] at hT
    exact hn (Option.some.inj hT ▸ hasName_of_findLocal hv)
  exact ⟨T, by rw [List.getElem?_set_ne hne]; exact hT, hn⟩

theorem noLocalBelow_of_undeclaredBelow {fs : List Function} {k g : Nat} {name : String}
    (hu : UndeclaredBelow fs k g name) : NoLocalBelow fs k g name := by
  intro j hj t ht
  obtain ⟨T, hT, hn⟩ := hu j hj t ht
  exact ⟨T, hT, findLocal_none_of_not_hasName hn⟩

/-- The effect of a setter that finds its local `k` scopes up the parent chain. -/
theorem setVariableWith_replaces (u : Variable → Variable) (m : String) {fs : List Function}
    {k g s : Nat} {S : Function} {name : String} {v : Variable}
    (hu : ∀ x, (u x).name = x.name)
    (ha : ancestor fs k g = some s) (hn : NoLocalBelow fs k g name) (hS : fs[s]? = some S)
    (hv : findLocal S.local_variables name = some v)
    (hd : (S.local_variables.map Variable.name).Nodup) {fuel : Nat} (hk : k ≤ fuel) :
    setVariableWith u m fs fuel g name
        = some (Except.ok
            (fs.set s
              { S with
                local_variables := insertLocal (eraseLocal S.local_variables name) (u v) },
              []))
      ∧ ReplacesLocal fs
          (fs.set s
            { S with
              local_variables := insertLocal (eraseLocal S.local_variables name) (u v) })
          s name v (u v) := by
  have hlt : s < fs.length := (List.getElem?_eq_some.1 hS).1
  have hw : (u v).name = name := (hu v).trans (find_name_some hv).2
  obtain ⟨h1, h2, h3, h4⟩ := replaceLocal_spec (u v) hw hv hd
  refine ⟨?_, List.length_set _ _ _, fun i hi => List.getElem?_set_ne (Ne.symm hi), S, _, hS,
    List.getElem?_set_self hlt, rfl, rfl, rfl, rfl, rfl, hv, h3, ⟨_, h2, h1⟩, h4⟩
  obtain ⟨d, rfl⟩ := Nat.exists_eq_add_of_le hk
  rw [setVariableWith_delegates u m fs name k g s d ha hn]
  exact setVariableWith_found u m hS hv d

/-- The effect of a setter when no scope on the parent chain has the local. -/
theorem setVariableWith_reports (u : Variable → Variable) (m : String) {fs : List Function}
    {k g : Nat} {name : String} (h : NoLocalOnChain fs k g name) {fuel : Nat} (hk : k ≤ fuel) :
    setVariableWith u m fs fuel g name = some (Except.ok (fs, [m])) := by
  obtain ⟨hb, r, R, har, hR, hp⟩ := h
  obtain ⟨d, rfl⟩ := Nat.exists_eq_add_of_le hk
  have hb' : NoLocalBelow fs k g name := fun j hj => hb j (by omega)
  rw [setVariableWith_delegates u m fs name k g r d har hb']
  obtain ⟨R', hR', hnone⟩ := hb k (by omega) r har
  rw [hR] at hR'
  rw [← Option.some.inj hR'] at hnone
  exact setVariableWith_root u m hR hnone hp d

theorem queries_at_local {fs : List Function} {s : Nat} {S : Function} (hS : fs[s]? = some S)
    {name : String} {w : Variable} (hw : findLocal S.local_variables name = some w)
    (fuel : Nat) :
    variableType fs fuel s name = some (Except.ok (w.type, []))
      ∧ isVariableAssigned fs fuel s name = some (Except.ok (w.assigned, []))
      ∧ variableDimension fs fuel s name = some (w.getDimension.map (fun d => (d, [])))
      ∧ isVariableDeclared fs fuel s name = some (Except.ok (true, [])) := by
  have hd : S.declared name = (true, w.type) := by
    unfold Function.declared
    rw [hw]
  refine ⟨?_, ?_, ?_, ?_⟩
  · cases fuel <;>
      · unfold variableType
        simp only [hS, hd, Bool.not_true, Bool.false_eq_true, if_false]
  · cases fuel <;>
      · unfold isVariableAssigned
        simp only [hS, hw]
  · cases fuel <;>
      · unfold variableDimension
        simp only [hS, hw]
  · cases fuel <;>
      · unfold isVariableDeclared
        simp only [hS, hd, if_true]

/-- The scopes after a setter that finds its local at the nearest declaration of the name:
the same chain leads to the replaced local. -/
theorem setVariableWith_then (u : Variable → Variable) (m : String) {fs : List Function}
    {k g s : Nat} {S : Function} {name : String} {v : Variable}
    (hu : ∀ x, (u x).name = x.name)
    (ha : ancestor fs k g = some s) (hn : UndeclaredBelow fs k g name) (hS : fs[s]? = some S)
    (hv : findLocal S.local_variables name = some v)
    (hd : (S.local_variables.map Variable.name).Nodup) {fuel : Nat} (hk : k ≤ fuel) :
    ∃ fs2 S2, setVariableWith u m fs fuel g name = some (Except.ok (fs2, []))
      ∧ ancestor fs2 k g = some s ∧ UndeclaredBelow fs2 k g name
      ∧ fs2[s]? = some S2 ∧ findLocal S2.local_variables name = some (u v) := by
  obtain ⟨h1, -, -, S0, S2, hS0, hS2, -, -, hp, -, -, -, hw, -, -⟩ :=
    setVariableWith_replaces u m hu ha (noLocalBelow_of_undeclaredBelow hn) hS hv hd hk
  rw [hS] at hS0
  have hp' : S2.parent_scope = S.parent_scope := by rw [hp, ← Option.some.inj hS0]
  have h2 := List.getElem?_set_self (a := S2) (List.getElem?_eq_some.1 hS).1
  have hset : fs.set s
      { S with local_variables := insertLocal (eraseLocal S.local_variables name) (u v) }
        = fs.set s S2 := by
    have hlt : s < fs.length := (List.getElem?_eq_some.1 hS).1
    rw [List.getElem?_set_self hlt] at hS2
    rw [Option.some.inj hS2]
  rw [hset] at h1
  refine ⟨fs.set s S2, S2, h1, ?_, undeclaredBelow_set hS hp' hv hn, h2, hw⟩
  rw [ancestor_set hS hp']
  exact ha

/-! ## The claims on the setters -/

/-- C22: a call of `setVariableAssigned`, `setVariableType` or `setVariableDimension` (either
overload) for `name` on the scope `g`, with fuel for the `k` delegations it makes, changes at
most one variable.  When `s` is the nearest scope on the parent chain of `g` whose locals
contain `name`, as `v`, the call reports nothing and the scopes afterwards differ from those
before in that local of `s` alone, which has become `v` with the targeted field replaced:
every other scope, the other locals of `s`, its local names, its type with the argument list,
its parent and its instantiations are kept.  When no scope on the chain up to the root has such
a local, the call reports its internal compiler error and the scopes are unchanged. -/
theorem setters_change_one_local (fs : List Function) (g k : Nat) (name : String) (fuel : Nat)
    (hk : k ≤ fuel) :
    (∀ s S v, ancestor fs k g = some s → NoLocalBelow fs k g name → fs[s]? = some S →
        findLocal S.local_variables name = some v →
        (S.local_variables.map Variable.name).Nodup →
        (∀ b, ∃ fs2, setVariableAssigned fs fuel g name b = some (Except.ok (fs2, []))
            ∧ ReplacesLocal fs fs2 s name v { v with assigned := b })
          ∧ (∀ T, ∃ fs2, setVariableType fs fuel g name T = some (Except.ok (fs2, []))
            ∧ ReplacesLocal fs fs2 s name v { v with type := T })
          ∧ (∀ D, ∃ fs2, setVariableDimension fs fuel g name D = some (Except.ok (fs2, []))
            ∧ ReplacesLocal fs fs2 s name v { v with dimension := [D] })
          ∧ (∀ Ds, ∃ fs2, setVariableDimensions fs fuel g name Ds = some (Except.ok (fs2, []))
            ∧ ReplacesLocal fs fs2 s name v { v with dimension := Ds }))
      ∧ (NoLocalOnChain fs k g name →
        (∀ b, setVariableAssigned fs fuel g name b
            = some (Except.ok (fs, ["internal compiler error in Function::setVariableAssigned()"])))
          ∧ (∀ T, setVariableType fs fuel g name T
            = some (Except.ok (fs, ["internal compiler error in Function::setVariableType()"])))
          ∧ (∀ D, setVariableDimension fs fuel g name D
            = some (Except.ok
                (fs, ["internal compiler error in Function::setVariableDimension()"])))
          ∧ (∀ Ds, setVariableDimensions fs fuel g name Ds
            = some (Except.ok
                (fs, ["internal compiler error in Function::setVariableDimension()"])))) := by
  constructor
  · intro s S v ha hn hS hv hd
    refine ⟨fun b => ?_, fun T => ?_, fun D => ?_, fun Ds => ?_⟩
    · rw [setVariableAssigned_eq]
      exact ⟨_, setVariableWith_replaces (fun v => v.setAssigned b) _ (fun _ => rfl) ha hn hS hv hd hk⟩
    · rw [setVariableType_eq]
      exact ⟨_, setVariableWith_replaces (fun v => v.setType T) _ (fun _ => rfl) ha hn hS hv hd hk⟩
    · rw [setVariableDimension_eq]
      exact ⟨_, setVariableWith_replaces (fun v => v.setDimension D) _ (fun _ => rfl) ha hn hS hv hd hk⟩
    · rw [setVariableDimensions_eq]
      exact ⟨_, setVariableWith_replaces (fun v => v.setDimensions Ds) _ (fun _ => rfl) ha hn hS hv hd hk⟩
  · intro h
    refine ⟨fun b => ?_, fun T => ?_, fun D => ?_, fun Ds => ?_⟩
    · rw [setVariableAssigned_eq]
      exact setVariableWith_reports _ _ h hk
    · rw [setVariableType_eq]
      exact setVariableWith_reports _ _ h hk
    · rw [setVariableDimension_eq]
      exact setVariableWith_reports _ _ h hk
    · rw [setVariableDimensions_eq]
      exact setVariableWith_reports _ _ h hk

theorem noLocalBelow_sample : NoLocalBelow sampleLocals 1 2 "u" := by
  intro j hj s hs
  match j, hj, hs with
  | 0, _, hs => exact ⟨_, by rw [← Option.some.inj hs]; rfl, by decide⟩

theorem noLocalOnChain_sample : NoLocalOnChain sampleLocals 2 2 "y" := by
  refine ⟨?_, 0, _, rfl, rfl, rfl⟩
  intro j hj s hs
  match j, hj, hs with
  | 0, _, hs => exact ⟨_, by rw [← Option.some.inj hs]; rfl, by decide⟩
  | 1, _, hs => exact ⟨_, by rw [← Option.some.inj hs]; rfl, by decide⟩
  | 2, _, hs => exact ⟨_, by rw [← Option.some.inj hs]; rfl, by decide⟩

theorem setters_change_one_local_witness :
    (∃ fs2,
        setVariableType sampleLocals 1 2 "u" { basicType := BasicType.Vector }
          = some (Except.ok (fs2, []))
        ∧ ReplacesLocal sampleLocals fs2 1 "u"
            (Variable.new "u" { basicType := BasicType.Scalar })
            (Variable.new "u" { basicType := BasicType.Vector }))
      ∧ setVariableType sampleLocals 2 2 "y" { basicType := BasicType.Vector }
        = some (Except.ok
            (sampleLocals, ["internal compiler error in Function::setVariableType()"])) :=
  ⟨((setters_change_one_local sampleLocals 2 1 "u" 1 (by decide)).1 1 _
      (Variable.new "u" { basicType := BasicType.Scalar }) rfl noLocalBelow_sample rfl
      (by decide) (by decide)).2.1 { basicType := BasicType.Vector },
    ((setters_change_one_local sampleLocals 2 2 "y" 2 (by decide)).2
      noLocalOnChain_sample).2.1 { basicType := BasicType.Vector }⟩

/-- C21, the claim as stated fails: `x` is visible from the scope `f(x : Scalar)`, being its
argument, yet `setVariableType("x", Vector)` issued from that scope searches local variables
only, reports an internal compiler error, leaves the scopes as they were, and `variableType`
still returns `Scalar`. -/
theorem setVariableType_ignores_arguments :
    isVariableDeclared sampleScopes 1 1 "x" = some (Except.ok (true, []))
      ∧ setVariableType sampleScopes 1 1 "x" { basicType := BasicType.Vector }
        = some (Except.ok
            (sampleScopes, ["internal compiler error in Function::setVariableType()"]))
      ∧ variableType sampleScopes 1 1 "x"
        = some (Except.ok ({ basicType := BasicType.Scalar }, [])) := by
  refine ⟨?_, ?_, ?_⟩ <;> rfl

/-- C21, amended: let the nearest declaration of `name` on the parent chain of the scope `F`
be a local variable, `k` scopes up (no scope below has `name` as a local or as an argument);
so `name` is visible from `F`.  Then, with fuel for the `k` delegations,
`setVariableType(name, T)` issued from `F` reports nothing and `variableType(name)` queried
from `F` afterwards returns `T`; likewise `setVariableAssigned(name, b)` is followed by
`isVariableAssigned(name) = b`, and `setVariableDimension(name, D)` by
`variableDimension(name) = D`. -/
theorem set_then_get (fs : List Function) (F k s : Nat) (S : Function) (name : String)
    (v : Variable) (ha : ancestor fs k F = some s) (hu : UndeclaredBelow fs k F name)
    (hS : fs[s]? = some S) (hv : findLocal S.local_variables name = some v)
    (hd : (S.local_variables.map Variable.name).Nodup) (fuel : Nat) (hk : k ≤ fuel) :
    isVariableDeclared fs fuel F name = some (Except.ok (true, []))
      ∧ (∀ T, ∃ fs2, setVariableType fs fuel F name T = some (Except.ok (fs2, []))
          ∧ variableType fs2 fuel F name = some (Except.ok (T, [])))
      ∧ (∀ b, ∃ fs2, setVariableAssigned fs fuel F name b = some (Except.ok (fs2, []))
          ∧ isVariableAssigned fs2 fuel F name = some (Except.ok (b, [])))
      ∧ (∀ D, ∃ fs2, setVariableDimension fs fuel F name D = some (Except.ok (fs2, []))
          ∧ variableDimension fs2 fuel F name = some (Except.ok (D, []))) := by
  obtain ⟨d, hfuel⟩ := Nat.exists_eq_add_of_le hk
  refine ⟨?_, fun T => ?_, fun b => ?_, fun D => ?_⟩
  · rw [hfuel, isVariableDeclared_delegates fs name k F s d ha hu]
    exact (queries_at_local hS hv d).2.2.2
  · obtain ⟨fs2, S2, h1, ha2, hu2, hS2, hw⟩ :=
      setVariableWith_then (fun v => v.setType T)
        "internal compiler error in Function::setVariableType()" (fun _ => rfl)
        ha hu hS hv hd hk
    refine ⟨fs2, by rw [setVariableType_eq]; exact h1, ?_⟩
    rw [hfuel, variableType_delegates fs2 name k F s d ha2 hu2]
    exact (queries_at_local hS2 hw d).1
  · obtain ⟨fs2, S2, h1, ha2, hu2, hS2, hw⟩ :=
      setVariableWith_then (fun v => v.setAssigned b)
        "internal compiler error in Function::setVariableAssigned()" (fun _ => rfl)
        ha hu hS hv hd hk
    refine ⟨fs2, by rw [setVariableAssigned_eq]; exact h1, ?_⟩
    rw [hfuel, isVariableAssigned_delegates fs2 name k F s d ha2 hu2]
    exact (queries_at_local hS2 hw d).2.1
  · obtain ⟨fs2, S2, h1, ha2, hu2, hS2, hw⟩ :=
      setVariableWith_then (fun v => v.setDimension D)
        "internal compiler error in Function::setVariableDimension()" (fun _ => rfl)
        ha hu hS hv hd hk
    refine ⟨fs2, by rw [setVariableDimension_eq]; exact h1, ?_⟩
    rw [hfuel, variableDimension_delegates fs2 name k F s d ha2 hu2]
    exact (queries_at_local hS2 hw d).2.2.1

theorem undeclaredBelow_sample : UndeclaredBelow sampleLocals 1 2 "u" := by
  intro j hj s hs
  match j, hj, hs with
  | 0, _, hs => exact ⟨_, by rw [← Option.some.inj hs]; rfl, by decide⟩

theorem set_then_get_witness :
    ∃ fs2,
      setVariableType sampleLocals 1 2 "u" { basicType := BasicType.Vector }
        = some (Except.ok (fs2, []))
      ∧ variableType fs2 1 2 "u" = some (Except.ok ({ basicType := BasicType.Vector }, [])) :=
  (set_then_get sampleLocals 2 1 1 _ "u" (Variable.new "u" { basicType := BasicType.Scalar })
    rfl undeclaredBelow_sample rfl (by decide) (by decide) 1 (by decide)).2.1
      { basicType := BasicType.Vector }

/-! ## Lemmas on diagnostics -/

theorem names_append (a x : String) : Names (a ++ x) x :=
  ⟨a.data, [], by simp [String.data_append]⟩

theorem variableType_undeclared {fs : List Function} {k g : Nat} {name : String}
    (h : UndeclaredOnChain fs k g name) {fuel : Nat} (hk : k ≤ fuel) :
    variableType fs fuel g name
      = some (Except.ok ({}, ["could not find variable " ++ name])) := by
  obtain ⟨hbelow, root, R, hanc, hR, hpar⟩ := h
  obtain ⟨R', hR', hn⟩ := hbelow k (by omega) root hanc
  rw [hR] at hR'
  cases hR'
  have hb : UndeclaredBelow fs k g name := fun j hj s hs => hbelow j (by omega) s hs
  obtain ⟨n, rfl⟩ := Nat.exists_eq_add_of_le hk
  rw [variableType_delegates _ name k g root n hanc hb]
  cases n <;>
    · unfold variableType
      simp only [hR, declared_fst_false hn, hpar, Bool.not_false, if_true]

theorem variableDimension_undeclared {fs : List Function} {k g : Nat} {name : String}
    (h : UndeclaredOnChain fs k g name) {fuel : Nat} (hk : k ≤ fuel) :
    variableDimension fs fuel g name
      = some (Except.ok (Dimension.dimensionless,
          ["internal compiler error in Function::variableDimension()"])) := by
  obtain ⟨hbelow, root, R, hanc, hR, hpar⟩ := h
  obtain ⟨R', hR', hn⟩ := hbelow k (by omega) root hanc
  rw [hR] at hR'
  cases hR'
  have hb : UndeclaredBelow fs k g name := fun j hj s hs => hbelow j (by omega) s hs
  obtain ⟨n, rfl⟩ := Nat.exists_eq_add_of_le hk
  rw [variableDimension_delegates _ name k g root n hanc hb]
  cases n <;>
    · unfold variableDimension
      simp only [hR, findLocal_none_of_not_hasName hn, findArg_none_of_not_hasName hn, hpar]

theorem isVariableAssigned_undeclared {fs : List Function} {k g : Nat} {name : String}
    (h : UndeclaredOnChain fs k g name) {fuel : Nat} (hk : k ≤ fuel) :
    isVariableAssigned fs fuel g name
      = some (Except.ok (false,
          ["internal compiler error in Function::isVariableAssigned()"])) := by
  obtain ⟨hbelow, root, R, hanc, hR, hpar⟩ := h
  obtain ⟨R', hR', hn⟩ := hbelow k (by omega) root hanc
  rw [hR] at hR'
  cases hR'
  have hb : UndeclaredBelow fs k g name := fun j hj s hs => hbelow j (by omega) s hs
  obtain ⟨n, rfl⟩ := Nat.exists_eq_add_of_le hk
  rw [isVariableAssigned_delegates _ name k g root n hanc hb]
  cases n <;>
    · unfold isVariableAssigned
      simp only [hR, findLocal_none_of_not_hasName hn, findArg_none_of_not_hasName hn, hpar]

theorem declareVariable_redeclared {fs : List Function} {self : Nat} {F : Function}
    (hF : fs[self]? = some F) {name : String} (h : F.hasName name) (type : EquelleType) :
    declareVariable fs self name type = Except.ok (fs, ["redeclared variable: " ++ name]) := by
  have hd := (declared_fst_iff F name).2 h
  have hset : fs.set self F = fs := by
    apply List.ext_getElem?
    intro i
    by_cases hi : self = i
    · subst hi
      rw [List.getElem?_set_self (List.getElem?_eq_some.1 hF).1, hF]
    · rw [List.getElem?_set_ne hi]
  unfold declareVariable
  simp only [hF, Function.declareVariable, hd, Bool.not_true, Bool.false_eq_true, if_false, hset]

theorem declareFunction_declared {st : SymbolTable} {name : String}
    (h : name ∈ st.functions.map Function.name) (ftype : FunctionType) (is_template : Bool) :
    declareFunction st name ftype is_template
      = { table := st, diagnostics := ["function already declared: " ++ name],
          result := Except.error (Fault.logic_error "Function already declared.") } := by
  obtain ⟨i, hi⟩ := findFunction_isSome_iff.2 h
  unfold declareFunction declareFunctionImpl
  rw [hi]

theorem getFunction_undeclared {st : SymbolTable} {name : String}
    (h : name ∉ st.functions.map Function.name) :
    getFunction st name
      = (["could not find function " ++ name],
          Except.error (Fault.logic_error "Function not found.")) := by
  unfold getFunction
  rw [findFunction_eq_none_iff.2 h]

/-! ## The claims on diagnostics -/

/-- C31, the claim as stated fails: `y` is declared nowhere on the parent chain of the sample
scope `g`, and the messages that `variableDimension("y")` and `isVariableAssigned("y")` emit
there do not contain `y`. -/
theorem internal_error_messages_omit_identifier :
    UndeclaredOnChain sampleScopes 2 2 "y"
      ∧ variableDimension sampleScopes 2 2 "y"
        = some (Except.ok (Dimension.dimensionless,
            ["internal compiler error in Function::variableDimension()"]))
      ∧ ¬ Names "internal compiler error in Function::variableDimension()" "y"
      ∧ isVariableAssigned sampleScopes 2 2 "y"
        = some (Except.ok (false,
            ["internal compiler error in Function::isVariableAssigned()"]))
      ∧ ¬ Names "internal compiler error in Function::isVariableAssigned()" "y" :=
  ⟨undeclaredOnChain_sample, by decide, by decide, by decide, by decide⟩

/-- C31, amended: for every identifier `x`, the one message that `declareVariable` emits on a
redeclared `x`, `variableType` on an undeclared `x`, `declareFunction` on an already declared
`x` and `getFunction` on an undeclared `x` ends with `x`, so contains it; `variableDimension`
and `isVariableAssigned` on an undeclared `x` emit a fixed internal-compiler-error message
that names the query. -/
theorem user_error_messages_name_identifier (x : String) :
    (∀ (fs : List Function) (self : Nat) (F : Function) (T : EquelleType),
        fs[self]? = some F → F.hasName x →
        ∃ fs2 m, declareVariable fs self x T = Except.ok (fs2, [m])
          ∧ m = "redeclared variable: " ++ x ∧ Names m x)
      ∧ (∀ (fs : List Function) (k g fuel : Nat), UndeclaredOnChain fs k g x → k ≤ fuel →
        (∃ T m, variableType fs fuel g x = some (Except.ok (T, [m]))
            ∧ m = "could not find variable " ++ x ∧ Names m x)
          ∧ variableDimension fs fuel g x
            = some (Except.ok (Dimension.dimensionless,
                ["internal compiler error in Function::variableDimension()"]))
          ∧ isVariableAssigned fs fuel g x
            = some (Except.ok (false,
                ["internal compiler error in Function::isVariableAssigned()"])))
      ∧ (∀ (st : SymbolTable) (ftype : FunctionType) (is_template : Bool),
        x ∈ st.functions.map Function.name →
        ∃ m, (declareFunction st x ftype is_template).diagnostics = [m]
          ∧ m = "function already declared: " ++ x ∧ Names m x)
      ∧ (∀ st : SymbolTable, x ∉ st.functions.map Function.name →
        ∃ m, (getFunction st x).1 = [m] ∧ m = "could not find function " ++ x
          ∧ Names m x) := by
  refine ⟨?_, ?_, ?_, ?_⟩
  · intro fs self F T hF h
    exact ⟨fs, _, declareVariable_redeclared hF h T, rfl, names_append _ x⟩
  · intro fs k g fuel h hk
    exact ⟨⟨_, _, variableType_undeclared h hk, rfl, names_append _ x⟩,
      variableDimension_undeclared h hk, isVariableAssigned_undeclared h hk⟩
  · intro st ftype is_template h
    rw [declareFunction_declared h]
    exact ⟨_, rfl, rfl, names_append _ x⟩
  · intro st h
    rw [getFunction_undeclared h]
    exact ⟨_, rfl, rfl, names_append _ x⟩

theorem user_error_messages_name_identifier_witness :
    (∃ fs2 m,
        declareVariable sampleScopes 1 "x" { basicType := BasicType.Vector }
          = Except.ok (fs2, [m])
        ∧ m = "redeclared variable: x" ∧ Names m "x")
      ∧ ∃ m, (getFunction SymbolTable.initial "flux").1 = [m]
          ∧ m = "could not find function flux" ∧ Names m "flux" :=
  ⟨(user_error_messages_name_identifier "x").1 sampleScopes 1 _
      { basicType := BasicType.Vector } rfl (by decide),
    (user_error_messages_name_identifier "flux").2.2.2 SymbolTable.initial (by decide)⟩

/-- C32, the claim as stated fails: `declareVariable("x", Vector)` on the sample scope
`f(x : Scalar)` reports the redeclaration and returns normally, leaving the scopes as they
were; `variableType("y")` queried from the sample scope `g`, where `y` is declared nowhere,
reports the undeclared variable and returns the default type. -/
theorem variable_errors_return_normally :
    declareVariable sampleScopes 1 "x" { basicType := BasicType.Vector }
        = Except.ok (sampleScopes, ["redeclared variable: x"])
      ∧ variableType sampleScopes 2 2 "y"
        = some (Except.ok ({}, ["could not find variable y"])) :=
  ⟨by decide, by decide⟩

/-- C32, amended: `declareFunction` of an already declared name and `getFunction` of an
undeclared name emit their diagnostic and then throw a logic error, so they never return
normally after reporting; `declareVariable` of a redeclared name and `variableType` of an
undeclared name emit their diagnostic and return normally, the former leaving the scopes
unchanged, the latter returning the default type. -/
theorem user_error_fatality (x : String) :
    (∀ (st : SymbolTable) (ftype : FunctionType) (is_template : Bool),
        x ∈ st.functions.map Function.name →
        (declareFunction st x ftype is_template).diagnostics
            = ["function already declared: " ++ x]
          ∧ (declareFunction st x ftype is_template).result
            = Except.error (Fault.logic_error "Function already declared."))
      ∧ (∀ st : SymbolTable, x ∉ st.functions.map Function.name →
        getFunction st x
          = (["could not find function " ++ x],
              Except.error (Fault.logic_error "Function not found.")))
      ∧ (∀ (fs : List Function) (self : Nat) (F : Function) (T : EquelleType),
        fs[self]? = some F → F.hasName x →
        declareVariable fs self x T = Except.ok (fs, ["redeclared variable: " ++ x]))
      ∧ (∀ (fs : List Function) (k g fuel : Nat), UndeclaredOnChain fs k g x → k ≤ fuel →
        variableType fs fuel g x
          = some (Except.ok ({}, ["could not find variable " ++ x]))) := by
  refine ⟨?_, ?_, ?_, ?_⟩
  · intro st ftype is_template h
    rw [declareFunction_declared h]
    exact ⟨rfl, rfl⟩
  · intro st h
    exact getFunction_undeclared h
  · intro fs self F T hF h
    exact declareVariable_redeclared hF h T
  · intro fs k g fuel h hk
    exact variableType_undeclared h hk

theorem user_error_fatality_witness :
    (declareFunction SymbolTable.initial "Sqrt" FunctionType.default false).result
        = Except.error (Fault.logic_error "Function already declared.")
      ∧ getFunction SymbolTable.initial "flux"
        = (["could not find function flux"],
            Except.error (Fault.logic_error "Function not found.")) :=
  ⟨((user_error_fatality "Sqrt").1 SymbolTable.initial FunctionType.default false
      (by decide)).2,
    (user_error_fatality "flux").2.1 SymbolTable.initial (by decide)⟩

/-- C39: when no function of the global list is called `func.name()`,
`addFunctionInstantiation(func)` reports "could not find function" with that name and throws
the logic error "Function not found." of `getMutableFunction`; the table is the one before
the call: the instantiation store and the instantiations of every function are unchanged. -/
theorem addFunctionInstantiation_unknown (st : SymbolTable) (func : FunctionRef)
    (named : Function) (hread : func.read st.functions = Except.ok named)
    (h : named.name ∉ st.functions.map Function.name) :
    (addFunctionInstantiation st func).result
        = Except.error (Fault.logic_error "Function not found.")
      ∧ (addFunctionInstantiation st func).diagnostics
        = ["could not find function " ++ named.name]
      ∧ (addFunctionInstantiation st func).table = st
      ∧ (addFunctionInstantiation st func).table.function_instantiations
        = st.function_instantiations
      ∧ (addFunctionInstantiation st func).table.functions.map Function.instantiations
        = st.functions.map Function.instantiations := by
  unfold addFunctionInstantiation
  simp only [hread, findFunction_eq_none_iff.2 h, and_self]

theorem addFunctionInstantiation_unknown_witness :
    (addFunctionInstantiation SymbolTable.initial
        (FunctionRef.object (Function.new "flux"))).result
        = Except.error (Fault.logic_error "Function not found.")
      ∧ (addFunctionInstantiation SymbolTable.initial
          (FunctionRef.object (Function.new "flux"))).table
        = SymbolTable.initial :=
  ⟨(addFunctionInstantiation_unknown SymbolTable.initial
      (FunctionRef.object (Function.new "flux")) _ rfl (by decide)).1,
    (addFunctionInstantiation_unknown SymbolTable.initial
      (FunctionRef.object (Function.new "flux")) _ rfl (by decide)).2.2.1⟩

/-! ## The claims on the dimensions that types and variables carry -/

/-- C33, the claim as stated fails: the default-constructed `FunctionType`, which
`declareFunction(name)` gives to the function it declares, carries no return dimension, and
`returnDimension` on it, with matching arity (no arguments, no actuals) and an inactive dynamic
dimension, reads element 0 of the empty sequence; `setReturnArrayDimension` of an empty
sequence leaves none either. -/
theorem default_functionType_without_return_dimension :
    FunctionType.default.return_dimension = []
      ∧ (getFunction (declareFunction1 SymbolTable.initial "flux").table "flux").2.map
          (fun f => f.type.return_dimension) = Except.ok []
      ∧ FunctionType.default.dynamic.activeDimension = false
      ∧ FunctionType.default.returnDimension [] = Except.error Fault.index_out_of_range
      ∧ ((FunctionType.ofReturnType { basicType := BasicType.Scalar }).setReturnArrayDimension
          []).return_dimension = [] :=
  ⟨rfl, by decide, by decide, by decide, rfl⟩

/-- C33, amended: a `FunctionType` built by one of the three constructors that take a return
type carries exactly one return dimension; `setReturnDimension(d)` leaves exactly the one
dimension `d` and `setReturnArrayDimension(dims)` leaves exactly `dims`, so one or more when
`dims` is not empty; and for every `FunctionType` that carries one or more return dimensions,
`returnDimension` with matching arity and an inactive dynamic dimension returns the first of
them. -/
theorem return_dimension_carried (ft : FunctionType) :
    (∀ rt, (FunctionType.ofReturnType rt).return_dimension = [Dimension.dimensionless])
      ∧ (∀ args rt, (FunctionType.ofArgs args rt).return_dimension = [Dimension.dimensionless])
      ∧ (∀ args rt d dyn, (FunctionType.ofDynamic args rt d dyn).return_dimension = [d])
      ∧ (∀ d, (ft.setReturnDimension d).return_dimension = [d])
      ∧ (∀ dims, (ft.setReturnArrayDimension dims).return_dimension = dims)
      ∧ (∀ argdims : List Dimension, ft.return_dimension ≠ [] →
          argdims.length = ft.arguments.length → ft.dynamic.activeDimension = false →
          ∃ d, ft.return_dimension.head? = some d ∧ ft.returnDimension argdims = Except.ok d) := by
  refine ⟨fun _ => rfl, fun _ _ => rfl, fun _ _ _ _ => rfl, fun _ => rfl, fun _ => rfl, ?_⟩
  intro argdims hne hlen hdyn
  cases hrd : ft.return_dimension with
  | nil => exact absurd hrd hne
  | cons d rest =>
    refine ⟨d, rfl, ?_⟩
    unfold FunctionType.returnDimension
    rw [if_neg (by simpa using hlen), hdyn, hrd, if_neg (by decide), vectorAt_eq_ok]
    exact ⟨le_refl _, by simp⟩

theorem return_dimension_carried_witness :
    ∃ d, (FunctionType.ofReturnType { basicType := BasicType.Scalar }).return_dimension.head?
          = some d
      ∧ (FunctionType.ofReturnType { basicType := BasicType.Scalar }).returnDimension []
          = Except.ok d :=
  (return_dimension_carried (FunctionType.ofReturnType { basicType := BasicType.Scalar })).2.2.2.2.2
    [] (by decide) rfl (by decide)

/-- C34, the claim as stated fails: `declareVariable("u", Scalar)` on the sample scope `f`
leaves a local `u` that carries no dimension, and `variableDimension("u")` queried from that
scope throws the logic error of `Variable::dimension()`. -/
theorem declared_variable_without_dimension :
    declareVariable sampleScopes 1 "u" { basicType := BasicType.Scalar }
        = Except.ok (sampleLocals, [])
      ∧ ((sampleLocals[1]?).bind (fun f => findLocal f.local_variables "u")).map
          Variable.dimension = some []
      ∧ variableDimension sampleLocals 0 1 "u"
        = some (Except.error
            (Fault.logic_error "Internal compiler error in Variable::dimension()")) :=
  ⟨by decide, by decide, by decide⟩

/-- C34, amended: directly after a `declareVariable(name, type)` that declares the variable
(the scope had no local or argument of this name), the variable called `name` carries no
dimension and `variableDimension(name)` throws the logic error of `Variable::dimension()`;
after a following `setVariableDimension(name, D)` it carries exactly the one dimension `D`
and `variableDimension(name)` returns `D`. -/
theorem variable_dimension_after_declaration (fs : List Function) (self : Nat) (F : Function)
    (hF : fs[self]? = some F) (name : String) (T : EquelleType) (hnew : ¬ F.hasName name) :
    ∃ fs1 F1, declareVariable fs self name T = Except.ok (fs1, [])
      ∧ fs1[self]? = some F1
      ∧ findLocal F1.local_variables name = some (Variable.new name T false)
      ∧ (Variable.new name T false).dimension = []
      ∧ (∀ fuel, variableDimension fs1 fuel self name
          = some (Except.error
              (Fault.logic_error "Internal compiler error in Variable::dimension()")))
      ∧ ∀ D fuel, ∃ fs2 F2 w, setVariableDimension fs1 fuel self name D
            = some (Except.ok (fs2, []))
          ∧ fs2[self]? = some F2 ∧ findLocal F2.local_variables name = some w
          ∧ w.dimension = [D]
          ∧ variableDimension fs2 fuel self name = some (Except.ok (D, [])) := by
  have hlt : self < fs.length := (List.getElem?_eq_some.1 hF).1
  have hnone : findLocal F.local_variables (Variable.new name T false).name = none :=
    findLocal_none_of_not_hasName hnew
  have hfound : findLocal (insertLocal F.local_variables (Variable.new name T false)) name
      = some (Variable.new name T false) :=
    findLocal_insertLocal _ (Variable.new name T false) hnone
  have hget : (fs.set self
      { F with local_variables := insertLocal F.local_variables (Variable.new name T false) })[self]?
        = some { F with
            local_variables := insertLocal F.local_variables (Variable.new name T false) } :=
    List.getElem?_set_self hlt
  refine ⟨_, _, ?_, hget, hfound, rfl, ?_, ?_⟩
  · unfold declareVariable
    simp only [hF]
    rw [declareVariable_fresh hnew T]
  · intro fuel
    cases fuel <;>
      · unfold variableDimension
        simp only [hget, hfound]
        rfl
  · intro D fuel
    have herase : eraseLocal (insertLocal F.local_variables (Variable.new name T false)) name
        = F.local_variables := eraseLocal_insertLocal _ (Variable.new name T false) hnone
    have hset := setVariableWith_found (fun v => v.setDimension D)
      "internal compiler error in Function::setVariableDimension()" hget hfound fuel
    simp only [herase] at hset
    have hget2 : ((fs.set self
        { F with
          local_variables := insertLocal F.local_variables (Variable.new name T false) }).set self
        { F with
          local_variables :=
            insertLocal F.local_variables ((Variable.new name T false).setDimension D) })[self]?
          = some { F with
              local_variables :=
                insertLocal F.local_variables ((Variable.new name T false).setDimension D) } :=
      List.getElem?_set_self (by rw [List.length_set]; exact hlt)
    have hfound2 : findLocal
        (insertLocal F.local_variables ((Variable.new name T false).setDimension D)) name
          = some ((Variable.new name T false).setDimension D) :=
      findLocal_insertLocal _ ((Variable.new name T false).setDimension D) hnone
    refine ⟨_, _, _, by rw [setVariableDimension_eq]; exact hset, hget2, hfound2, rfl, ?_⟩
    exact (queries_at_local hget2 hfound2 fuel).2.2.1

theorem variable_dimension_after_declaration_witness :
    ∃ fs1 F1, declareVariable sampleScopes 1 "u" { basicType := BasicType.Vector }
        = Except.ok (fs1, [])
      ∧ fs1[1]? = some F1
      ∧ findLocal F1.local_variables "u"
        = some (Variable.new "u" { basicType := BasicType.Vector } false)
      ∧ (Variable.new "u" { basicType := BasicType.Vector } false).dimension = []
      ∧ (∀ fuel, variableDimension fs1 fuel 1 "u"
          = some (Except.error
              (Fault.logic_error "Internal compiler error in Variable::dimension()")))
      ∧ ∀ D fuel, ∃ fs2 F2 w, setVariableDimension fs1 fuel 1 "u" D
            = some (Except.ok (fs2, []))
          ∧ fs2[1]? = some F2 ∧ findLocal F2.local_variables "u" = some w
          ∧ w.dimension = [D]
          ∧ variableDimension fs2 fuel 1 "u" = some (Except.ok (D, [])) :=
  variable_dimension_after_declaration sampleScopes 1 _ rfl "u"
    { basicType := BasicType.Vector } (by decide)

/-! ## The reference definition of `returnType` -/

theorem resolveProperty_ok {α : Type} (argtypes : List EquelleType) (static : α)
    (property : EquelleType → α) {m : Int} (h : MarkerInRange m argtypes.length) :
    (if m = InvalidIndex then Except.ok static else (vectorAt argtypes m).map property)
      = (Except.ok (resolveProperty argtypes m static property) : Except Fault α) := by
  unfold resolveProperty
  by_cases hm : m = InvalidIndex
  · rw [if_pos hm, if_pos hm]
  · rw [if_neg hm, if_neg hm]
    rcases h with h | ⟨h0, h1⟩
    · exact absurd h hm
    · obtain ⟨x, hx⟩ := vectorAt_of_inRange argtypes h0 h1
      rw [hx, (vectorAt_eq_ok.1 hx).2]
      rfl

/-- C35: for actuals of matching arity and markers that are `InvalidIndex` or argument
indices, `dynamicSubsetReturn(argtypes)` returns a subset and `returnType(argtypes)` returns
the reference type for it: the static return type, mutability included, when the dynamic type
aspect is inactive; otherwise the type with basic type, grid mapping and array size each taken
from the static return type when its marker is `InvalidIndex` and from the designated argument
otherwise, that subset, the static composite type, domain and stencil flags, and mutable =
false, whatever the mutability of the static return type. -/
theorem returnType_eq_reference (ft : FunctionType) (argtypes : List EquelleType)
    (hlen : argtypes.length = ft.arguments.length)
    (hbt : MarkerInRange ft.dynamic.arg_index_for_basic_type argtypes.length)
    (hgm : MarkerInRange ft.dynamic.arg_index_for_gridmapping argtypes.length)
    (hsub : MarkerInRange ft.dynamic.arg_index_for_subset argtypes.length)
    (hasz : MarkerInRange ft.dynamic.arg_index_for_array_size argtypes.length) :
    ∃ subset, ft.dynamicSubsetReturn argtypes = Except.ok subset
      ∧ ft.returnType argtypes = Except.ok (referenceReturnType ft argtypes subset)
      ∧ (ft.dynamic.activeType = false →
          referenceReturnType ft argtypes subset = ft.return_type)
      ∧ (ft.dynamic.activeType = true →
          referenceReturnType ft argtypes subset
            = { basicType :=
                  resolveProperty argtypes ft.dynamic.arg_index_for_basic_type
                    ft.return_type.basicType EquelleType.basicType,
                compositeType := ft.return_type.compositeType,
                gridMapping :=
                  resolveProperty argtypes ft.dynamic.arg_index_for_gridmapping
                    ft.return_type.gridMapping EquelleType.gridMapping,
                subsetOf := subset,
                isMutable := false,
                isDomain := ft.return_type.isDomain,
                arraySize :=
                  resolveProperty argtypes ft.dynamic.arg_index_for_array_size
                    ft.return_type.arraySize EquelleType.arraySize,
                isStencil := ft.return_type.isStencil }
          ∧ (referenceReturnType ft argtypes subset).isMutable = false) := by
  cases hact : ft.dynamic.activeType with
  | false =>
    refine ⟨NotApplicable, ?_, ?_, ?_, ?_⟩
    · unfold FunctionType.dynamicSubsetReturn
      simp [hact]
    · unfold FunctionType.returnType referenceReturnType
      simp [hlen, hact]
    · intro _
      unfold referenceReturnType
      simp [hact]
    · intro h
      cases h
  | true =>
    have h1 := resolveProperty_ok argtypes ft.return_type.basicType EquelleType.basicType hbt
    have h2 := resolveProperty_ok argtypes ft.return_type.gridMapping EquelleType.gridMapping hgm
    have h3 := resolveProperty_ok argtypes ft.return_type.arraySize EquelleType.arraySize hasz
    obtain ⟨sub, hs⟩ : ∃ sub,
        (if isEntityType
              (resolveProperty argtypes ft.dynamic.arg_index_for_basic_type
                ft.return_type.basicType EquelleType.basicType)
            && ft.return_type.isCollection then
          if ft.dynamic.arg_index_for_subset = InvalidIndex then
            Except.ok ft.return_type.subsetOf
          else
            (vectorAt argtypes ft.dynamic.arg_index_for_subset).map EquelleType.gridMapping
        else
          Except.ok NotApplicable) = (Except.ok sub : Except Fault Int) := by
      split
      · exact marker_ok argtypes EquelleType.gridMapping ft.return_type.subsetOf hsub
      · exact ⟨_, rfl⟩
    have href : referenceReturnType ft argtypes sub
        = { basicType :=
              resolveProperty argtypes ft.dynamic.arg_index_for_basic_type
                ft.return_type.basicType EquelleType.basicType,
            compositeType := ft.return_type.compositeType,
            gridMapping :=
              resolveProperty argtypes ft.dynamic.arg_index_for_gridmapping
                ft.return_type.gridMapping EquelleType.gridMapping,
            subsetOf := sub,
            isMutable := false,
            isDomain := ft.return_type.isDomain,
            arraySize :=
              resolveProperty argtypes ft.dynamic.arg_index_for_array_size
                ft.return_type.arraySize EquelleType.arraySize,
            isStencil := ft.return_type.isStencil } := by
      unfold referenceReturnType
      rw [if_pos hact]
    refine ⟨sub, ?_, ?_, ?_, ?_⟩
    · rw [dynamicSubsetReturn_eq_bind ft argtypes hact]
      unfold FunctionType.resolvedBasicType
      rw [h1]
      exact hs
    · rw [returnType_eq_ok ft argtypes hlen hact, href]
      exact ⟨_, _, sub, _, h1, h2, hs, h3, rfl⟩
    · intro h
      cases h
    · intro _
      exact ⟨href, by rw [href]⟩

theorem returnType_eq_reference_witness :
    (FunctionType.ofDynamic
        [Variable.new "x"
          { basicType := BasicType.Scalar, compositeType := CompositeType.Collection,
            gridMapping := InteriorCells }]
        { basicType := BasicType.Scalar, compositeType := CompositeType.Collection,
          isMutable := true }
        Dimension.dimensionless
        (DynamicReturnSpecification.new InvalidIndex 0 InvalidIndex)).returnType
      [{ basicType := BasicType.Scalar, compositeType := CompositeType.Collection,
         gridMapping := BoundaryFaces, isMutable := true }]
    = Except.ok
        { basicType := BasicType.Scalar, compositeType := CompositeType.Collection,
          gridMapping := BoundaryFaces, isMutable := false } := by
  obtain ⟨subset, h1, h2, _, _⟩ := returnType_eq_reference
    (FunctionType.ofDynamic
        [Variable.new "x"
          { basicType := BasicType.Scalar, compositeType := CompositeType.Collection,
            gridMapping := InteriorCells }]
        { basicType := BasicType.Scalar, compositeType := CompositeType.Collection,
          isMutable := true }
        Dimension.dimensionless
        (DynamicReturnSpecification.new InvalidIndex 0 InvalidIndex))
    [{ basicType := BasicType.Scalar, compositeType := CompositeType.Collection,
       gridMapping := BoundaryFaces, isMutable := true }]
    (by decide) (by decide) (by decide) (by decide) (by decide)
  have e1 : (FunctionType.ofDynamic
        [Variable.new "x"
          { basicType := BasicType.Scalar, compositeType := CompositeType.Collection,
            gridMapping := InteriorCells }]
        { basicType := BasicType.Scalar, compositeType := CompositeType.Collection,
          isMutable := true }
        Dimension.dimensionless
        (DynamicReturnSpecification.new InvalidIndex 0 InvalidIndex)).dynamicSubsetReturn
      [{ basicType := BasicType.Scalar, compositeType := CompositeType.Collection,
         gridMapping := BoundaryFaces, isMutable := true }] = Except.ok NotApplicable := by
    decide
  have hs : subset = NotApplicable := Except.ok.inj (h1.symm.trans e1)
  rw [h2, hs]
  decide

/-! ## Visibility along a finite parent chain -/

theorem ancestor_succ_cases {fs : List Function} {g r k : Nat}
    (h : ancestor fs (k + 1) g = some r) :
    ∃ G p, fs[g]? = some G ∧ G.parent_scope = some p ∧ ancestor fs k p = some r := by
  cases hG : fs[g]? with
  | none =>
    rw [ancestor] at h
    simp [hG] at h
  | some G =>
    obtain ⟨p, hp, hap⟩ := ancestor_succ_some hG h
    exact ⟨G, p, rfl, hp, hap⟩

theorem declaredWithin_zero {fs : List Function} {g : Nat} {G : Function} {name : String}
    (hG : fs[g]? = some G) : DeclaredWithin fs 0 g name ↔ G.hasName name := by
  constructor
  · rintro ⟨j, hj, s, S, ha, hS, hn⟩
    obtain rfl : j = 0 := by omega
    obtain rfl : g = s := Option.some.inj ha
    rw [hG] at hS
    exact Option.some.inj hS ▸ hn
  · intro hn
    exact ⟨0, le_refl _, g, G, rfl, hG, hn⟩

theorem declaredWithin_succ {fs : List Function} {g p k : Nat} {G : Function} {name : String}
    (hG : fs[g]? = some G) (hp : G.parent_scope = some p) :
    DeclaredWithin fs (k + 1) g name ↔ G.hasName name ∨ DeclaredWithin fs k p name := by
  constructor
  · rintro ⟨j, hj, s, S, ha, hS, hn⟩
    cases j with
    | zero =>
      obtain rfl : g = s := Option.some.inj ha
      rw [hG] at hS
      exact Or.inl (Option.some.inj hS ▸ hn)
    | succ j =>
      rw [ancestor_succ hG hp] at ha
      exact Or.inr ⟨j, by omega, s, S, ha, hS, hn⟩
  · rintro (hn | ⟨j, hj, s, S, ha, hS, hn⟩)
    · exact ⟨0, by omega, g, G, rfl, hG, hn⟩
    · exact ⟨j + 1, by omega, s, S, by rw [ancestor_succ hG hp]; exact ha, hS, hn⟩

theorem queries_at_declared {fs : List Function} {g : Nat} {G : Function}
    (hG : fs[g]? = some G) {name : String} (hn : G.hasName name) (fuel : Nat) :
    isVariableDeclared fs fuel g name = some (Except.ok (true, []))
      ∧ variableType fs fuel g name = some (Except.ok ((G.declared name).2, [])) := by
  have hd := (declared_fst_iff G name).2 hn
  constructor
  · cases fuel <;>
      · unfold isVariableDeclared
        simp only [hG, hd, if_true]
  · cases fuel <;>
      · unfold variableType
        simp only [hG, hd, Bool.not_true, Bool.false_eq_true, if_false]

theorem queries_at_undeclared_root {fs : List Function} {g : Nat} {G : Function}
    (hG : fs[g]? = some G) (hp : G.parent_scope = none) {name : String}
    (hn : ¬ G.hasName name) (fuel : Nat) :
    isVariableDeclared fs fuel g name = some (Except.ok (false, []))
      ∧ variableType fs fuel g name
        = some (Except.ok ({}, ["could not find variable " ++ name])) := by
  have hd := declared_fst_false hn
  constructor
  · cases fuel <;>
      · unfold isVariableDeclared
        simp only [hG, hd, hp, Bool.false_eq_true, if_false]
  · cases fuel <;>
      · unfold variableType
        simp only [hG, hd, hp, Bool.not_false, if_true]

theorem queries_delegate {fs : List Function} {g p : Nat} {G : Function}
    (hG : fs[g]? = some G) (hp : G.parent_scope = some p) {name : String}
    (hn : ¬ G.hasName name) (fuel : Nat) :
    isVariableDeclared fs (fuel + 1) g name = isVariableDeclared fs fuel p name
      ∧ variableType fs (fuel + 1) g name = variableType fs fuel p name := by
  have hd := declared_fst_false hn
  constructor
  · rw [isVariableDeclared]
    simp only [hG, hd, hp, Bool.false_eq_true, if_false]
  · rw [variableType]
    simp only [hG, hd, hp, Bool.not_false, if_true]

/-- C36: for a scope `F` whose parent chain reaches a scope without parent after `k` steps,
and every name, `isVariableDeclared(name)` queried from `F` returns a boolean without
diagnostic, for every fuel from `k` on; it is true if and only if some scope on the chain from
`F` up to that root has `name` among its local variables or its arguments; and
`variableType(name)` returns as well, reporting no error exactly when
`isVariableDeclared(name)` is true. -/
theorem isVariableDeclared_iff_on_chain (fs : List Function) (name : String) (k : Nat) :
    ∀ (F fuel : Nat), RootAfter fs k F → k ≤ fuel →
      ∃ b T msgs, isVariableDeclared fs fuel F name = some (Except.ok (b, []))
        ∧ (b = true ↔ DeclaredWithin fs k F name)
        ∧ variableType fs fuel F name = some (Except.ok (T, msgs))
        ∧ (msgs = [] ↔ b = true) := by
  induction k with
  | zero =>
    rintro F fuel ⟨root, R, ha, hR, hp⟩ _
    obtain rfl : F = root := Option.some.inj ha
    by_cases hn : R.hasName name
    · obtain ⟨h1, h2⟩ := queries_at_declared hR hn fuel
      exact ⟨true, _, [], h1, by simp [declaredWithin_zero hR, hn], h2, by simp⟩
    · obtain ⟨h1, h2⟩ := queries_at_undeclared_root hR hp hn fuel
      exact ⟨false, _, _, h1, by simp [declaredWithin_zero hR, hn], h2, by simp⟩
  | succ k ih =>
    rintro F fuel ⟨root, R, ha, hR, hp⟩ hk
    obtain ⟨G, p, hG, hGp, hap⟩ := ancestor_succ_cases ha
    by_cases hn : G.hasName name
    · obtain ⟨h1, h2⟩ := queries_at_declared hG hn fuel
      exact ⟨true, _, [], h1, by simp [declaredWithin_succ hG hGp, hn], h2, by simp⟩
    · obtain ⟨d, rfl⟩ : ∃ d, fuel = d + 1 := ⟨fuel - 1, by omega⟩
      obtain ⟨b, T, msgs, h1, h2, h3, h4⟩ := ih p d ⟨root, R, hap, hR, hp⟩ (by omega)
      obtain ⟨e1, e2⟩ := queries_delegate hG hGp hn d
      refine ⟨b, T, msgs, by rw [e1]; exact h1, ?_, by rw [e2]; exact h3, h4⟩
      rw [declaredWithin_succ hG hGp, h2]
      simp [hn]

theorem isVariableDeclared_iff_on_chain_witness :
    RootAfter sampleScopes 2 2
      ∧ ∃ b T msgs, isVariableDeclared sampleScopes 2 2 "x" = some (Except.ok (b, []))
        ∧ (b = true ↔ DeclaredWithin sampleScopes 2 2 "x")
        ∧ variableType sampleScopes 2 2 "x" = some (Except.ok (T, msgs))
        ∧ (msgs = [] ↔ b = true) :=
  ⟨⟨0, _, rfl, rfl, rfl⟩,
    isVariableDeclared_iff_on_chain sampleScopes "x" 2 2 2 ⟨0, _, rfl, rfl, rfl⟩ (by decide)⟩

/-! ## Termination of the lookups when parents come first -/

theorem variableType_returns {fs : List Function} (hpar : ParentsFirst fs) (name : String) :
    ∀ fuel self, (self < fs.length → self ≤ fuel) →
      ∃ r, variableType fs fuel self name = some r := by
  intro fuel
  induction fuel with
  | zero =>
    intro self h
    unfold variableType
    cases hF : fs[self]? with
    | none => exact ⟨_, rfl⟩
    | some f =>
      have hlt := (List.getElem?_eq_some.1 hF).1
      cases hp : f.parent_scope with
      | none => cases hd : (f.declared name).1 <;> simp [hd, hp]
      | some p =>
        have := hpar self f p hF hp
        have := h hlt
        omega
  | succ fuel ih =>
    intro self h
    unfold variableType
    cases hF : fs[self]? with
    | none => exact ⟨_, rfl⟩
    | some f =>
      have hlt := (List.getElem?_eq_some.1 hF).1
      cases hp : f.parent_scope with
      | none => cases hd : (f.declared name).1 <;> simp [hd, hp]
      | some p =>
        have h1 := hpar self f p hF hp
        have h2 := h hlt
        cases hd : (f.declared name).1
        · simpa [hd, hp] using ih p (fun _ => by omega)
        · simp [hd]

theorem isVariableDeclared_returns {fs : List Function} (hpar : ParentsFirst fs) (name : String) :
    ∀ fuel self, (self < fs.length → self ≤ fuel) →
      ∃ r, isVariableDeclared fs fuel self name = some r := by
  intro fuel
  induction fuel with
  | zero =>
    intro self h
    unfold isVariableDeclared
    cases hF : fs[self]? with
    | none => exact ⟨_, rfl⟩
    | some f =>
      have hlt := (List.getElem?_eq_some.1 hF).1
      cases hp : f.parent_scope with
      | none => cases hd : (f.declared name).1 <;> simp [hd, hp]
      | some p =>
        have := hpar self f p hF hp
        have := h hlt
        omega
  | succ fuel ih =>
    intro self h
    unfold isVariableDeclared
    cases hF : fs[self]? with
    | none => exact ⟨_, rfl⟩
    | some f =>
      have hlt := (List.getElem?_eq_some.1 hF).1
      cases hp : f.parent_scope with
      | none => cases hd : (f.declared name).1 <;> simp [hd, hp]
      | some p =>
        have h1 := hpar self f p hF hp
        have h2 := h hlt
        cases hd : (f.declared name).1
        · simpa [hd, hp] using ih p (fun _ => by omega)
        · simp [hd]

theorem variableDimension_returns {fs : List Function} (hpar : ParentsFirst fs) (name : String) :
    ∀ fuel self, (self < fs.length → self ≤ fuel) →
      ∃ r, variableDimension fs fuel self name = some r := by
  intro fuel
  induction fuel with
  | zero =>
    intro self h
    unfold variableDimension
    cases hF : fs[self]? with
    | none => exact ⟨_, rfl⟩
    | some f =>
      have hlt := (List.getElem?_eq_some.1 hF).1
      cases hp : f.parent_scope with
      | none =>
        cases hl : findLocal f.local_variables name <;>
          cases ha : f.type.arguments.find? (fun a => decide (a.name = name)) <;>
          simp [hl, ha, hp]
      | some p =>
        have := hpar self f p hF hp
        have := h hlt
        omega
  | succ fuel ih =>
    intro self h
    unfold variableDimension
    cases hF : fs[self]? with
    | none => exact ⟨_, rfl⟩
    | some f =>
      have hlt := (List.getElem?_eq_some.1 hF).1
      cases hp : f.parent_scope with
      | none =>
        cases hl : findLocal f.local_variables name <;>
          cases ha : f.type.arguments.find? (fun a => decide (a.name = name)) <;>
          simp [hl, ha, hp]
      | some p =>
        have h1 := hpar self f p hF hp
        have h2 := h hlt
        cases hl : findLocal f.local_variables name with
        | some lit => simp [hl]
        | none =>
          cases ha : f.type.arguments.find? (fun a => decide (a.name = name)) with
          | some ait => simp [hl, ha]
          | none => simpa [hl, ha, hp] using ih p (fun _ => by omega)

theorem isVariableAssigned_returns {fs : List Function} (hpar : ParentsFirst fs) (name : String) :
    ∀ fuel self, (self < fs.length → self ≤ fuel) →
      ∃ r, isVariableAssigned fs fuel self name = some r := by
  intro fuel
  induction fuel with
  | zero =>
    intro self h
    unfold isVariableAssigned
    cases hF : fs[self]? with
    | none => exact ⟨_, rfl⟩
    | some f =>
      have hlt := (List.getElem?_eq_some.1 hF).1
      cases hp : f.parent_scope with
      | none =>
        cases hl : findLocal f.local_variables name <;>
          cases ha : f.type.arguments.find? (fun a => decide (a.name = name)) <;>
          simp [hl, ha, hp]
      | some p =>
        have := hpar self f p hF hp
        have := h hlt
        omega
  | succ fuel ih =>
    intro self h
    unfold isVariableAssigned
    cases hF : fs[self]? with
    | none => exact ⟨_, rfl⟩
    | some f =>
      have hlt := (List.getElem?_eq_some.1 hF).1
      cases hp : f.parent_scope with
      | none =>
        cases hl : findLocal f.local_variables name <;>
          cases ha : f.type.arguments.find? (fun a => decide (a.name = name)) <;>
          simp [hl, ha, hp]
      | some p =>
        have h1 := hpar self f p hF hp
        have h2 := h hlt
        cases hl : findLocal f.local_variables name with
        | some lit => simp [hl]
        | none =>
          cases ha : f.type.arguments.find? (fun a => decide (a.name = name)) with
          | some ait => simp [hl, ha]
          | none => simpa [hl, ha, hp] using ih p (fun _ => by omega)

theorem setVariableWith_returns (u : Variable → Variable) (m : String) {fs : List Function}
    (hpar : ParentsFirst fs) (name : String) :
    ∀ fuel self, (self < fs.length → self ≤ fuel) →
      ∃ r, setVariableWith u m fs fuel self name = some r := by
  intro fuel
  induction fuel with
  | zero =>
    intro self h
    unfold setVariableWith
    cases hF : fs[self]? with
    | none => exact ⟨_, rfl⟩
    | some f =>
      have hlt := (List.getElem?_eq_some.1 hF).1
      cases hp : f.parent_scope with
      | none => cases hl : findLocal f.local_variables name <;> simp [hl, hp]
      | some p =>
        have := hpar self f p hF hp
        have := h hlt
        omega
  | succ fuel ih =>
    intro self h
    unfold setVariableWith
    cases hF : fs[self]? with
    | none => exact ⟨_, rfl⟩
    | some f =>
      have hlt := (List.getElem?_eq_some.1 hF).1
      cases hp : f.parent_scope with
      | none => cases hl : findLocal f.local_variables name <;> simp [hl, hp]
      | some p =>
        have h1 := hpar self f p hF hp
        have h2 := h hlt
        cases hl : findLocal f.local_variables name with
        | some lit => simp [hl]
        | none => simpa [hl, hp] using ih p (fun _ => by omega)

/-! ## The invariant of the function list -/

theorem map_set_same {α β : Type} {l : List α} {i : Nat} {a b : α} (h : l[i]? = some a)
    (f : α → β) (hf : f b = f a) : (l.set i b).map f = l.map f := by
  apply List.ext_getElem?
  intro j
  rw [List.getElem?_map, List.getElem?_map]
  by_cases hj : i = j
  · subst hj
    rw [List.getElem?_set_self (List.getElem?_eq_some.1 h).1, h]
    simp [hf]
  · rw [List.getElem?_set_ne hj]

theorem declareFunction_table (st : SymbolTable) (name : String) (ftype : FunctionType)
    (is_template : Bool) :
    (declareFunction st name ftype is_template).table = st
      ∨ (name ∉ st.functions.map Function.name
          ∧ (declareFunction st name ftype is_template).table
            = { st with
                functions := st.functions ++ [declaredFunction st name ftype is_template] }) := by
  unfold declareFunction declareFunctionImpl
  cases h : findFunction st.functions name with
  | none => exact Or.inr ⟨findFunction_eq_none_iff.1 h, rfl⟩
  | some i => exact Or.inl rfl

theorem setCurrentFunction_table (st : SymbolTable) (name : String) :
    (setCurrentFunction st name).table = st
      ∨ ∃ i f, st.functions[i]? = some f
          ∧ (setCurrentFunction st name).table = { st with current_function := i } := by
  unfold setCurrentFunction
  cases h : findFunction st.functions name with
  | none => exact Or.inl rfl
  | some i =>
    obtain ⟨f, hf, _⟩ := findFunction_some h
    exact Or.inr ⟨i, f, hf, rfl⟩

theorem addFunctionInstantiation_table (st : SymbolTable) (func : FunctionRef) :
    (addFunctionInstantiation st func).table = st
      ∨ ∃ i f copied, st.functions[i]? = some f ∧ f.name = copied.name
          ∧ (addFunctionInstantiation st func).table
            = { st with
                functions := st.functions.set i
                  (f.addInstantiation (st.function_instantiations.length : Int)),
                function_instantiations := st.function_instantiations ++ [copied] } := by
  cases hread : func.read st.functions with
  | error fault =>
    left
    unfold addFunctionInstantiation
    rw [hread]
  | ok named =>
    cases h : findFunction st.functions named.name with
    | none =>
      left
      unfold addFunctionInstantiation
      simp only [hread, h]
    | some i =>
      obtain ⟨f, hf, hname, _⟩ := findFunction_some h
      obtain ⟨copied, _, hcn, _, _, _, h6⟩ := addFunctionInstantiation_found hread h hf
      right
      exact ⟨i, f, copied, hf, by rw [hname, hcn], by rw [h6]⟩

theorem scopeInv_initial : ScopeInv SymbolTable.initial where
  cursor := by decide
  size := by decide
  parents := by
    intro i f hf
    have hlt : i < SymbolTable.initial.functions.length := (List.getElem?_eq_some.1 hf).1
    have hmem : f ∈ SymbolTable.initial.functions := by
      obtain ⟨hlt', he⟩ := List.getElem?_eq_some.1 hf
      exact he ▸ List.getElem_mem hlt'
    have hall : ∀ g ∈ SymbolTable.initial.functions, g.parent_scope = none := by decide
    exact Or.inl ⟨hlt, hall f hmem⟩
  names := by decide

theorem scopeInv_declare {st : SymbolTable} (inv : ScopeInv st) (name : String)
    (ftype : FunctionType) (is_template : Bool) :
    ScopeInv (declareFunction st name ftype is_template).table := by
  rcases declareFunction_table st name ftype is_template with h | ⟨hnew, h⟩
  · rw [h]
    exact inv
  · rw [h]
    refine ⟨?_, ?_, ?_, ?_⟩
    · have := inv.cursor
      simp only [List.length_append, List.length_singleton]
      omega
    · have := inv.size
      simp only [List.length_append, List.length_singleton]
      omega
    · intro i f hf
      by_cases hi : i < st.functions.length
      · rw [List.getElem?_append_left hi] at hf
        exact inv.parents i f hf
      · have hlen := (List.getElem?_eq_some.1 hf).1
        simp only [List.length_append, List.length_singleton] at hlen
        have hi' : i = st.functions.length := by omega
        subst hi'
        rw [List.getElem?_concat_length] at hf
        have hfp : f.parent_scope = some st.current_function := by
          rw [← Option.some.inj hf]
          rfl
        exact Or.inr ⟨inv.size, st.current_function, hfp, inv.cursor⟩
    · simp only [List.map_append, List.map_cons, List.map_nil]
      rw [List.nodup_append]
      refine ⟨inv.names, List.nodup_singleton _, ?_⟩
      intro a ha hb
      rw [List.mem_singleton] at hb
      subst hb
      exact hnew ha

theorem scopeInv_enter {st : SymbolTable} (inv : ScopeInv st) (name : String) :
    ScopeInv (setCurrentFunction st name).table := by
  rcases setCurrentFunction_table st name with h | ⟨i, f, hf, h⟩
  · rw [h]
    exact inv
  · rw [h]
    exact ⟨(List.getElem?_eq_some.1 hf).1, inv.size, inv.parents, inv.names⟩

theorem scopeInv_instantiate {st : SymbolTable} (inv : ScopeInv st) (func : FunctionRef) :
    ScopeInv (addFunctionInstantiation st func).table := by
  rcases addFunctionInstantiation_table st func with h | ⟨i, f, copied, hf, _, h⟩
  · rw [h]
    exact inv
  · rw [h]
    have hlt : i < st.functions.length := (List.getElem?_eq_some.1 hf).1
    refine ⟨?_, ?_, ?_, ?_⟩
    · simp only [List.length_set]
      exact inv.cursor
    · simp only [List.length_set]
      exact inv.size
    · intro j g hg
      by_cases hj : i = j
      · subst hj
        simp only [List.getElem?_set_self hlt] at hg
        have hgp : g.parent_scope = f.parent_scope := by
          rw [← Option.some.inj hg]
          rfl
        rw [hgp]
        exact inv.parents i f hf
      · simp only [List.getElem?_set_ne hj] at hg
        exact inv.parents j g hg
    · show ((st.functions.set i _).map Function.name).Nodup
      rw [map_set_same (b := f.addInstantiation _) hf Function.name rfl]
      exact inv.names

theorem scopeInv_of_reachableInstantiations {st : SymbolTable}
    (h : ReachableInstantiations st) : ScopeInv st := by
  induction h with
  | initial => exact scopeInv_initial
  | declare st name ftype is_template _ ih => exact scopeInv_declare ih name ftype is_template
  | enter st name _ ih => exact scopeInv_enter ih name
  | instantiate st func _ ih => exact scopeInv_instantiate ih func

theorem reachableInstantiations_of_reachableScopes {st : SymbolTable}
    (h : ReachableScopes st) : ReachableInstantiations st := by
  induction h with
  | initial => exact ReachableInstantiations.initial
  | declare st name ftype is_template _ ih =>
    exact ReachableInstantiations.declare st name ftype is_template ih
  | enter st name _ ih => exact ReachableInstantiations.enter st name ih

theorem builtins_kept {st : SymbolTable} (h : ReachableScopes st) :
    ∃ l, st.functions = builtinFunctions ++ l := by
  induction h with
  | initial => exact ⟨[], by simp [SymbolTable.initial, declareEntitySet]⟩
  | declare st name ftype is_template _ ih =>
    obtain ⟨l, hl⟩ := ih
    rcases declareFunction_table st name ftype is_template with h | ⟨_, h⟩
    · rw [h]
      exact ⟨l, hl⟩
    · rw [h]
      exact ⟨l ++ [declaredFunction st name ftype is_template], by
        simp only [hl, List.append_assoc]⟩
  | enter st name _ ih =>
    obtain ⟨l, hl⟩ := ih
    rcases setCurrentFunction_table st name with h | ⟨i, f, _, h⟩
    · rw [h]
      exact ⟨l, hl⟩
    · rw [h]
      exact ⟨l, hl⟩

theorem parentsFirst_of_scopeInv {st : SymbolTable} (inv : ScopeInv st) :
    ParentsFirst st.functions := by
  intro i f p hf hp
  rcases inv.parents i f hf with ⟨_, h⟩ | ⟨_, q, hq, hlt⟩
  · rw [h] at hp
    cases hp
  · rw [hq] at hp
    cases hp
    exact hlt

theorem chain_reaches_root {st : SymbolTable} (inv : ScopeInv st) :
    ∀ n i, i ≤ n → i < st.functions.length →
      ∃ k r R, k ≤ i ∧ ancestor st.functions k i = some r ∧ st.functions[r]? = some R
        ∧ R.parent_scope = none ∧ r < builtinFunctions.length := by
  intro n
  induction n with
  | zero =>
    intro i hi hlt
    obtain ⟨f, hf⟩ : ∃ f, st.functions[i]? = some f := ⟨_, List.getElem?_eq_getElem hlt⟩
    rcases inv.parents i f hf with ⟨hb, h⟩ | ⟨_, q, hq, hlt'⟩
    · exact ⟨0, i, f, Nat.zero_le _, rfl, hf, h, hb⟩
    · omega
  | succ n ih =>
    intro i hi hlt
    obtain ⟨f, hf⟩ : ∃ f, st.functions[i]? = some f := ⟨_, List.getElem?_eq_getElem hlt⟩
    rcases inv.parents i f hf with ⟨hb, h⟩ | ⟨_, q, hq, hlt'⟩
    · exact ⟨0, i, f, Nat.zero_le _, rfl, hf, h, hb⟩
    · obtain ⟨k, r, R, hk, ha, hR, hp, hb⟩ := ih q (by omega) (by omega)
      exact ⟨k + 1, r, R, by omega, by rw [ancestor_succ hf hq]; exact ha, hR, hp, hb⟩

/-- C37: in every table reachable from the initial table by `declareFunction` and
`setCurrentFunction`, each function either has no parent scope and is one of the built-ins, at
its place in the list, or has as parent a function strictly earlier in the list; so the parent
chain of every function reaches, after at most as many steps as its position, a built-in
without parent; and with fuel for as many delegations as there are functions, `variableType`,
`variableDimension`, `isVariableDeclared`, `isVariableAssigned` and the four setters return,
from every scope and for every name. -/
theorem parent_chains_end (st : SymbolTable) (h : ReachableScopes st) :
    (∀ (i : Nat) (f : Function), st.functions[i]? = some f →
        (f.parent_scope = none ∧ builtinFunctions[i]? = some f)
          ∨ ∃ p, f.parent_scope = some p ∧ p < i)
      ∧ (∀ i, i < st.functions.length →
          ∃ k r R, k ≤ i ∧ ancestor st.functions k i = some r ∧ st.functions[r]? = some R
            ∧ R.parent_scope = none ∧ builtinFunctions[r]? = some R)
      ∧ (∀ (name : String) (self fuel : Nat), st.functions.length ≤ fuel →
          (∃ r, variableType st.functions fuel self name = some r)
            ∧ (∃ r, variableDimension st.functions fuel self name = some r)
            ∧ (∃ r, isVariableDeclared st.functions fuel self name = some r)
            ∧ (∃ r, isVariableAssigned st.functions fuel self name = some r)
            ∧ (∀ b, ∃ r, setVariableAssigned st.functions fuel self name b = some r)
            ∧ (∀ T, ∃ r, setVariableType st.functions fuel self name T = some r)
            ∧ (∀ D, ∃ r, setVariableDimension st.functions fuel self name D = some r)
            ∧ (∀ Ds, ∃ r, setVariableDimensions st.functions fuel self name Ds = some r)) := by
  have inv := scopeInv_of_reachableInstantiations (reachableInstantiations_of_reachableScopes h)
  have hpar := parentsFirst_of_scopeInv inv
  obtain ⟨l, hl⟩ := builtins_kept h
  have hbuiltin : ∀ (i : Nat) (f : Function), st.functions[i]? = some f →
      i < builtinFunctions.length → builtinFunctions[i]? = some f := by
    intro i f hf hi
    rw [hl, List.getElem?_append_left hi] at hf
    exact hf
  refine ⟨?_, ?_, ?_⟩
  · intro i f hf
    rcases inv.parents i f hf with ⟨hb, hn⟩ | ⟨_, p, hp, hlt⟩
    · exact Or.inl ⟨hn, hbuiltin i f hf hb⟩
    · exact Or.inr ⟨p, hp, hlt⟩
  · intro i hi
    obtain ⟨k, r, R, hk, ha, hR, hp, hb⟩ := chain_reaches_root inv i i (le_refl _) hi
    exact ⟨k, r, R, hk, ha, hR, hp, hbuiltin r R hR hb⟩
  · intro name self fuel hfuel
    have hself : self < st.functions.length → self ≤ fuel := fun hlt => by omega
    refine ⟨variableType_returns hpar name fuel self hself,
      variableDimension_returns hpar name fuel self hself,
      isVariableDeclared_returns hpar name fuel self hself,
      isVariableAssigned_returns hpar name fuel self hself,
      fun b => ?_, fun T => ?_, fun D => ?_, fun Ds => ?_⟩
    · rw [setVariableAssigned_eq]
      exact setVariableWith_returns _ _ hpar name fuel self hself
    · rw [setVariableType_eq]
      exact setVariableWith_returns _ _ hpar name fuel self hself
    · rw [setVariableDimension_eq]
      exact setVariableWith_returns _ _ hpar name fuel self hself
    · rw [setVariableDimensions_eq]
      exact setVariableWith_returns _ _ hpar name fuel self hself

theorem parent_chains_end_witness :
    ReachableScopes (declareFunction SymbolTable.initial "flux" FunctionType.default false).table
      ∧ (∃ k r R, k ≤ 37
          ∧ ancestor (declareFunction SymbolTable.initial "flux" FunctionType.default
              false).table.functions k 37 = some r
          ∧ (declareFunction SymbolTable.initial "flux" FunctionType.default
              false).table.functions[r]? = some R
          ∧ R.parent_scope = none ∧ builtinFunctions[r]? = some R)
      ∧ ∃ r, variableType (declareFunction SymbolTable.initial "flux" FunctionType.default
          false).table.functions 38 37 "x" = some r :=
  ⟨ReachableScopes.declare _ _ _ _ ReachableScopes.initial,
    (parent_chains_end _ (ReachableScopes.declare _ "flux" FunctionType.default false
      ReachableScopes.initial)).2.1 37 (by decide),
    ((parent_chains_end _ (ReachableScopes.declare _ "flux" FunctionType.default false
      ReachableScopes.initial)).2.2 "x" 37 38 (by decide)).1⟩

/-! ## The invariant of the instantiation store -/

theorem instantiationInv_initial : InstantiationInv SymbolTable.initial := by
  have hall : ∀ g ∈ SymbolTable.initial.functions, g.instantiations = [] := by decide
  have hmem : ∀ (j : Nat) (f : Function), SymbolTable.initial.functions[j]? = some f →
      f.instantiations = [] := by
    intro j f hf
    obtain ⟨hlt, he⟩ := List.getElem?_eq_some.1 hf
    exact hall f (he ▸ List.getElem_mem hlt)
  refine ⟨?_, ?_, ?_⟩
  · intro j f hf
    rw [hmem j f hf]
    exact List.Pairwise.nil
  · intro j f hf x hx
    rw [hmem j f hf] at hx
    cases hx
  · intro n hn
    have hlen : SymbolTable.initial.function_instantiations.length = 0 := by decide
    omega

theorem instantiationInv_declare {st : SymbolTable} (inv : InstantiationInv st) (name : String)
    (ftype : FunctionType) (is_template : Bool) :
    InstantiationInv (declareFunction st name ftype is_template).table := by
  rcases declareFunction_table st name ftype is_template with h | ⟨_, h⟩
  · rw [h]
    exact inv
  · rw [h]
    have hcases : ∀ (j : Nat) (f : Function),
        (st.functions ++ [declaredFunction st name ftype is_template])[j]? = some f →
        st.functions[j]? = some f ∨ f.instantiations = [] := by
      intro j f hf
      by_cases hj : j < st.functions.length
      · rw [List.getElem?_append_left hj] at hf
        exact Or.inl hf
      · have hlen := (List.getElem?_eq_some.1 hf).1
        simp only [List.length_append, List.length_singleton] at hlen
        have hj' : j = st.functions.length := by omega
        subst hj'
        rw [List.getElem?_concat_length] at hf
        right
        rw [← Option.some.inj hf]
        rfl
    refine ⟨?_, ?_, ?_⟩
    · intro j f hf
      rcases hcases j f hf with h1 | h1
      · exact inv.increasing j f h1
      · rw [h1]
        exact List.Pairwise.nil
    · intro j f hf x hx
      rcases hcases j f hf with h1 | h1
      · exact inv.stored j f h1 x hx
      · rw [h1] at hx
        cases hx
    · intro n hn
      obtain ⟨j, f, hf, hm⟩ := inv.covered n hn
      refine ⟨j, f, ?_, hm⟩
      show (st.functions ++ _)[j]? = some f
      rw [List.getElem?_append_left (List.getElem?_eq_some.1 hf).1]
      exact hf

theorem instantiationInv_enter {st : SymbolTable} (inv : InstantiationInv st) (name : String) :
    InstantiationInv (setCurrentFunction st name).table := by
  rcases setCurrentFunction_table st name with h | ⟨i, f, _, h⟩
  · rw [h]
    exact inv
  · rw [h]
    exact ⟨inv.increasing, inv.stored, inv.covered⟩

theorem instantiationInv_instantiate {st : SymbolTable} (inv : InstantiationInv st)
    (func : FunctionRef) : InstantiationInv (addFunctionInstantiation st func).table := by
  rcases addFunctionInstantiation_table st func with h | ⟨i, f, copied, hf, hname, h⟩
  · rw [h]
    exact inv
  · rw [h]
    have hlt : i < st.functions.length := (List.getElem?_eq_some.1 hf).1
    have hbelow : ∀ (j : Nat) (g : Function), st.functions[j]? = some g →
        ∀ x : Int, x ∈ g.instantiations →
          0 ≤ x ∧ x < (st.function_instantiations.length : Int)
            ∧ x.toNat < st.function_instantiations.length := by
      intro j g hg x hx
      obtain ⟨h0, k, hk, _⟩ := inv.stored j g hg x hx
      have h1 := (List.getElem?_eq_some.1 hk).1
      exact ⟨h0, (Int.toNat_lt h0).1 h1, h1⟩
    have hcases : ∀ (j : Nat) (g : Function),
        (st.functions.set i
          (f.addInstantiation (st.function_instantiations.length : Int)))[j]? = some g →
        st.functions[j]? = some g
          ∨ (j = i ∧ g.name = f.name
              ∧ g.instantiations
                = f.instantiations ++ [(st.function_instantiations.length : Int)]) := by
      intro j g hg
      by_cases hj : i = j
      · subst hj
        rw [List.getElem?_set_self hlt] at hg
        right
        rw [← Option.some.inj hg]
        exact ⟨rfl, rfl, rfl⟩
      · rw [List.getElem?_set_ne hj] at hg
        exact Or.inl hg
    refine ⟨?_, ?_, ?_⟩
    · intro j g hg
      rcases hcases j g hg with h1 | ⟨_, _, h1⟩
      · exact inv.increasing j g h1
      · rw [h1, List.pairwise_append]
        refine ⟨inv.increasing i f hf, List.pairwise_singleton _ _, ?_⟩
        intro a ha b hb
        rw [List.mem_singleton] at hb
        rw [hb]
        exact (hbelow i f hf a ha).2.1
    · intro j g hg x hx
      show 0 ≤ x ∧ ∃ k : Function,
        (st.function_instantiations ++ [copied])[x.toNat]? = some k ∧ k.name = g.name
      rcases hcases j g hg with h1 | ⟨_, hn, h1⟩
      · obtain ⟨h0, k, hk, hkn⟩ := inv.stored j g h1 x hx
        exact ⟨h0, k, by
          rw [List.getElem?_append_left (List.getElem?_eq_some.1 hk).1]; exact hk, hkn⟩
      · rw [h1, List.mem_append, List.mem_singleton] at hx
        rcases hx with hx | hx
        · obtain ⟨h0, k, hk, hkn⟩ := inv.stored i f hf x hx
          exact ⟨h0, k, by
            rw [List.getElem?_append_left (List.getElem?_eq_some.1 hk).1]; exact hk,
            by rw [hkn, hn]⟩
        · rw [hx]
          refine ⟨Int.natCast_nonneg _, copied, ?_, by rw [hn, hname]⟩
          rw [Int.toNat_ofNat, List.getElem?_concat_length]
    · intro n hn
      show ∃ (j : Nat) (g : Function),
        (st.functions.set i
          (f.addInstantiation (st.function_instantiations.length : Int)))[j]? = some g
          ∧ (n : Int) ∈ g.instantiations
      simp only [List.length_append, List.length_singleton] at hn
      by_cases hn' : n < st.function_instantiations.length
      · obtain ⟨j, g, hg, hm⟩ := inv.covered n hn'
        by_cases hj : i = j
        · subst hj
          rw [hf] at hg
          cases hg
          exact ⟨i, _, List.getElem?_set_self hlt, List.mem_append_left _ hm⟩
        · exact ⟨j, g, by rw [List.getElem?_set_ne hj]; exact hg, hm⟩
      · have hn2 : n = st.function_instantiations.length := by omega
        subst hn2
        exact ⟨i, _, List.getElem?_set_self hlt,
          List.mem_append_right _ (List.mem_singleton.2 rfl)⟩

theorem instantiationInv_of_reachable {st : SymbolTable} (h : ReachableInstantiations st) :
    InstantiationInv st := by
  induction h with
  | initial => exact instantiationInv_initial
  | declare st name ftype is_template _ ih =>
    exact instantiationInv_declare ih name ftype is_template
  | enter st name _ ih => exact instantiationInv_enter ih name
  | instantiate st func _ ih => exact instantiationInv_instantiate ih func

/-- C38: in every table reachable from the initial table by `declareFunction`,
`setCurrentFunction` and `addFunctionInstantiation`, the instantiation lists partition the
store: every index `n` below the store size occurs in `instantiations()` of exactly one
function of the global list, exactly once, and the name of that function is the name of
`getFunctionInstantiation(n)`; every list is strictly increasing and holds only indices from
0 up to, and not including, the store size. -/
theorem instantiations_partition_store (st : SymbolTable) (h : ReachableInstantiations st) :
    (∀ n : Nat, n < st.function_instantiations.length →
        ∃ (j : Nat) (f g : Function), st.functions[j]? = some f
          ∧ f.instantiations.count (n : Int) = 1
          ∧ getFunctionInstantiation st (n : Int) = Except.ok g ∧ f.name = g.name
          ∧ ∀ (j2 : Nat) (f2 : Function), st.functions[j2]? = some f2 →
              (n : Int) ∈ f2.instantiations → j2 = j)
      ∧ ∀ (j : Nat) (f : Function), st.functions[j]? = some f →
          f.instantiations.Pairwise (fun x y => x < y)
            ∧ ∀ x ∈ f.instantiations, 0 ≤ x ∧ x < (st.function_instantiations.length : Int) := by
  have inv := instantiationInv_of_reachable h
  have sinv := scopeInv_of_reachableInstantiations h
  constructor
  · intro n hn
    obtain ⟨j, f, hf, hm⟩ := inv.covered n hn
    obtain ⟨_, g, hg, hgn⟩ := inv.stored j f hf n hm
    rw [Int.toNat_ofNat] at hg
    have hnodup : f.instantiations.Nodup :=
      (inv.increasing j f hf).imp (fun hxy => ne_of_lt hxy)
    refine ⟨j, f, g, hf, List.count_eq_one_of_mem hnodup hm, ?_, hgn.symm, ?_⟩
    · unfold getFunctionInstantiation
      rw [vectorAt_eq_ok, Int.toNat_ofNat]
      exact ⟨Int.natCast_nonneg _, hg⟩
    · intro j2 f2 hf2 hm2
      obtain ⟨_, g2, hg2, hgn2⟩ := inv.stored j2 f2 hf2 n hm2
      rw [Int.toNat_ofNat, hg] at hg2
      cases hg2
      have hj : j < (st.functions.map Function.name).length := by
        rw [List.length_map]
        exact (List.getElem?_eq_some.1 hf).1
      have hj2 : j2 < (st.functions.map Function.name).length := by
        rw [List.length_map]
        exact (List.getElem?_eq_some.1 hf2).1
      have e1 : (st.functions.map Function.name)[j] = f.name := by
        rw [List.getElem_map, (List.getElem?_eq_some.1 hf).2]
      have e2 : (st.functions.map Function.name)[j2] = f2.name := by
        rw [List.getElem_map, (List.getElem?_eq_some.1 hf2).2]
      exact (sinv.names.getElem_inj_iff).1 (by rw [e1, e2, ← hgn, ← hgn2])
  · intro j f hf
    refine ⟨inv.increasing j f hf, ?_⟩
    intro x hx
    obtain ⟨h0, g, hg, _⟩ := inv.stored j f hf x hx
    exact ⟨h0, (Int.toNat_lt h0).1 (List.getElem?_eq_some.1 hg).1⟩

theorem instantiations_partition_store_witness :
    ReachableInstantiations
        (addFunctionInstantiation SymbolTable.initial
          (FunctionRef.object (Function.new "Sqrt"))).table
      ∧ ∃ (j : Nat) (f g : Function),
          (addFunctionInstantiation SymbolTable.initial
            (FunctionRef.object (Function.new "Sqrt"))).table.functions[j]? = some f
          ∧ f.instantiations.count ((0 : Nat) : Int) = 1
          ∧ getFunctionInstantiation
              (addFunctionInstantiation SymbolTable.initial
                (FunctionRef.object (Function.new "Sqrt"))).table
              ((0 : Nat) : Int) = Except.ok g
          ∧ f.name = g.name
          ∧ ∀ (j2 : Nat) (f2 : Function),
              (addFunctionInstantiation SymbolTable.initial
                (FunctionRef.object (Function.new "Sqrt"))).table.functions[j2]? = some f2 →
              ((0 : Nat) : Int) ∈ f2.instantiations → j2 = j :=
  ⟨ReachableInstantiations.instantiate _ _ ReachableInstantiations.initial,
    (instantiations_partition_store _
      (ReachableInstantiations.instantiate _ (FunctionRef.object (Function.new "Sqrt"))
        ReachableInstantiations.initial)).1 0 (by decide)⟩

/-! ## Antisymmetry of `isSubset` -/

theorem superset_cycle_trivial {st : SymbolTable} (inv : RegistryInv st) {a b : Int}
    (ha : isDeclared st.entitysets a) {k1 k2 : Nat}
    (h1 : supersetIter st.entitysets k1 a = some b)
    (h2 : supersetIter st.entitysets k2 b = some a) : a = b := by
  cases k1 with
  | zero => exact Option.some.inj h1
  | succ k1 =>
    obtain ⟨e, he, hea⟩ := ha
    have hcycle : supersetIter st.entitysets (k1 + 1 + k2) e.index = some e.index := by
      rw [hea, supersetIter_add, h1]
      exact h2
    have hroot := (wellFormed_of_registryInv inv).acyclic e he (k1 + 1 + k2) (by omega) hcycle
    have hsup : supersetOf st.entitysets a = some a := by
      have := supersetOf_of_mem inv he
      rw [hroot, hea] at this
      exact this
    have := supersetIter_root hsup (k1 + 1)
    rw [h1] at this
    exact (Option.some.inj this).symm

/-- C40: in every state reachable from the initial table by `declareNewEntitySet` calls whose
superset is an already declared set, for declared sets `a` and `b`: if `isSubset(a, b)` and
`isSubset(b, a)` both return true then `a = b`; and for every fuel from the number of sets on
both calls do return, without diagnostic. -/
theorem isSubset_antisymm (st : SymbolTable) (hst : ReachableDeclared st) (a b : Int)
    (ha : isDeclared st.entitysets a) (hb : isDeclared st.entitysets b) :
    (∀ (f1 f2 : Nat) (d1 d2 : List String), isSubset f1 st a b = some (true, d1) →
        isSubset f2 st b a = some (true, d2) → a = b)
      ∧ ∀ fuel, st.entitysets.length ≤ fuel →
        ∃ r1 r2, isSubset fuel st a b = some (r1, []) ∧ isSubset fuel st b a = some (r2, [])
          ∧ (r1 = true → r2 = true → a = b) := by
  have inv := registryInv_of_reachableDeclared hst
  have hra := reachesRoot_of_registryInv inv ha
  have hrb := reachesRoot_of_registryInv inv hb
  have key : ∀ (f1 f2 : Nat) (d1 d2 : List String), isSubset f1 st a b = some (true, d1) →
      isSubset f2 st b a = some (true, d2) → a = b := by
    intro f1 f2 d1 d2 h1 h2
    obtain ⟨k1, hk1⟩ := supersetIter_of_isSubsetImpl_true hra h1
    obtain ⟨k2, hk2⟩ := supersetIter_of_isSubsetImpl_true hrb h2
    exact superset_cycle_trivial inv ha hk1 hk2
  refine ⟨key, ?_⟩
  intro fuel hfuel
  have e1 := isSubsetImpl_eq_of_reachesRoot st.entitysets b st.entitysets.length a fuel
    st.entitysets.length hra hfuel (le_refl _)
  have e2 := isSubsetImpl_eq_of_reachesRoot st.entitysets a st.entitysets.length b fuel
    st.entitysets.length hrb hfuel (le_refl _)
  refine ⟨_, _, e1, e2, ?_⟩
  intro h1 h2
  rw [h1] at e1
  rw [h2] at e2
  exact key fuel fuel [] [] e1 e2

theorem isSubset_antisymm_witness :
    ReachableDeclared (declareNewEntitySet SymbolTable.initial "MyCells" InteriorCells).2
      ∧ isSubset 13 (declareNewEntitySet SymbolTable.initial "MyCells" InteriorCells).2
          14 AllCells = some (true, [])
      ∧ isSubset 13 (declareNewEntitySet SymbolTable.initial "MyCells" InteriorCells).2
          AllCells 14 = some (false, [])
      ∧ ∃ r1 r2,
          isSubset 13 (declareNewEntitySet SymbolTable.initial "MyCells" InteriorCells).2
            14 AllCells = some (r1, [])
          ∧ isSubset 13 (declareNewEntitySet SymbolTable.initial "MyCells" InteriorCells).2
            AllCells 14 = some (r2, [])
          ∧ (r1 = true → r2 = true → (14 : Int) = AllCells) :=
  ⟨ReachableDeclared.declare _ _ _ ReachableDeclared.initial (by decide), by decide, by decide,
    (isSubset_antisymm _
      (ReachableDeclared.declare _ "MyCells" InteriorCells ReachableDeclared.initial
        (by decide))
      14 AllCells (by decide) (by decide)).2 13 (by decide)⟩

end Equelle
